import Mathlib

/-! # Forward proxy handler: ACL, dial pipeline and request dispatch

A shallow embedding of `forwardproxy.go` (the `Handler` of the non-local forward
proxy) together with the properties of its access-control list, its port
allow-list, its dial pipeline `dialContextCheckACL` and the dispatch performed
by `ServeHTTP`.

Conventions of the embedding:

* Go byte slices (`net.IP`, `net.IPMask`) are lists of naturals below 256.
* A Go result pair `(conn, err)` is kept as a pair of options, because the
  source itself distinguishes the four combinations.
* Everything the handler does to the outside (DNS lookups, dials, calling the
  next handler) is threaded through an explicit `World` and recorded as a list
  of `Call`s, so that "is never dialed" is a statement about that list.
* Functions of the Go standard library and of Caddy that the handler calls are
  fields of a `Runtime` record, except where a claim depends on what they
  compute (`strconv.Atoi`, `net.JoinHostPort`, `net.IPNet.Contains`).
-/

namespace ForwardProxy

/-! ## Addresses -/

/-- Go `net.IP`: a byte slice, 4 bytes for IPv4 and 16 for IPv6. -/
abbrev IP := List Nat

/-- Go `net.IPMask`. -/
abbrev IPMask := List Nat

/-- Go `net.IPNet`. -/
structure IPNet where
  IP : IP
  Mask : IPMask
  deriving DecidableEq, Repr

/-- Go `net.TCPAddr`, the only `net.Addr` the handler builds. -/
structure TCPAddr where
  IP : IP
  Port : Nat := 0
  deriving DecidableEq, Repr

/-- The 12-byte prefix of an IPv4-mapped IPv6 address (`v4InV6Prefix`). -/
def v4InV6Prefix : List Nat := [0, 0, 0, 0, 0, 0, 0, 0, 0, 0, 255, 255]

/-- Go `IP.To4`: the 4-byte form of an IPv4 address, `none` (nil) otherwise. -/
def IP.To4 (ip : IP) : Option IP :=
  if ip.length = 4 then some ip
  else if ip.length = 16 ∧ ip.take 12 = v4InV6Prefix then some (ip.drop 12)
  else none

/-- Byte-wise comparison under a mask, the loop of `IPNet.Contains`. -/
def maskedEq : List Nat → List Nat → List Nat → Bool
  | n :: ns, m :: ms, x :: xs => (n &&& m == x &&& m) && maskedEq ns ms xs
  | _, _, _ => true

/-- Go `networkNumberAndMask`: address and mask of a network brought to a
common length, or a pair of nil slices when they do not fit. -/
def networkNumberAndMask (n : IPNet) : ForwardProxy.IP × IPMask :=
  let ip : Option ForwardProxy.IP :=
    match IP.To4 n.IP with
    | some x => some x
    | none => if n.IP.length = 16 then some n.IP else none
  match ip with
  | none => ([], [])
  | some ip =>
    if n.Mask.length = 4 then
      (if ip.length ≠ 4 then ([], []) else (ip, n.Mask))
    else if n.Mask.length = 16 then
      (if ip.length = 4 then (ip, n.Mask.drop 12) else (ip, n.Mask))
    else ([], [])

/-- Go `(*IPNet).Contains`. -/
def IPNet.Contains (n : IPNet) (ip : ForwardProxy.IP) : Bool :=
  let nn := (networkNumberAndMask n).1
  let m := (networkNumberAndMask n).2
  let ip := match IP.To4 ip with
    | some x => x
    | none => ip
  if ip.length ≠ nn.length then false
  else maskedEq nn m ip

/-! ## Access-control rules -/

/-- Result of matching one compiled rule (`aclDecision` of `acl.go`). -/
inductive aclDecision
  | aclDecisionAllow
  | aclDecisionDeny
  | aclDecisionNoMatch
  deriving DecidableEq, Repr

/-- Modelled from the spec: the compiled rule variants of `acl.go`, which is
not among the sources. Section 3 lists them as a CIDR rule (a network block and
allow/deny), a hostname rule (an exact lowercase hostname and allow/deny) and a
wildcard rule (catch-all and allow/deny). `aclAllRule` with its field `allow`
is the name `Provision` uses. -/
inductive aclRule
  | aclIPRule (net : IPNet) (allow : Bool)
  | aclDomainRule (domain : String) (allow : Bool)
  | aclAllRule (allow : Bool)
  deriving DecidableEq, Repr

/-- The decision a rule takes once it matches. -/
def decisionOf (allow : Bool) : aclDecision :=
  if allow then .aclDecisionAllow else .aclDecisionDeny

/-- ASCII lower-casing of a string. -/
def asciiLower (s : String) : String := String.mk (s.data.map Char.toLower)

/-- Modelled from the spec: `tryMatch(ip, hostname)` of a compiled rule
(`acl.go` is not among the sources). A CIDR rule decides for the addresses of
its block, a hostname rule for its hostname compared case-insensitively, the
wildcard for everything; otherwise the rule returns `NoMatch`. -/
def aclRule.tryMatch (rule : aclRule) (ip : IP) (hostname : String) : aclDecision :=
  match rule with
  | .aclIPRule net allow =>
    if net.Contains ip then decisionOf allow else .aclDecisionNoMatch
  | .aclDomainRule domain allow =>
    if asciiLower hostname = domain then decisionOf allow else .aclDecisionNoMatch
  | .aclAllRule allow => decisionOf allow

/-! ## The handler -/

/-- Go `ProbeResistance`. -/
structure ProbeResistance where
  Domain : String := ""
  deriving DecidableEq, Repr

/-- Go `ACLRule`: one configured rule, several subjects sharing one flag. -/
structure ACLRule where
  Subjects : List String
  Allow : Bool
  deriving DecidableEq, Repr

/-- The parts of a parsed `url.URL` the handler reads. -/
structure URL where
  Scheme : String := ""
  Host : String := ""
  Path : String := ""
  User : String := ""
  deriving DecidableEq, Repr

/-- The first element of a list that satisfies a test, with what precedes it
and what follows it. -/
def breakAt (p : Char → Bool) : List Char → Option (List Char × List Char)
  | [] => none
  | c :: cs =>
    if p c then some ([], cs)
    else
      match breakAt p cs with
      | some (l, r) => some (c :: l, r)
      | none => none

/-- Go `splitHostPort` of `net/url`: the host without a valid port, and the
port without its colon; brackets around the host are removed. -/
def urlSplitHostPort (hostPort : String) : String × String :=
  let split : List Char × List Char :=
    match breakAt (fun c => c = ':') hostPort.data.reverse with
    | some (portRev, hostRev) =>
      if portRev.all (fun c => decide (48 ≤ c.toNat ∧ c.toNat ≤ 57)) then
        (hostRev.reverse, portRev.reverse)
      else (hostPort.data, [])
    | none => (hostPort.data, [])
  let host := split.1
  let host :=
    if host.head? = some '[' ∧ host.getLast? = some ']' then (host.drop 1).dropLast else host
  (String.mk host, String.mk split.2)

/-- Go `(*URL).Hostname`. -/
def URL.Hostname (u : URL) : String := (urlSplitHostPort u.Host).1

/-- Go `(*URL).Port`. -/
def URL.Port (u : URL) : String := (urlSplitHostPort u.Host).2

/-- A connection handle (`net.Conn`). -/
abbrev Conn := Nat

/-- A Go `error` as the handler produces it: either a `caddyhttp.HandlerError`
carrying an HTTP status (built by `caddyhttp.Error`) or any other error. -/
inductive Error
  | handlerError (StatusCode : Nat) (msg : String)
  | plain (msg : String)
  deriving DecidableEq, Repr

/-- Go `caddyhttp.Error`. -/
def caddyhttpError (status : Nat) (msg : String) : Error := .handlerError status msg

/-- HTTP status of a handler error, `none` for a plain error. -/
def Error.status : Error → Option Nat
  | .handlerError c _ => some c
  | .plain _ => none

/-- State of everything outside the handler's configuration. `tick` counts
what has happened so far, so that an external function may answer differently
on every call; `randPos` is the number of bytes the random source has produced;
`bindIP` is the content of the byte array behind `DefaultBind.IP` once a dial
has written to it (the handler shares that array between all requests). -/
structure World where
  tick : Nat := 0
  randPos : Nat := 0
  bindIP : Option (List Nat) := none
  deriving DecidableEq, Repr

/-- Result pair `(net.Conn, error)` of a dial: both, one or none may be nil. -/
abbrev DialResult := Option Conn × Option String

/-- Type of the field `dialContext`: `(ctx, network, address, bind)` to
`(net.Conn, error)`, with its effect on the outside made explicit. -/
abbrev DialFn := World → String → String → Option TCPAddr → DialResult × World

/-- Go `Handler`. `Hosts` is the list of a `caddyhttp.MatchHost`; the private
fields `upstream`, `aclRules` and `dialContext` are those set by `Provision`.
`HostOverride` is the map the `host_override` directive of `caddyfile.go`
assigns (a list of key and value, one entry per key); the struct declared in
`forwardproxy.go` has no such field and nothing in `forwardproxy.go` reads it. -/
structure Handler where
  PACPath : String := ""
  HideIP : Bool := false
  HideVia : Bool := false
  Hosts : List String := []
  ProbeResistance : Option ProbeResistance := none
  DialTimeout : Int := 0
  Upstream : String := ""
  ACL : List ACLRule := []
  AllowedPorts : List Int := []
  DefaultBind : Option IPNet := none
  dialContext : DialFn := fun w _ _ _ => ((none, some "dialContext is nil"), w)
  upstream : Option URL := none
  randSource : Option Int := none
  aclRules : List aclRule := []
  AuthRequired : Bool := false
  AuthCredentials : List String := []
  HostOverride : List (String × String) := []

/-! ## HTTP messages -/

/-- Go `http.Header`: the values of each key, keys in canonical form. -/
abbrev Header := List (String × List String)

/-- Go `http.Request`, the fields the handler reads or writes. `Body` is what
reading the body to its end gives: the bytes, or a read error (the body of a
server request is never nil). -/
structure Request where
  Method : String := "GET"
  Host : String := ""
  URL : URL := {}
  Proto : String := "HTTP/1.1"
  ProtoMajor : Int := 1
  ProtoMinor : Int := 1
  Header : Header := []
  RemoteAddr : String := ""
  RequestURI : String := ""
  Body : Except String String := .ok ""

/-- Go `http.Response`, the fields `forwardResponse` reads. -/
structure Response where
  StatusCode : Nat := 200
  ProtoMajor : Int := 1
  ProtoMinor : Int := 1
  Header : Header := []
  Body : Except String String := .ok ""

/-- Go `http.ResponseWriter`: the header map `w.Header()`, the status once
`WriteHeader` has run together with the header sent with it, the body written
so far, and whether the writer is an `http.Hijacker` and an `http.Flusher`. -/
structure ResponseWriter where
  header : Header := []
  status : Option Nat := none
  sent : Header := []
  body : String := ""
  flushed : Nat := 0
  hijacker : Bool := true
  flusher : Bool := true
  deriving DecidableEq, Repr

/-- Go `ResponseWriter.WriteHeader`: the first call fixes status and header. -/
def ResponseWriter.WriteHeader (w : ResponseWriter) (code : Nat) : ResponseWriter :=
  if w.status.isSome then w else { w with status := some code, sent := w.header }

/-- Go `ResponseWriter.Write`: writes status 200 first when none was written. -/
def ResponseWriter.Write (w : ResponseWriter) (b : String) : ResponseWriter :=
  let w := w.WriteHeader 200
  { w with body := w.body ++ b }

/-! ## The outside world -/

/-- What the handler asks of the outside, in the order it asks. -/
inductive Call
  | lookupIP (host : String)
  | dial (network address : String) (bind : Option TCPAddr)
  | next
  | exchange (conn : Conn)
  | tunnel (conn : Conn)
  deriving DecidableEq, Repr

/-- ASCII white space removed at both ends of a string. -/
def asciiTrim (s : String) : String :=
  let ws : Char → Bool := fun c => c = ' ' ∨ c = '\t' ∨ c = '\n' ∨ c = '\r'
  String.mk ((s.data.dropWhile ws).reverse.dropWhile ws).reverse

/-- The functions of the Go standard library and of Caddy that the handler
calls and whose result the handler only passes on. Those that reach outside
the process take and return the `World`; an `Except.error` stands for a non-nil
`error`. -/
structure Runtime where
  /-- Go `net.SplitHostPort`. -/
  SplitHostPort : String → Except String (String × String)
  /-- Go `net.LookupIP`. -/
  LookupIP : World → String → Except String (List IP) × World
  /-- Go `IP.String`. -/
  IPString : IP → String
  /-- Go `net.Dialer.DialContext` with `LocalAddr` set to the last argument. -/
  netDial : World → String → String → Option TCPAddr → DialResult × World :=
    fun w _ _ _ => ((none, some "network is unreachable"), w)
  /-- The byte the random source produces at a position of its stream. -/
  randByte : Nat → Nat := fun _ => 0
  /-- Go `url.Parse`. -/
  urlParse : String → Except String URL := fun _ => .error "invalid URL"
  /-- Go `proxy.FromURL` with the HTTP CONNECT dialer registered: the dial
  function of the upstream dialer. -/
  proxyFromURL : URL → Except String (World → String → String → DialResult × World) :=
    fun _ => .error "unknown scheme"
  /-- Go `textproto.CanonicalMIMEHeaderKey`. -/
  CanonicalMIMEHeaderKey : String → String := id
  /-- Go `strings.ToLower`. -/
  ToLower : String → String := asciiLower
  /-- Go `strings.TrimSpace`. -/
  TrimSpace : String → String := asciiTrim
  /-- Caddy `MatchHost.Match`: whether the request is for one of the hosts. -/
  MatchHost : List String → Request → Bool := fun hosts r => hosts.contains r.Host
  /-- Content of the buffer after `base64.StdEncoding.Decode` of a credential
  into a zeroed buffer of `DecodedLen` bytes. -/
  base64Decode : String → String := id
  /-- Go `net.ResolveTCPAddr("tcp", _)`. -/
  ResolveTCPAddr : String → Except String TCPAddr := fun _ => .error "missing port in address"
  /-- Go `net.ResolveIPAddr("ip", _)`, the address or nil. -/
  ResolveIPAddr : String → Option IP := fun _ => none
  /-- Go `base64.StdEncoding.EncodeToString`. -/
  base64Encode : String → String := id
  /-- Go `Request.Write` to a connection: the error, if any. -/
  writeRequest : World → Conn → Request → Option String × World := fun w _ _ => (none, w)
  /-- Go `http.ReadResponse` from a connection. -/
  readResponse : World → Conn → Request → Except String Response × World :=
    fun w _ _ => (.error "EOF", w)
  /-- Copying between client and target until the tunnel ends (`dualStream`,
  and before it the hijacking of the client connection for HTTP/1). -/
  tunnel : World → Conn → ResponseWriter → Request → ResponseWriter × Option Error × World :=
    fun w _ rw _ => (rw, none, w)
  /-- Caddy `caddy.ParseDuration`, in nanoseconds. -/
  ParseDuration : String → Except String Int := fun _ => .error "invalid duration"
  /-- The lines of a file, as `readLinesFromFile` reads them with `os.Open` and
  a `bufio.Scanner`. -/
  readLinesFromFile : String → Except String (List String) :=
    fun _ => .error "no such file or directory"

/-! ## `hostIsAllowed` and `portIsAllowed` -/

/-- The loop of `hostIsAllowed` over the compiled rules: the `switch` returns
on `aclDecisionDeny` and on `aclDecisionAllow` and otherwise goes on. -/
def hostIsAllowed.loop (hostname : String) (ip : IP) : List aclRule → Bool
  | [] => false
  | rule :: rest =>
    match rule.tryMatch ip hostname with
    | .aclDecisionDeny => false
    | .aclDecisionAllow => true
    | .aclDecisionNoMatch => hostIsAllowed.loop hostname ip rest

/-- Go `Handler.hostIsAllowed`. -/
def hostIsAllowed (h : Handler) (hostname : String) (ip : IP) : Bool :=
  hostIsAllowed.loop hostname ip h.aclRules

/-- Value of a decimal digit. -/
def digitVal (c : Char) : Option Nat :=
  if 48 ≤ c.toNat ∧ c.toNat ≤ 57 then some (c.toNat - 48) else none

/-- Value of a string of decimal digits, `none` when a character is no digit. -/
def parseDigits : List Char → Nat → Option Nat
  | [], acc => some acc
  | c :: cs, acc =>
    match digitVal c with
    | none => none
    | some d => parseDigits cs (acc * 10 + d)

/-- Unsigned part of `strconv.Atoi`: at least one digit, digits only. -/
def parseUnsigned (ds : List Char) : Option Nat :=
  if ds = [] then none else parseDigits ds 0

/-- Go `strconv.Atoi` on a 64-bit platform: an optional sign, then decimal
digits; `none` stands for a non-nil error (syntax or range). -/
def Atoi (s : String) : Option Int :=
  match s.data with
  | [] => none
  | c :: cs =>
    if c = '-' then
      match parseUnsigned cs with
      | none => none
      | some n => if n ≤ 2 ^ 63 then some (-(n : Int)) else none
    else if c = '+' then
      match parseUnsigned cs with
      | none => none
      | some n => if n < 2 ^ 63 then some (n : Int) else none
    else
      match parseUnsigned (c :: cs) with
      | none => none
      | some n => if n < 2 ^ 63 then some (n : Int) else none

/-- The membership loop of `portIsAllowed` (`isAllowed` with its `break`). -/
def portIsAllowed.loop (portInt : Int) : List Int → Bool
  | [] => false
  | p :: ps => if p = portInt then true else portIsAllowed.loop portInt ps

/-- Go `Handler.portIsAllowed`. -/
def portIsAllowed (h : Handler) (port : String) : Bool :=
  match Atoi port with
  | none => false
  | some portInt =>
    if portInt ≤ 0 ∨ portInt > 65535 then false
    else if h.AllowedPorts.length = 0 then true
    else portIsAllowed.loop portInt h.AllowedPorts

/-! ## Compiling the ACL -/

/-- Value of a hexadecimal digit. -/
def hexVal (c : Char) : Option Nat :=
  if 48 ≤ c.toNat ∧ c.toNat ≤ 57 then some (c.toNat - 48)
  else if 97 ≤ c.toNat ∧ c.toNat ≤ 102 then some (c.toNat - 87)
  else if 65 ≤ c.toNat ∧ c.toNat ≤ 70 then some (c.toNat - 55)
  else none

/-- Value of a string of hexadecimal digits. -/
def parseHex : List Char → Nat → Option Nat
  | [], acc => some acc
  | c :: cs, acc =>
    match hexVal c with
    | none => none
    | some d => parseHex cs (acc * 16 + d)

/-- The fields of a string between occurrences of a separator. -/
def splitOnChar (sep : Char) : List Char → List (List Char)
  | [] => [[]]
  | c :: cs =>
    if c = sep then [] :: splitOnChar sep cs
    else
      match splitOnChar sep cs with
      | [] => [[c]]
      | g :: gs => (c :: g) :: gs

/-- All values of a list of options, `none` when one is missing. -/
def allSome {α : Type} : List (Option α) → Option (List α)
  | [] => some []
  | none :: _ => none
  | some a :: rest =>
    match allSome rest with
    | none => none
    | some as => some (a :: as)

/-- One decimal field of a dotted IPv4 address: one to three digits, no
leading zero, at most 255. -/
def parseIPv4Field (f : List Char) : Option Nat :=
  if f = [] ∨ 3 < f.length ∨ (1 < f.length ∧ f.head? = some '0') then none
  else
    match parseDigits f 0 with
    | none => none
    | some n => if n ≤ 255 then some n else none

/-- A dotted IPv4 address as 4 bytes. -/
def parseIPv4 (s : List Char) : Option IP :=
  match allSome ((splitOnChar '.' s).map parseIPv4Field) with
  | some [a, b, c, d] => some [a, b, c, d]
  | _ => none

/-- One group of an IPv6 address, one to four hexadecimal digits, as 2 bytes. -/
def parseIPv6Group (g : List Char) : Option (List Nat) :=
  if g = [] ∨ 4 < g.length then none
  else
    match parseHex g 0 with
    | none => none
    | some v => some [v / 256, v % 256]

/-- The text before and after the first `::`. -/
def splitDoubleColon : List Char → Option (List Char × List Char)
  | [] => none
  | [_] => none
  | a :: b :: rest =>
    if a = ':' ∧ b = ':' then some ([], rest)
    else
      match splitDoubleColon (b :: rest) with
      | some (l, r) => some (a :: l, r)
      | none => none

/-- The bytes of the colon-separated groups of a piece of an IPv6 address. -/
def parseIPv6Groups (s : List Char) : Option (List Nat) :=
  if s = [] then some []
  else (allSome ((splitOnChar ':' s).map parseIPv6Group)).map List.flatten

/-- The bytes of the last piece of an IPv6 address, whose final group may be a
dotted IPv4 address. -/
def parseIPv6Tail (s : List Char) : Option (List Nat) :=
  match (splitOnChar ':' s).getLast? with
  | none => parseIPv6Groups s
  | some g =>
    if '.' ∈ g then
      match parseIPv6Groups ((s.take (s.length - g.length)).dropLast), parseIPv4 g with
      | some hb, some vb => some (hb ++ vb)
      | _, _ => none
    else parseIPv6Groups s

/-- An IPv6 address as 16 bytes: groups of hexadecimal digits with at most one
`::`, which stands for at least one group, and possibly a dotted IPv4 address
in place of the last two groups. An address with a zone is not accepted. -/
def parseIPv6 (s : List Char) : Option IP :=
  match splitDoubleColon s with
  | some (l, r) =>
    match parseIPv6Groups l, parseIPv6Tail r with
    | some lb, some rb =>
      if lb.length + rb.length ≤ 14 then
        some (lb ++ List.replicate (16 - (lb.length + rb.length)) 0 ++ rb)
      else none
    | _, _ => none
  | none =>
    match parseIPv6Tail s with
    | some bs => if bs.length = 16 then some bs else none
    | none => none

/-- The text before and after the first `/`. -/
def splitAtSlash : List Char → Option (List Char × List Char)
  | [] => none
  | c :: cs =>
    if c = '/' then some ([], cs)
    else
      match splitAtSlash cs with
      | some (l, r) => some (c :: l, r)
      | none => none

/-- The bytes of `net.CIDRMask(ones, 8 * len)`. -/
def CIDRMask.go : Nat → Nat → List Nat
  | _, 0 => []
  | n, l + 1 =>
    if 8 ≤ n then 255 :: CIDRMask.go (n - 8) l
    else (255 - (255 >>> n)) :: CIDRMask.go 0 l

/-- Go `net.CIDRMask(ones, bits)` for `bits = 8 * len`. -/
def CIDRMask (ones len : Nat) : IPMask := CIDRMask.go ones len

/-- Byte-wise `and` of an address with a mask (`IP.Mask`). -/
def maskBytes : List Nat → List Nat → List Nat
  | x :: xs, m :: ms => (x &&& m) :: maskBytes xs ms
  | _, _ => []

/-- Go `net.ParseCIDR`, the network it returns: `address/length` with a dotted
IPv4 address (network and mask of 4 bytes) or an IPv6 address (16 bytes); the
address of the network is the given one under the mask. `none` stands for a
parse error. -/
def ParseCIDR (s : String) : Option IPNet :=
  match splitAtSlash s.data with
  | none => none
  | some (addr, m) =>
    match (if ':' ∈ addr then parseIPv6 addr else parseIPv4 addr), parseUnsigned m with
    | some ip, some n =>
      if n ≤ 8 * ip.length then
        some ⟨maskBytes ip (CIDRMask n ip.length), CIDRMask n ip.length⟩
      else none
    | _, _ => none

/-- Modelled from the spec: `newACLRule(subject, allow)` of `acl.go`, which is
not among the sources. Section 4.A: compilation accepts a subject string as one
of a CIDR (`/` present), the literal `*`, or an exact hostname (stored
lowercased); an invalid subject fails compilation. -/
def newACLRule (ruleSubject : String) (allow : Bool) : Except String aclRule :=
  if '/' ∈ ruleSubject.data then
    match ParseCIDR ruleSubject with
    | some net => .ok (.aclIPRule net allow)
    | none => .error (ruleSubject ++ " could not be parsed as IP network")
  else if ruleSubject = "*" then .ok (.aclAllRule allow)
  else .ok (.aclDomainRule (asciiLower ruleSubject) allow)

/-! ## `Provision` -/

/-- The subjects `Provision` denies after the user's rules, in source order. -/
def hardCodedDenies : List String :=
  ["10.0.0.0/8", "127.0.0.0/8", "172.16.0.0/12", "192.168.0.0/16", "::1/128", "fe80::/10"]

/-- The networks of `hardCodedDenies` as `net.ParseCIDR` returns them:
10.0.0.0/8, 127.0.0.0/8, 172.16.0.0/12, 192.168.0.0/16, ::1/128, fe80::/10. -/
def hardCodedNets : List IPNet :=
  [⟨[10, 0, 0, 0], [255, 0, 0, 0]⟩,
   ⟨[127, 0, 0, 0], [255, 0, 0, 0]⟩,
   ⟨[172, 16, 0, 0], [255, 240, 0, 0]⟩,
   ⟨[192, 168, 0, 0], [255, 255, 0, 0]⟩,
   ⟨[0, 0, 0, 0, 0, 0, 0, 0, 0, 0, 0, 0, 0, 0, 0, 1],
    [255, 255, 255, 255, 255, 255, 255, 255, 255, 255, 255, 255, 255, 255, 255, 255]⟩,
   ⟨[254, 128, 0, 0, 0, 0, 0, 0, 0, 0, 0, 0, 0, 0, 0, 0],
    [255, 192, 0, 0, 0, 0, 0, 0, 0, 0, 0, 0, 0, 0, 0, 0]⟩]

/-- The configured subjects with the flag of their rule, in configuration
order: what the two nested loops of `Provision` walk through. -/
def configuredSubjects (acl : List ACLRule) : List (String × Bool) :=
  acl.flatMap (fun rule => rule.Subjects.map (fun subj => (subj, rule.Allow)))

/-- The inner loop of the ACL compilation: compile each of `subjects` with the
flag `allow` and append the result to `acc`; the first error is returned. -/
def Provision.compileSubjects (allow : Bool) : List String → List aclRule →
    Except String (List aclRule)
  | [], acc => .ok acc
  | subj :: rest, acc =>
    match newACLRule subj allow with
    | .error e => .error e
    | .ok ar => Provision.compileSubjects allow rest (acc ++ [ar])

/-- The outer loop of the ACL compilation over the configured rules. -/
def Provision.compileACL : List ACLRule → List aclRule → Except String (List aclRule)
  | [], acc => .ok acc
  | rule :: rest, acc =>
    match Provision.compileSubjects rule.Allow rule.Subjects acc with
    | .error e => .error e
    | .ok acc1 => Provision.compileACL rest acc1

/-- Go `IPMask.Size`, the number of leading ones: the part after the first
byte that is not `0xff` must be that byte's leading ones and then zeros only,
otherwise the result is 0. -/
def maskOnes : IPMask → Nat
  | [] => 0
  | v :: rest =>
    if v = 255 then
      (if maskOnes rest = 0 ∧ ¬ rest.all (fun b => b == 0) then 0 else 8 + maskOnes rest)
    else if rest.all (fun b => b == 0) then
      (if v = 254 then 7 else if v = 252 then 6 else if v = 248 then 5 else if v = 240 then 4
       else if v = 224 then 3 else if v = 192 then 2 else if v = 128 then 1 else 0)
    else 0

/-- The bytes `randSource.Read` writes into a buffer of `n` bytes when the
source has already produced `pos` bytes. -/
def randRead (rt : Runtime) (pos n : Nat) : List Nat :=
  (List.range n).map (fun i => rt.randByte (pos + i) % 256)

/-- The first `dialContext` closure of `Provision`, used without upstream:
with no bind address and a default bind network, the bytes of the network
address from `ones >> 3` on are overwritten with random bytes, in the array the
handler keeps, and the address becomes the local address; with a bind address
the dial is made from it. Stated for a mask that is not longer than the
address (otherwise the slice `ip[ones>>3:]` is out of range). -/
def Provision.dialContext (rt : Runtime) (DefaultBind : Option IPNet) : DialFn :=
  fun w network address bind =>
    match bind with
    | some b => rt.netDial w "tcp" address (some b)
    | none =>
      match DefaultBind with
      | some net =>
        let cur := w.bindIP.getD net.IP
        let keep := maskOnes net.Mask >>> 3
        let ip := cur.take keep ++ randRead rt w.randPos (cur.length - keep)
        rt.netDial { w with randPos := w.randPos + (cur.length - keep), bindIP := some ip }
          "tcp" address (some { IP := ip })
      | none => rt.netDial w network address none

/-- Go `isLocalhost`. -/
def isLocalhost (hostname : String) : Bool :=
  hostname = "localhost" ∨ hostname = "127.0.0.1" ∨ hostname = "::1"

/-- Go `Handler.Provision`; `now` is the clock reading that seeds the random
source. The handler is returned as provisioned, or the error. -/
def Provision (rt : Runtime) (now : Int) (h : Handler) : Except String Handler :=
  let h := { h with DialTimeout := if h.DialTimeout ≤ 0 then 30 * 1000000000 else h.DialTimeout }
  match Provision.compileACL h.ACL h.aclRules with
  | .error e => .error e
  | .ok rules1 =>
    match Provision.compileSubjects false hardCodedDenies rules1 with
    | .error e => .error e
    | .ok rules2 =>
      let h := { h with aclRules := rules2 ++ [aclRule.aclAllRule true] }
      let h := { h with randSource := if h.DefaultBind.isSome then some now else h.randSource }
      if h.ProbeResistance.isSome ∧ ¬ h.AuthRequired then
        .error "probe resistance requires authentication"
      else
        let h := { h with dialContext := Provision.dialContext rt h.DefaultBind }
        if h.Upstream ≠ "" then
          match rt.urlParse h.Upstream with
          | .error e => .error ("bad upstream URL: " ++ e)
          | .ok upstreamURL =>
            if !isLocalhost upstreamURL.Hostname ∧ upstreamURL.Scheme ≠ "https" then
              .error "insecure schemes are only allowed to localhost upstreams"
            else
              match rt.proxyFromURL upstreamURL with
              | .error e => .error ("failed to create proxy to upstream: " ++ e)
              | .ok upstreamDial =>
                .ok { h with
                  upstream := some upstreamURL
                  dialContext := fun w network address _ => upstreamDial w network address }
        else .ok h

/-- The handler `Provision` makes of a configuration (the configuration itself
when `Provision` fails). -/
def provisioned (rt : Runtime) (now : Int) (h : Handler) : Handler :=
  match Provision rt now h with
  | .ok h1 => h1
  | .error _ => h

/-! ## The dial pipeline -/

/-- Go `net.JoinHostPort`: brackets around a host that contains a colon. -/
def JoinHostPort (host port : String) : String :=
  if ':' ∈ host.data then "[" ++ host ++ "]:" ++ port else host ++ ":" ++ port

/-- Result of `dialContextCheckACL`: the Go pair `(conn, err)`, the outside
world afterwards and the external calls made, oldest first. -/
structure DialOutcome where
  conn : Option Conn
  err : Option Error
  world : World
  calls : List Call
  deriving DecidableEq, Repr

/-- The same outcome, preceded by one more external call. -/
def DialOutcome.after (c : Call) (o : DialOutcome) : DialOutcome :=
  { o with calls := c :: o.calls }

/-- The address `net.JoinHostPort(ip.String(), port)` handed to the dialer. -/
def dialAddress (rt : Runtime) (port : String) (ip : IP) : String :=
  JoinHostPort (rt.IPString ip) port

/-- The loop of `dialContextCheckACL` over the resolved addresses together with
the two returns that follow it. `err` is the variable `err` of the source: nil
before the loop, then the error of the last dial. -/
def dialContextCheckACL.loop (rt : Runtime) (h : Handler) (network host port : String)
    (bind : Option TCPAddr) : List IP → Option String → World → DialOutcome
  | [], err, w =>
    match err with
    | some e => ⟨none, some (caddyhttpError 502 ("dialContext: " ++ e)), w, []⟩
    | none => ⟨none, some (caddyhttpError 403 ("no allowed IP addresses for " ++ host)), w, []⟩
  | ip :: rest, err, w =>
    if !hostIsAllowed h host ip then
      dialContextCheckACL.loop rt h network host port bind rest err w
    else
      match h.dialContext w network (dialAddress rt port ip) bind with
      | ((conn, none), w1) => ⟨conn, none, w1, [.dial network (dialAddress rt port ip) bind]⟩
      | ((_, some e), w1) =>
        (dialContextCheckACL.loop rt h network host port bind rest (some e) w1).after
          (.dial network (dialAddress rt port ip) bind)

/-- Go `Handler.dialContextCheckACL`. -/
def dialContextCheckACL (rt : Runtime) (h : Handler) (w : World) (network hostPort : String)
    (bind : Option TCPAddr) : DialOutcome :=
  if network ≠ "tcp" ∧ network ≠ "tcp4" ∧ network ≠ "tcp6" then
    ⟨none, some (caddyhttpError 400 ("network " ++ network ++ " is not supported")), w, []⟩
  else
    match rt.SplitHostPort hostPort with
    | .error e => ⟨none, some (caddyhttpError 400 e), w, []⟩
    | .ok (host, port) =>
      if h.upstream.isSome then
        match h.dialContext w network hostPort bind with
        | ((conn, some e), w1) =>
          ⟨conn, some (caddyhttpError 502 e), w1, [.dial network hostPort bind]⟩
        | ((conn, none), w1) => ⟨conn, none, w1, [.dial network hostPort bind]⟩
      else if !portIsAllowed h port then
        ⟨none, some (caddyhttpError 403 ("port " ++ port ++ " is not allowed")), w, []⟩
      else
        match rt.LookupIP w host with
        | (.error e, w1) =>
          ⟨none, some (caddyhttpError 502 ("lookup of " ++ host ++ " failed: " ++ e)), w1,
            [.lookupIP host]⟩
        | (.ok IPs, w1) =>
          (dialContextCheckACL.loop rt h network host port bind IPs none w1).after
            (.lookupIP host)

/-- The external call that dials `ip` on `port`. -/
def dialCall (rt : Runtime) (network port : String) (bind : Option TCPAddr) (ip : IP) : Call :=
  .dial network (dialAddress rt port ip) bind

/-- Dialing every address of a list in turn when every dial fails: the world
after the last dial, or `none` as soon as one dial succeeds. -/
def allDialsFail (rt : Runtime) (h : Handler) (network port : String) (bind : Option TCPAddr) :
    List IP → World → Option World
  | [], w => some w
  | ip :: rest, w =>
    match h.dialContext w network (dialAddress rt port ip) bind with
    | ((_, some _), w1) => allDialsFail rt h network port bind rest w1
    | ((_, none), _) => none

/-! ## Headers -/

/-- The values stored under a key. -/
def Header.values (rt : Runtime) (hd : Header) (key : String) : List String :=
  (hd.lookup (rt.CanonicalMIMEHeaderKey key)).getD []

/-- Go `Header.Get`: the first value of the key, or the empty string. -/
def Header.Get (rt : Runtime) (hd : Header) (key : String) : String :=
  (Header.values rt hd key).headD ""

/-- Go `Header.Del`. -/
def Header.Del (rt : Runtime) (hd : Header) (key : String) : Header :=
  hd.filter (fun kv => kv.1 ≠ rt.CanonicalMIMEHeaderKey key)

/-- Go `Header.Set`: the key gets exactly this value. -/
def Header.Set (rt : Runtime) (hd : Header) (key value : String) : Header :=
  Header.Del rt hd key ++ [(rt.CanonicalMIMEHeaderKey key, [value])]

/-- Go `Header.Add`: the value is appended to those of the key. -/
def Header.Add (rt : Runtime) (hd : Header) (key value : String) : Header :=
  if hd.any (fun kv => kv.1 = rt.CanonicalMIMEHeaderKey key) then
    hd.map (fun kv => if kv.1 = rt.CanonicalMIMEHeaderKey key then (kv.1, kv.2 ++ [value]) else kv)
  else hd ++ [(rt.CanonicalMIMEHeaderKey key, [value])]

/-- Go `hopByHopHeaders`. -/
def hopByHopHeaders : List String :=
  ["Keep-Alive", "Proxy-Authenticate", "Proxy-Authorization", "Upgrade", "Connection",
   "Proxy-Connection", "Proxy-Nonlocal-Source", "Te", "Trailer", "Transfer-Encoding"]

/-- Go `removeHopByHop`. -/
def removeHopByHop (rt : Runtime) (header : Header) : Header :=
  let connectionHeaders := Header.Get rt header "Connection"
  let header := (splitOnChar ',' connectionHeaders.data).foldl
    (fun hd tok => Header.Del rt hd (rt.TrimSpace (String.mk tok))) header
  hopByHopHeaders.foldl (fun hd key => Header.Del rt hd key) header

/-! ## Authentication -/

/-- Result of running a piece of Go code that may panic. -/
inductive Go (α : Type)
  | ret (a : α)
  | panic (msg : String)

/-- The returned value of Go code, `none` when it panicked. -/
def Go.get? {α : Type} : Go α → Option α
  | .ret a => some a
  | .panic _ => none

/-- What `checkCredentials` leaves behind: the returned error (nil when the
credentials are accepted) and the value it stored under `http.auth.user.id`. -/
structure AuthOutcome where
  err : Option String
  userID : Option String := none
  deriving DecidableEq, Repr

/-- The loop of `checkCredentials` over the configured credentials. The slice
`cred[:strings.IndexByte(cred, ':')]` panics when the decoded credential has
no colon. -/
def checkCredentials.loop (rt : Runtime) (token : String) : List String → Go AuthOutcome
  | [] => .ret ⟨some "Invalid credentials", none⟩
  | creds :: rest =>
    if creds = token then
      match breakAt (fun c => c = ':') (rt.base64Decode creds).data with
      | some (user, _) => .ret ⟨none, some (String.mk user)⟩
      | none => .panic "slice bounds out of range [:-1]"
    else checkCredentials.loop rt token rest

/-- Go `Handler.checkCredentials`. -/
def checkCredentials (rt : Runtime) (h : Handler) (r : Request) : Go AuthOutcome :=
  match (splitOnChar ' ' (Header.Get rt r.Header "Proxy-Authorization").data).map String.mk with
  | [scheme, token] =>
    if rt.ToLower scheme ≠ "basic" then .ret ⟨some "Auth type is not supported", none⟩
    else checkCredentials.loop rt token h.AuthCredentials
  | _ => .ret ⟨some "Proxy-Authorization is required! Expected format: <type> <credentials>", none⟩

/-! ## `ServeHTTP` -/

/-- Go `Handler.shouldServePACFile`. -/
def shouldServePACFile (h : Handler) (r : Request) : Bool :=
  0 < h.PACPath.length ∧ r.URL.Path = h.PACPath

/-- The constant `pacFile` with the host filled in. -/
def pacFile (host : String) : String :=
  "\nfunction FindProxyForURL(url, host) \x7b\n" ++
  "\tif (host === \"127.0.0.1\" || host === \"::1\" || host === \"localhost\")\n" ++
  "\t\treturn \"DIRECT\";\n" ++
  "\treturn \"HTTPS " ++ host ++ "\";\n\x7d\n"

/-- Go `Handler.servePacFile`. -/
def servePacFile (w : ResponseWriter) (r : Request) : ResponseWriter × Option Error :=
  (w.Write (pacFile r.Host), none)

/-- The constant `hiddenPage` with the message filled in. -/
def hiddenPage (msg : String) : String :=
  "<html>\n<head>\n  <title>Hidden Proxy Page</title>\n</head>\n<body>\n" ++
  "<h1>Hidden Proxy Page!</h1>\n" ++ msg ++ "<br/>\n</body>\n</html>"

/-- The constant `AuthFail`. -/
def AuthFail : String := "Please authenticate yourself to the proxy."

/-- The constant `AuthOk`. -/
def AuthOk : String :=
  "Congratulations, you are successfully authenticated to the proxy! Go browse all the things!"

/-- The value of the `Proxy-Authenticate` challenge. -/
def basicRealm : String := "Basic realm=\"Caddy Secure Web Proxy\""

/-- Go `serveHiddenPage`. -/
def serveHiddenPage (rt : Runtime) (w : ResponseWriter) (authErr : Option String) :
    ResponseWriter × Option Error :=
  let w := { w with header := Header.Set rt w.header "Content-Type" "text/html" }
  match authErr with
  | some e =>
    let w := { w with header := Header.Set rt w.header "Proxy-Authenticate" basicRealm }
    let w := w.WriteHeader 407
    let w := w.Write (hiddenPage AuthFail)
    (w, some (.plain e))
  | none => (w.Write (hiddenPage AuthOk), none)

/-- Go `strconv.Itoa`. -/
def Itoa (n : Int) : String := toString n

/-- Go `forwardResponse`. The headers of the response are added in the order
of the list that stands for the map. -/
def forwardResponse (rt : Runtime) (w : ResponseWriter) (response : Response) :
    ResponseWriter × Option Error :=
  let hd := Header.Del rt w.header "Server"
  let hd := Header.Add rt hd "Via"
    (Itoa response.ProtoMajor ++ "." ++ Itoa response.ProtoMinor ++ " caddy")
  let hd := response.Header.foldl
    (fun acc kv => kv.2.foldl (fun acc val => Header.Add rt acc kv.1 val) acc) hd
  let hd := removeHopByHop rt hd
  let w := ({ w with header := hd }).WriteHeader response.StatusCode
  match response.Body with
  | .ok b => (if b = "" then w else w.Write b, none)
  | .error e => (w, some (.plain e))

/-- The next handler of the chain (`caddyhttp.Handler`). -/
abbrev NextFn := World → ResponseWriter → Request → ResponseWriter × Option Error × World

/-- What one call of `ServeHTTP` leaves behind: the response writer, the
returned error, the outside world, the external calls in order, the value
stored under `http.auth.user.id`, the header map put into the dial context,
and the request as it was sent on to the target or the upstream. -/
structure ServeResult where
  w : ResponseWriter
  err : Option Error
  world : World
  calls : List Call := []
  userID : Option String := none
  ctxHeader : Option Header := none
  forwarded : Option Request := none

/-- The CONNECT branch of `ServeHTTP`: dial the target through
`dialContextCheckACL` and hand the connection to the tunnel. -/
def ServeHTTP.connect (rt : Runtime) (h : Handler) (world : World) (w : ResponseWriter)
    (r : Request) (bind : Option TCPAddr) : Go ServeResult :=
  if (r.ProtoMajor = 2 ∨ r.ProtoMajor = 3) ∧ (0 < r.URL.Scheme.length ∨ 0 < r.URL.Path.length) then
    .ret { w := w, world := world, err := some (caddyhttpError 400
      "CONNECT request has :scheme and/or :path pseudo-header fields") }
  else
    let hostPort := if r.URL.Host = "" then r.Host else r.URL.Host
    let o := dialContextCheckACL rt h world "tcp" hostPort bind
    match o.err with
    | some e => .ret { w := w, err := some e, world := o.world, calls := o.calls }
    | none =>
      match o.conn with
      | none =>
        .ret { w := w, world := o.world, calls := o.calls, err := some (caddyhttpError 403
          ("hostname " ++ r.URL.Hostname ++ " is not allowed")) }
      | some targetConn =>
        if r.ProtoMajor = 1 then
          if !w.hijacker then
            .ret { w := w, world := o.world, calls := o.calls, err := some (caddyhttpError 500
              "ResponseWriter does not implement http.Hijacker") }
          else
            match rt.tunnel o.world targetConn w r with
            | (w1, e, world1) =>
              .ret { w := w1, err := e, world := world1, calls := o.calls ++ [.tunnel targetConn] }
        else if r.ProtoMajor = 2 ∨ r.ProtoMajor = 3 then
          if !w.flusher then
            .ret { w := w, world := o.world, calls := o.calls, err := some (caddyhttpError 500
              "ResponseWriter does not implement http.Flusher") }
          else
            let w := w.WriteHeader 200
            let w := { w with flushed := w.flushed + 1 }
            match rt.tunnel o.world targetConn w r with
            | (w1, e, world1) =>
              .ret { w := w1, err := e, world := world1, calls := o.calls ++ [.tunnel targetConn] }
        else .panic "There was a check for http version, yet it is incorrect"

/-- The rewriting of the request at the head of the forwarding branch of
`ServeHTTP`: scheme and host defaults, HTTP/1.1, hop-by-hop headers removed,
`Forwarded` and `Via` added. -/
def ServeHTTP.prepare (rt : Runtime) (h : Handler) (r : Request) : Request :=
  let r := { r with URL := { r.URL with Scheme := if r.URL.Scheme = "" then "http" else r.URL.Scheme } }
  let r := { r with URL := { r.URL with Host := if r.URL.Host = "" then r.Host else r.URL.Host } }
  let r := { r with Proto := "HTTP/1.1", ProtoMajor := 1, ProtoMinor := 1, RequestURI := "" }
  let r := { r with Header := removeHopByHop rt r.Header }
  let r := if !h.HideIP then
      { r with Header := Header.Add rt r.Header "Forwarded" ("for=\"" ++ r.RemoteAddr ++ "\"") }
    else r
  if !h.HideVia then
    { r with Header := (Header.Add rt r.Header "Via"
        (Itoa r.ProtoMajor ++ "." ++ Itoa r.ProtoMinor ++ " caddy")) }
  else r

/-- The end of the forwarding branch once a connection is there: write the
request, read one response and forward it. The two messages are those of the
errors of writing and of reading. `err` is the variable `err` of the function
as the test before `forwardResponse` finds it once the response is read: when
it is not nil the response is not forwarded and the error is 502. -/
def ServeHTTP.exchange (rt : Runtime) (world : World) (w : ResponseWriter) (r : Request)
    (conn : Conn) (calls : List Call) (writeMsg readMsg : String) (err : Option String) :
    ServeResult :=
  match rt.writeRequest world conn r with
  | (some e, world1) =>
    { w := w, world := world1, calls := calls ++ [.exchange conn], forwarded := some r,
      err := some (caddyhttpError 502 (writeMsg ++ e)) }
  | (none, world1) =>
    match rt.readResponse world1 conn r with
    | (.error e, world2) =>
      { w := w, world := world2, calls := calls ++ [.exchange conn], forwarded := some r,
        err := some (caddyhttpError 502 (readMsg ++ e)) }
    | (.ok response, world2) =>
      match err with
      | some e =>
        { w := w, world := world2, calls := calls ++ [.exchange conn], forwarded := some r,
          err := some (caddyhttpError 502 ("failed to read response: " ++ e)) }
      | none =>
        match forwardResponse rt w response with
        | (w1, e) =>
          { w := w1, err := e, world := world2, calls := calls ++ [.exchange conn],
            forwarded := some r }

/-- The forwarding branch of `ServeHTTP` without upstream. The
`http.Transport` is taken to dial the address of the request URL once through
`dialContextCheckACL`, to write the request and to read one response (no proxy
from the environment). A nil connection without an error makes the Go code
fail with a nil dereference. The error of `RoundTrip` is assigned to the
variable `err` of the function, which is nil once the response is read. -/
def ServeHTTP.roundTrip (rt : Runtime) (h : Handler) (world : World) (w : ResponseWriter)
    (r : Request) (bind : Option TCPAddr) : Go ServeResult :=
  match (if r.Method = "GET" ∨ r.Method = "HEAD" ∨ r.Method = "OPTIONS" ∨ r.Method = "TRACE"
    then r.Body else .ok "") with
  | .error e =>
    .ret { w := w, world := world, err := some (caddyhttpError 400
      ("failed to read request body: " ++ e)) }
  | .ok _ =>
    let port := if r.URL.Port = "" then (if r.URL.Scheme = "https" then "443" else "80")
      else r.URL.Port
    let o := dialContextCheckACL rt h world "tcp" (JoinHostPort r.URL.Hostname port) bind
    match o.err with
    | some e => .ret { w := w, err := some e, world := o.world, calls := o.calls }
    | none =>
      match o.conn with
      | none => .panic "invalid memory address or nil pointer dereference"
      | some conn =>
        .ret (ServeHTTP.exchange rt o.world w r conn o.calls
          "failed to read response: " "failed to read response: " none)

/-- The forwarding branch of `ServeHTTP` with an upstream: the request is
written to a connection dialed through `dialContext`, without the transport.
The errors of the dial, of the write and of the read are assigned to a variable
`err` of the branch (`upsConn, err := h.dialContext(...)`), so the test before
`forwardResponse` finds the variable `err` of the function as it was before the
branch: the argument `err`. -/
def ServeHTTP.viaUpstream (rt : Runtime) (h : Handler) (world : World) (w : ResponseWriter)
    (r : Request) (bind : Option TCPAddr) (u : URL) (err : Option String) : Go ServeResult :=
  let r := if u.User ≠ "" then
      { r with Header := (Header.Set rt r.Header "Proxy-Authorization"
          ("Basic " ++ rt.base64Encode u.User)) }
    else r
  let r := if r.URL.Port = "" then
      { r with URL := { r.URL with Host := JoinHostPort r.URL.Host "80" } }
    else r
  match h.dialContext world "tcp" r.URL.Host bind with
  | ((_, some e), world1) =>
    .ret { w := w, world := world1, calls := [.dial "tcp" r.URL.Host bind],
           err := some (caddyhttpError 502 ("failed to dial upstream: " ++ e)) }
  | ((none, none), _) => .panic "invalid memory address or nil pointer dereference"
  | ((some upsConn, none), world1) =>
    .ret (ServeHTTP.exchange rt world1 w r upsConn [.dial "tcp" r.URL.Host bind]
      "failed to write upstream request: " "failed to read upstream response: " err)

/-- The forwarding branch of `ServeHTTP` for a request that is not CONNECT;
`err` is the variable `err` of the function when the branch is reached. -/
def ServeHTTP.forward (rt : Runtime) (h : Handler) (world : World) (w : ResponseWriter)
    (r : Request) (bind : Option TCPAddr) (err : Option String) : Go ServeResult :=
  match h.upstream with
  | none => ServeHTTP.roundTrip rt h world w (ServeHTTP.prepare rt h r) bind
  | some u => ServeHTTP.viaUpstream rt h world w (ServeHTTP.prepare rt h r) bind u err

/-- The bind address a request asks for with `Proxy-Nonlocal-Source`. When the
value resolves neither as a TCP address nor as an IP address, `bind` is left
holding a nil `*net.TCPAddr`, which is not a nil `net.Addr`: it stands here as
the address without IP. -/
def ServeHTTP.clientBind (rt : Runtime) (r : Request) : Option TCPAddr :=
  let clientBind := Header.Get rt r.Header "Proxy-Nonlocal-Source"
  if 0 < clientBind.length then
    match rt.ResolveTCPAddr clientBind with
    | .ok a => some a
    | .error _ =>
      match rt.ResolveIPAddr clientBind with
      | some ip => some { IP := ip }
      | none => some { IP := [] }
  else none

/-- The variable `err` of `ServeHTTP` after the bind address is read: the
error of `net.ResolveTCPAddr` when the request names a bind address, else the
error of `net.SplitHostPort(r.Host)` from the head of the function. -/
def ServeHTTP.err (rt : Runtime) (r : Request) : Option String :=
  let clientBind := Header.Get rt r.Header "Proxy-Nonlocal-Source"
  if 0 < clientBind.length then
    match rt.ResolveTCPAddr clientBind with
    | .ok _ => none
    | .error e => some e
  else
    match rt.SplitHostPort r.Host with
    | .ok _ => none
    | .error e => some e

/-- The header map `ServeHTTP` puts into the dial context unless `HideIP`. -/
def ServeHTTP.ctxHeader (rt : Runtime) (h : Handler) (r : Request) : Option Header :=
  if !h.HideIP then
    some (Header.Add rt
      (r.Header.filter (fun kv =>
        rt.ToLower kv.1 = "forwarded" ∨ rt.ToLower kv.1 = "x-forwarded-for"))
      "Forwarded" ("for=\"" ++ r.RemoteAddr ++ "\""))
  else none

/-- The part of `ServeHTTP` that proxies: everything after the dispatch, from
the check of the HTTP version on. -/
def ServeHTTP.proxy (rt : Runtime) (h : Handler) (world : World) (w : ResponseWriter)
    (r : Request) : Go ServeResult :=
  if r.ProtoMajor ≠ 1 ∧ r.ProtoMajor ≠ 2 ∧ r.ProtoMajor ≠ 3 then
    .ret { w := w, world := world, err := some (caddyhttpError 505
      ("unsupported HTTP major version: " ++ Itoa r.ProtoMajor)) }
  else
    match (if r.Method = "CONNECT" then
        ServeHTTP.connect rt h world w r (ServeHTTP.clientBind rt r)
      else ServeHTTP.forward rt h world w r (ServeHTTP.clientBind rt r)
        (ServeHTTP.err rt r)) with
    | .panic m => .panic m
    | .ret res => .ret { res with ctxHeader := ServeHTTP.ctxHeader rt h r }

/-- The first test of the dispatch: probe resistance is configured with a
non-empty domain and the request host is that domain. -/
def ServeHTTP.isSecretDomain (h : Handler) (reqHost : String) : Bool :=
  match h.ProbeResistance with
  | some pr => 0 < pr.Domain.length ∧ reqHost = pr.Domain
  | none => false

/-- The request host of `ServeHTTP`: `r.Host` without its port, or `r.Host`
itself when it cannot be split. -/
def ServeHTTP.reqHost (rt : Runtime) (r : Request) : String :=
  match rt.SplitHostPort r.Host with
  | .ok (host, _) => host
  | .error _ => r.Host

/-- The `authErr` of `ServeHTTP`: the outcome of `checkCredentials` when
authentication is required, no error otherwise. -/
def ServeHTTP.auth (rt : Runtime) (h : Handler) (r : Request) : Go AuthOutcome :=
  if h.AuthRequired then checkCredentials rt h r else .ret ⟨none, none⟩

/-- Go `Handler.ServeHTTP`. -/
def ServeHTTP (rt : Runtime) (h : Handler) (world : World) (w : ResponseWriter) (r : Request)
    (next : NextFn) : Go ServeResult :=
  match ServeHTTP.auth rt h r with
  | .panic m => .panic m
  | .ret auth =>
    if ServeHTTP.isSecretDomain h (ServeHTTP.reqHost rt r) then
      match serveHiddenPage rt w auth.err with
      | (w1, e) => .ret { w := w1, err := e, world := world, userID := auth.userID }
    else if rt.MatchHost h.Hosts r ∧ (r.Method ≠ "CONNECT" ∨ auth.err ≠ none) then
      if shouldServePACFile h r then
        match servePacFile w r with
        | (w1, e) => .ret { w := w1, err := e, world := world, userID := auth.userID }
      else
        match next world w r with
        | (w1, e, world1) =>
          .ret { w := w1, err := e, world := world1, calls := [.next], userID := auth.userID }
    else
      match auth.err with
      | some authErr =>
        if h.ProbeResistance.isSome then
          match next world w r with
          | (w1, e, world1) =>
            .ret { w := w1, err := e, world := world1, calls := [.next], userID := auth.userID }
        else
          .ret { w := { w with header := Header.Set rt w.header "Proxy-Authenticate" basicRealm },
                 err := some (caddyhttpError 407 authErr), world := world,
                 userID := auth.userID }
      | none =>
        match ServeHTTP.proxy rt h world w r with
        | .panic m => .panic m
        | .ret res => .ret { res with userID := auth.userID }

/-! ## Base64

Go strings are byte strings; a byte is written here as the character with that
code, so the strings that stand for Go strings have characters below 256. -/

/-- The bytes of a string. -/
def bytesOf (s : String) : List Nat := s.data.map (fun c => c.toNat)

/-- The string of a list of bytes. -/
def stringOf (bs : List Nat) : String := String.mk (bs.map Char.ofNat)

/-- A string whose characters are bytes. -/
def IsBytes (s : String) : Prop := ∀ c ∈ s.data, c.toNat < 256

/-- The alphabet of `base64.StdEncoding`. -/
def encodeStd : List Char :=
  "ABCDEFGHIJKLMNOPQRSTUVWXYZabcdefghijklmnopqrstuvwxyz0123456789+/".data

/-- The character of a 6-bit value. -/
def b64Char (i : Nat) : Char := encodeStd.getD i '='

/-- The 6-bit value of a character of the alphabet. -/
def b64Val (c : Char) : Option Nat :=
  if encodeStd.indexOf c < 64 then some (encodeStd.indexOf c) else none

/-- Go `base64.StdEncoding.Encode` on bytes: four characters for every three
bytes, the last group padded with `=`. -/
def base64Encode.go : List Nat → List Char
  | [] => []
  | [a] => [b64Char (a / 4), b64Char (a % 4 * 16), '=', '=']
  | [a, b] => [b64Char (a / 4), b64Char (a % 4 * 16 + b / 16), b64Char (b % 16 * 4), '=']
  | a :: b :: c :: rest =>
    b64Char (a / 4) :: b64Char (a % 4 * 16 + b / 16) :: b64Char (b % 16 * 4 + c / 64) ::
      b64Char (c % 64) :: base64Encode.go rest

/-- Go `base64.StdEncoding.Encode` (also `EncodeToString`) on a byte string. -/
def base64Encode (s : String) : String := String.mk (base64Encode.go (bytesOf s))

/-- The bytes `base64.StdEncoding.Decode` writes for a padded encoding, group
of four characters by group; decoding stops at the padded group, and at a group
that is no encoding. -/
def base64Decode.go : List Char → List Nat
  | a :: b :: c :: d :: rest =>
    match b64Val a, b64Val b with
    | some x, some y =>
      if c = '=' ∧ d = '=' then [x * 4 + y / 16]
      else
        match b64Val c with
        | some z =>
          if d = '=' then [x * 4 + y / 16, y % 16 * 16 + z / 4]
          else
            match b64Val d with
            | some t =>
              (x * 4 + y / 16) :: (y % 16 * 16 + z / 4) :: (z % 4 * 64 + t) ::
                base64Decode.go rest
            | none => []
        | none => []
    | _, _ => []
  | _ => []

/-- Go `base64.StdEncoding.DecodedLen`. -/
def DecodedLen (n : Nat) : Nat := n / 4 * 3

/-- The buffer of `checkCredentials` after decoding: `DecodedLen` zero bytes,
overwritten from the start with the decoded bytes. -/
def base64DecodeBuf (creds : String) : String :=
  stringOf (base64Decode.go creds.data ++
    List.replicate (DecodedLen creds.length - (base64Decode.go creds.data).length) 0)

/-! ## The Caddyfile directives -/

/-- Go `net.ParseIP`: the address in its 16-byte form, or nil. -/
def ParseIP (s : String) : Option IP :=
  if ':' ∈ s.data then parseIPv6 s.data
  else (parseIPv4 s.data).map (fun ip => v4InV6Prefix ++ ip)

/-- Go `IPMask.Size`: the number of leading ones and the number of bits, both 0
when the mask is not ones followed by zeros. -/
def IPMask.Size (m : IPMask) : Nat × Nat :=
  if CIDRMask (maskOnes m) m.length = m then (maskOnes m, 8 * m.length) else (0, 0)

/-- One line of the block of the directive as the dispenser hands it out: the
subdirective, its arguments and, for `acl`, the lines of its nested block. -/
structure Segment where
  subdirective : String
  args : List String := []
  block : List (String × List String) := []
  deriving DecidableEq, Repr

/-- The error of `d.ArgErr()`. -/
def ArgErr : String := "wrong argument count or unexpected line ending"

/-- The nested loop of the `acl` subdirective. -/
def UnmarshalCaddyfile.acl (rt : Runtime) : List (String × List String) → Handler →
    Except String Handler
  | [], h => .ok h
  | (aclDirective, args) :: rest, h =>
    if args.length = 0 then .error ArgErr
    else if aclDirective = "allow" then
      UnmarshalCaddyfile.acl rt rest { h with ACL := h.ACL ++ [⟨args, true⟩] }
    else if aclDirective = "allow_file" then
      if args.length ≠ 1 then .error "allowfile accepts a single filename argument"
      else
        match rt.readLinesFromFile (args.headD "") with
        | .error e => .error e
        | .ok ruleSubjects =>
          UnmarshalCaddyfile.acl rt rest { h with ACL := h.ACL ++ [⟨ruleSubjects, true⟩] }
    else if aclDirective = "deny" then
      UnmarshalCaddyfile.acl rt rest { h with ACL := h.ACL ++ [⟨args, false⟩] }
    else if aclDirective = "deny_file" then
      if args.length ≠ 1 then .error "denyfile accepts a single filename argument"
      else
        match rt.readLinesFromFile (args.headD "") with
        | .error e => .error e
        | .ok ruleSubjects =>
          UnmarshalCaddyfile.acl rt rest { h with ACL := h.ACL ++ [⟨ruleSubjects, false⟩] }
    else .error ("expected acl directive: allow/allowfile/deny/denyfile.got: " ++ aclDirective)

/-- The loop of the `ports` subdirective. -/
def UnmarshalCaddyfile.ports : List String → Except String (List Int)
  | [] => .ok []
  | p :: rest =>
    match Atoi p with
    | none => .error ("ports are expected to be space-separated and in 0-65535 range, but got: " ++ p)
    | some intPort =>
      if intPort ≤ 0 ∨ intPort > 65535 then
        .error ("ports are expected to be space-separated and in 0-65535 range, but got: " ++ p)
      else
        match UnmarshalCaddyfile.ports rest with
        | .error e => .error e
        | .ok ps => .ok (intPort :: ps)

/-- Assignment `m[key] = value` to a Go map kept as a list. -/
def mapAssign (m : List (String × String)) (key value : String) : List (String × String) :=
  (key, value) :: m.filter (fun kv => kv.1 ≠ key)

/-- One turn of the `switch subdirective` of `UnmarshalCaddyfile`. -/
def UnmarshalCaddyfile.subdirective (rt : Runtime) (h : Handler) (seg : Segment) :
    Except String Handler :=
  let args := seg.args
  if seg.subdirective = "basic_auth" then
    if args.length ≠ 2 then .error ArgErr
    else if (args.getD 0 "").length = 0 then .error "empty usernames are not allowed"
    else if ':' ∈ (args.getD 0 "").data then .error "character ':' in usernames is not allowed"
    else
      .ok { h with
        AuthCredentials :=
          (h.AuthCredentials ++ [base64Encode (args.getD 0 "" ++ ":" ++ args.getD 1 "")])
        AuthRequired := true }
  else if seg.subdirective = "hosts" then
    if args.length = 0 then .error ArgErr
    else if h.Hosts.length ≠ 0 then .error "hosts subdirective specified twice"
    else .ok { h with Hosts := args }
  else if seg.subdirective = "ports" then
    if args.length = 0 then .error ArgErr
    else if h.AllowedPorts.length ≠ 0 then .error "ports subdirective specified twice"
    else
      match UnmarshalCaddyfile.ports args with
      | .error e => .error e
      | .ok ps => .ok { h with AllowedPorts := ps }
  else if seg.subdirective = "hide_ip" then
    if args.length ≠ 0 then .error ArgErr else .ok { h with HideIP := true }
  else if seg.subdirective = "hide_via" then
    if args.length ≠ 0 then .error ArgErr else .ok { h with HideVia := true }
  else if seg.subdirective = "probe_resistance" then
    if 1 < args.length then .error ArgErr
    else if args.length = 1 then
      .ok { h with ProbeResistance := some { Domain := args.getD 0 "" } }
    else .ok { h with ProbeResistance := some {} }
  else if seg.subdirective = "serve_pac" then
    if 1 < args.length then .error ArgErr
    else if h.PACPath.length ≠ 0 then .error "serve_pac subdirective specified twice"
    else if args.length = 1 then
      .ok { h with PACPath :=
        (if (args.getD 0 "").data.head? = some '/' then args.getD 0 ""
         else "/" ++ args.getD 0 "") }
    else .ok { h with PACPath := "/proxy.pac" }
  else if seg.subdirective = "dial_timeout" then
    if args.length ≠ 1 then .error ArgErr
    else
      match rt.ParseDuration (args.getD 0 "") with
      | .error _ => .error ArgErr
      | .ok timeout =>
        if timeout < 0 then .error "dial_timeout cannot be negative."
        else .ok { h with DialTimeout := timeout }
  else if seg.subdirective = "upstream" then
    if args.length ≠ 1 then .error ArgErr
    else if h.Upstream ≠ "" then .error "upstream directive specified more than once"
    else .ok { h with Upstream := args.getD 0 "" }
  else if seg.subdirective = "acl" then
    UnmarshalCaddyfile.acl rt seg.block h
  else if seg.subdirective = "bind" then
    if args.length ≠ 1 then .error ArgErr
    else
      match ParseCIDR (args.getD 0 "") with
      | some addrnet =>
        if (IPMask.Size addrnet.Mask).2 = 0 ∨ (IPMask.Size addrnet.Mask).1 % 8 ≠ 0 then
          .error "unsupported subnet to bind to: size must be a multiple of 8"
        else .ok { h with DefaultBind := some addrnet }
      | none =>
        match ParseIP (args.getD 0 "") with
        | some ip =>
          .ok { h with DefaultBind := some ⟨ip, CIDRMask (ip.length * 8) ip.length⟩ }
        | none => .error ("invalid CIDR address: " ++ args.getD 0 "")
  else if seg.subdirective = "host_override" then
    if args.length ≠ 2 then .error ArgErr
    else
      .ok { h with HostOverride :=
        (mapAssign h.HostOverride (rt.ToLower (args.getD 0 "")) (args.getD 1 "")) }
  else .error ArgErr

/-- The loop of `UnmarshalCaddyfile` over the lines of the block. -/
def UnmarshalCaddyfile.loop (rt : Runtime) : List Segment → Handler → Except String Handler
  | [], h => .ok h
  | seg :: rest, h =>
    match UnmarshalCaddyfile.subdirective rt h seg with
    | .error e => .error e
    | .ok h1 => UnmarshalCaddyfile.loop rt rest h1

/-- Go `Handler.UnmarshalCaddyfile`. The dispenser is given by what `d.Next()`
returns for the directive itself, the arguments on the line of the directive
and the lines of its block. -/
def UnmarshalCaddyfile (rt : Runtime) (h : Handler) (next : Bool) (args : List String)
    (block : List Segment) : Except String Handler :=
  if !next then .error ArgErr
  else if 0 < args.length then .error ArgErr
  else UnmarshalCaddyfile.loop rt block h

/-! ## A small concrete instance

One runtime and one handler on which the definitions can be evaluated: the
name `example.test` resolves to a private address followed by two public ones,
of which only the second public one accepts connections. -/

/-- A runtime that knows one host name and one target address form. -/
def exampleRuntime : Runtime where
  SplitHostPort := fun s =>
    if s = "example.test:443" then .ok ("example.test", "443")
    else if s = "example.test:70000" then .ok ("example.test", "70000")
    else if s = "unknown.test:443" then .ok ("unknown.test", "443")
    else if s = "private.test:443" then .ok ("private.test", "443")
    else .error "missing port in address"
  LookupIP := fun w host =>
    if host = "example.test" then
      (.ok [[10, 0, 0, 1], [192, 0, 2, 1], [192, 0, 2, 2]], { w with tick := w.tick + 1 })
    else if host = "private.test" then (.ok [[10, 0, 0, 1]], { w with tick := w.tick + 1 })
    else (.error "no such host", { w with tick := w.tick + 1 })
  IPString := fun ip =>
    if ip = [10, 0, 0, 1] then "10.0.0.1"
    else if ip = [192, 0, 2, 1] then "192.0.2.1"
    else if ip = [192, 0, 2, 2] then "192.0.2.2"
    else "?"
  base64Decode := fun s => if s = "dXNlcjpwYXNz" then "user:pass" else s

/-- A dialer that reaches `192.0.2.2:443` only. -/
def exampleDial : DialFn := fun w _ address _ =>
  if address = "192.0.2.2:443" then ((some 7, none), { w with tick := w.tick + 1 })
  else ((none, some "connection refused"), { w with tick := w.tick + 1 })

/-- A dialer that reaches nothing. -/
def refusingDial : DialFn := fun w _ _ _ =>
  ((none, some "connection refused"), { w with tick := w.tick + 1 })

/-- A handler without upstream that denies `10.0.0.0/8` and allows the rest. -/
def exampleHandler : Handler where
  dialContext := exampleDial
  aclRules := [.aclIPRule ⟨[10, 0, 0, 0], [255, 0, 0, 0]⟩ false, .aclAllRule true]

/-- The same handler behind an upstream proxy. -/
def exampleUpstreamHandler : Handler :=
  { exampleHandler with upstream := some { Scheme := "https", Host := "u.test:8443" } }

/-- A configuration with one user rule, allowing `10.1.0.0/16`. -/
def allowingHandler : Handler where
  ACL := [⟨["10.1.0.0/16"], true⟩]

/-- A next handler that answers 404 itself, as a site without the page does. -/
def exampleNext : NextFn := fun world w _ =>
  ((w.WriteHeader 404).Write "404 page not found", none, { world with tick := world.tick + 1 })

/-- A handler that requires authentication (`user:pass`), is reachable as
`proxy.test` and has no probe resistance. -/
def authHandler : Handler :=
  { exampleHandler with
    AuthRequired := true
    AuthCredentials := ["dXNlcjpwYXNz"]
    Hosts := ["proxy.test"] }

/-- The same handler with probe resistance on `secret.test` and a PAC file. -/
def probeHandler : Handler :=
  { authHandler with
    ProbeResistance := some { Domain := "secret.test" }
    PACPath := "/proxy.pac" }

/-- A GET request for the page `/` of the proxy's own host, no credentials. -/
def ownHostRequest : Request :=
  { Method := "GET", Host := "proxy.test", URL := { Path := "/" } }

/-- A GET request for the PAC file of the proxy's own host, no credentials. -/
def pacRequest : Request :=
  { Method := "GET", Host := "proxy.test", URL := { Path := "/proxy.pac" } }

/-- A CONNECT request to `example.test:443` without credentials. -/
def connectRequest : Request :=
  { Method := "CONNECT", Host := "example.test:443", URL := { Host := "example.test:443" } }

/-- A CONNECT request to `example.test:443` that names the proxy's own host in
its Host header and carries the credentials `user:pass`. -/
def authedConnectRequest : Request :=
  { Method := "CONNECT", Host := "proxy.test", URL := { Host := "example.test:443" },
    Header := [("Proxy-Authorization", ["Basic dXNlcjpwYXNz"])] }

/-- A GET request for the secret domain with the credentials `user:pass`. -/
def authedSecretRequest : Request :=
  { Method := "GET", Host := "secret.test", URL := { Path := "/" },
    Header := [("Proxy-Authorization", ["Basic dXNlcjpwYXNz"])] }

/-- A GET request for the secret domain with wrong credentials. -/
def secretRequest : Request :=
  { Method := "GET", Host := "secret.test", URL := { Path := "/" },
    Header := [("Proxy-Authorization", ["Basic d3Jvbmc6d3Jvbmc="])] }

/-- The example runtime with the base64 functions of the Go library. -/
def stdRuntime : Runtime :=
  { exampleRuntime with base64Decode := base64DecodeBuf, base64Encode := base64Encode }

/-- A `Proxy-Authorization` value as the authentication accepts it, in the
words of the specification: exactly two fields separated by one space, the
first equal to `basic` once lowercased, the second equal to a credential. -/
def AcceptedAuthorization (rt : Runtime) (h : Handler) (value : String) : Prop :=
  ∃ scheme token : String, value = scheme ++ " " ++ token ∧
    ' ' ∉ scheme.data ∧ ' ' ∉ token.data ∧
    rt.ToLower scheme = "basic" ∧ token ∈ h.AuthCredentials

/-- A handler whose one credential is the encoding of `user:pass`. -/
def stdAuthHandler : Handler :=
  { AuthRequired := true, AuthCredentials := [base64Encode "user:pass"] }

/-- A request with the given `Proxy-Authorization` values. -/
def requestWithAuthorization (values : List String) : Request :=
  { Method := "CONNECT", Host := "example.test:443", URL := { Host := "example.test:443" },
    Header := [("Proxy-Authorization", values)] }

/-- The keys `removeHopByHop` deletes from a header map: the canonical form of
every comma-separated, trimmed token of the first `Connection` value, and the
canonical form of the names of `hopByHopHeaders`. -/
def removedKeys (rt : Runtime) (header : Header) : List String :=
  (splitOnChar ',' (Header.Get rt header "Connection").data).map
      (fun tok => rt.CanonicalMIMEHeaderKey (rt.TrimSpace (String.mk tok))) ++
    hopByHopHeaders.map rt.CanonicalMIMEHeaderKey

/-- The header map `forwardResponse` has built when it calls `removeHopByHop`:
`Server` deleted, `Via` added, the headers of the response added. -/
def forwardResponse.merged (rt : Runtime) (w : ResponseWriter) (response : Response) : Header :=
  response.Header.foldl
    (fun acc kv => kv.2.foldl (fun acc val => Header.Add rt acc kv.1 val) acc)
    (Header.Add rt (Header.Del rt w.header "Server") "Via"
      (Itoa response.ProtoMajor ++ "." ++ Itoa response.ProtoMinor ++ " caddy"))

/-- A dialer that reaches every address. -/
def acceptingDial : DialFn := fun w _ _ _ =>
  ((some 7, none), { w with tick := w.tick + 1 })

/-- The example runtime, which in addition splits the addresses of
`example.test:80` and `a.test:443`, resolves `a.test` and `b.test` to different
addresses, and reads a 200 response from every connection. -/
def forwardRuntime : Runtime :=
  { exampleRuntime with
    SplitHostPort := fun s =>
      if s = "example.test:80" then .ok ("example.test", "80")
      else if s = "a.test:443" then .ok ("a.test", "443")
      else exampleRuntime.SplitHostPort s
    LookupIP := fun w host =>
      if host = "a.test" then (.ok [[192, 0, 2, 1]], { w with tick := w.tick + 1 })
      else if host = "b.test" then (.ok [[192, 0, 2, 2]], { w with tick := w.tick + 1 })
      else exampleRuntime.LookupIP w host
    readResponse := fun w _ _ =>
      (.ok { StatusCode := 200, Header := [("Content-Type", ["text/plain"])], Body := .ok "hello" },
        { w with tick := w.tick + 1 }) }

/-- A handler with `hide_via` set, without upstream. -/
def hideViaHandler : Handler :=
  { exampleHandler with dialContext := acceptingDial, HideVia := true }

/-- A GET request for `http://example.test/x` sent through the proxy. -/
def forwardRequest : Request :=
  { Method := "GET", Host := "example.test",
    URL := { Scheme := "http", Host := "example.test", Path := "/x" },
    RemoteAddr := "198.51.100.9:5000" }

/-- The handler the directive `host_override A.test b.test` configures,
provisioned, with a dialer that reaches every address. -/
def overrideHandler : Handler :=
  { provisioned forwardRuntime 0
      (match UnmarshalCaddyfile forwardRuntime {} true []
          [⟨"host_override", ["A.test", "b.test"], []⟩] with
       | .ok h => h
       | .error _ => {}) with
    dialContext := acceptingDial }

/-- The local address the first `dialContext` closure of `Provision` dials
from when the request gives no bind address, and the world once the random
bytes are drawn and written into the array of `DefaultBind.IP`. -/
def Provision.chooseBind (rt : Runtime) (net : IPNet) (w : World) : TCPAddr × World :=
  ({ IP := (w.bindIP.getD net.IP).take (maskOnes net.Mask >>> 3) ++
        randRead rt w.randPos ((w.bindIP.getD net.IP).length - (maskOnes net.Mask >>> 3)) },
   { w with
     randPos := w.randPos + ((w.bindIP.getD net.IP).length - (maskOnes net.Mask >>> 3))
     bindIP := some ((w.bindIP.getD net.IP).take (maskOnes net.Mask >>> 3) ++
        randRead rt w.randPos ((w.bindIP.getD net.IP).length - (maskOnes net.Mask >>> 3))) })

/-- The source addresses of successive dials, without bind address of the
request, to the given targets (network and address), each dial starting in the
world the one before left. -/
def sourceIPs (rt : Runtime) (net : IPNet) : List (String × String) → World → List IP
  | [], _ => []
  | target :: rest, w =>
    (Provision.chooseBind rt net w).1.IP ::
      sourceIPs rt net rest (Provision.dialContext rt (some net) w target.1 target.2 none).2

/-- An address of the network: of the length of the network address and equal
to it under the mask. -/
def inNetwork (net : IPNet) (ip : IP) : Prop :=
  ip.length = net.IP.length ∧ maskedEq net.IP net.Mask ip = true

/-- What holds of the address array of `DefaultBind` between dials: once
written, it holds an address of the network that has the bytes
`[0 .. ones/8)` of the network address. -/
def bindInvariant (net : IPNet) (w : World) : Prop :=
  ∀ x, w.bindIP = some x →
    x.take (maskOnes net.Mask / 8) = net.IP.take (maskOnes net.Mask / 8) ∧ inNetwork net x

/-- A runtime whose random source counts 1, 2, 3, ..., whose dialer reaches
every address and leaves the handler's memory alone, and which resolves every
name to `192.0.2.1`. -/
def countingRuntime : Runtime :=
  { forwardRuntime with
    randByte := fun i => i + 1
    netDial := fun w _ _ _ => ((some 7, none), { w with tick := w.tick + 1 })
    LookupIP := fun w _ => (.ok [[192, 0, 2, 1]], { w with tick := w.tick + 1 }) }

/-- The same runtime, which in addition parses the upstream URL
`https://u.test:8443` and whose upstream dialer reaches every address. -/
def upstreamRuntime : Runtime :=
  { countingRuntime with
    urlParse := fun s =>
      if s = "https://u.test:8443" then .ok { Scheme := "https", Host := "u.test:8443" }
      else .error "invalid URL"
    proxyFromURL := fun _ =>
      .ok (fun w _ _ => ((some 9, none), { w with tick := w.tick + 1 })) }

/-- A configuration with the network 203.0.113.0/24 as default bind. -/
def bindHandler : Handler :=
  { DefaultBind := some ⟨[203, 0, 113, 0], [255, 255, 255, 0]⟩ }

/-- The same configuration behind the upstream `https://u.test:8443`. -/
def bindUpstreamHandler : Handler :=
  { bindHandler with Upstream := "https://u.test:8443" }

/-! ## Theorems -/

/-! ### The ACL decision -/

theorem hostIsAllowed_loop_append (hostname : String) (ip : IP) (pre rest : List aclRule)
    (hpre : ∀ q ∈ pre, q.tryMatch ip hostname = .aclDecisionNoMatch) :
    hostIsAllowed.loop hostname ip (pre ++ rest) = hostIsAllowed.loop hostname ip rest := by
  induction pre with
  | nil => rfl
  | cons q qs ih =>
    have hq : q.tryMatch ip hostname = .aclDecisionNoMatch := hpre q (List.mem_cons_self _ _)
    have hqs : ∀ r ∈ qs, r.tryMatch ip hostname = .aclDecisionNoMatch :=
      fun r hr => hpre r (List.mem_cons_of_mem _ hr)
    simp only [List.cons_append, hostIsAllowed.loop, hq]
    exact ih hqs

theorem hostIsAllowed_loop_decisive (hostname : String) (ip : IP) (r : aclRule)
    (post : List aclRule) (hr : r.tryMatch ip hostname ≠ .aclDecisionNoMatch) :
    hostIsAllowed.loop hostname ip (r :: post) =
      decide (r.tryMatch ip hostname = .aclDecisionAllow) := by
  cases hm : r.tryMatch ip hostname with
  | aclDecisionAllow => simp [hostIsAllowed.loop, hm]
  | aclDecisionDeny => simp [hostIsAllowed.loop, hm]
  | aclDecisionNoMatch => exact absurd hm hr

theorem hostIsAllowed_loop_find (hostname : String) (ip : IP) (rules : List aclRule) :
    hostIsAllowed.loop hostname ip rules =
      (match rules.find? (fun r => decide (r.tryMatch ip hostname ≠ .aclDecisionNoMatch)) with
       | some r => decide (r.tryMatch ip hostname = .aclDecisionAllow)
       | none => false) := by
  induction rules with
  | nil => rfl
  | cons r rs ih =>
    cases hm : r.tryMatch ip hostname with
    | aclDecisionAllow => simp [hostIsAllowed.loop, List.find?, hm]
    | aclDecisionDeny => simp [hostIsAllowed.loop, List.find?, hm]
    | aclDecisionNoMatch => simp [hostIsAllowed.loop, List.find?, hm, ih]

/-- C2: `hostIsAllowed(hostname, ip)` is the decision of the first rule, in
list order, whose `tryMatch(ip, hostname)` is Allow or Deny (true for Allow,
false for Deny); it is false when every rule returns NoMatch, the empty rule
list included; the rules after the first decisive one have no influence. -/
theorem hostIsAllowed_first_decisive (h : Handler) (hostname : String) (ip : IP) :
    hostIsAllowed h hostname ip =
      (match h.aclRules.find? (fun r => decide (r.tryMatch ip hostname ≠ .aclDecisionNoMatch)) with
       | some r => decide (r.tryMatch ip hostname = .aclDecisionAllow)
       | none => false) ∧
    (∀ pre r post, h.aclRules = pre ++ r :: post →
        (∀ q ∈ pre, q.tryMatch ip hostname = .aclDecisionNoMatch) →
        r.tryMatch ip hostname ≠ .aclDecisionNoMatch →
        hostIsAllowed h hostname ip = decide (r.tryMatch ip hostname = .aclDecisionAllow)) ∧
    ((∀ q ∈ h.aclRules, q.tryMatch ip hostname = .aclDecisionNoMatch) →
        hostIsAllowed h hostname ip = false) := by
  refine ⟨hostIsAllowed_loop_find hostname ip h.aclRules, ?_, ?_⟩
  · intro pre r post hsplit hpre hr
    unfold hostIsAllowed
    rw [hsplit, hostIsAllowed_loop_append hostname ip pre (r :: post) hpre]
    exact hostIsAllowed_loop_decisive hostname ip r post hr
  · intro hall
    unfold hostIsAllowed
    have := hostIsAllowed_loop_append hostname ip h.aclRules [] hall
    simpa [hostIsAllowed.loop] using this

/-- Witness of C2: with the rules "deny 10.0.0.0/8, allow all", `10.0.0.1` is
decided by the first rule and `192.0.2.1` by the second. -/
theorem hostIsAllowed_first_decisive_witness :
    hostIsAllowed exampleHandler "example.test" [10, 0, 0, 1] = false ∧
    hostIsAllowed exampleHandler "example.test" [192, 0, 2, 1] = true :=
  ⟨(hostIsAllowed_first_decisive exampleHandler "example.test" [10, 0, 0, 1]).2.1
      [] (.aclIPRule ⟨[10, 0, 0, 0], [255, 0, 0, 0]⟩ false) [.aclAllRule true] rfl
      (by simp) (by decide),
   (hostIsAllowed_first_decisive exampleHandler "example.test" [192, 0, 2, 1]).2.1
      [.aclIPRule ⟨[10, 0, 0, 0], [255, 0, 0, 0]⟩ false] (.aclAllRule true) [] rfl
      (by decide) (by decide)⟩

/-! ### The port allow-list -/

theorem portIsAllowed_loop_eq (portInt : Int) (ps : List Int) :
    portIsAllowed.loop portInt ps = decide (portInt ∈ ps) := by
  induction ps with
  | nil => simp [portIsAllowed.loop]
  | cons p ps ih =>
    by_cases hp : p = portInt
    · simp [portIsAllowed.loop, hp]
    · have hp2 : ¬ portInt = p := fun e => hp e.symm
      simp [portIsAllowed.loop, hp, hp2, ih]

theorem portIsAllowed_out_of_range (h : Handler) (s : String) (p : Int)
    (hp : Atoi s = some p) (hr : p ≤ 0 ∨ 65535 < p) : portIsAllowed h s = false := by
  unfold portIsAllowed
  rw [hp]
  simp only
  rw [if_pos (by omega)]

/-- C6: `portIsAllowed(s)` is true exactly when `s` parses (`strconv.Atoi`) as
an integer `p` with `0 < p <= 65535` and the allow-list is empty or contains
`p`; a port string that does not parse (the empty string, a non-numeric one),
port 0, a negative port and a port above 65535 are rejected whatever the
allow-list is. -/
theorem portIsAllowed_iff (h : Handler) (s : String) :
    (portIsAllowed h s = true ↔
      ∃ p : Int, Atoi s = some p ∧ 0 < p ∧ p ≤ 65535 ∧
        (h.AllowedPorts = [] ∨ p ∈ h.AllowedPorts)) ∧
    (Atoi s = none → portIsAllowed h s = false) ∧
    (∀ p : Int, Atoi s = some p → (p ≤ 0 ∨ 65535 < p) → portIsAllowed h s = false) ∧
    portIsAllowed h "" = false ∧ portIsAllowed h "http" = false ∧
    portIsAllowed h "0" = false ∧ portIsAllowed h "-1" = false ∧
    portIsAllowed h "65536" = false := by
  refine ⟨?_, ?_, portIsAllowed_out_of_range h s, ?_, ?_, ?_, ?_, ?_⟩
  · constructor
    · intro hok
      unfold portIsAllowed at hok
      cases hp : Atoi s with
      | none => simp [hp] at hok
      | some p =>
        rw [hp] at hok
        simp only at hok
        by_cases hr : p ≤ 0 ∨ p > 65535
        · simp [hr] at hok
        · rw [if_neg hr] at hok
          refine ⟨p, rfl, by omega, by omega, ?_⟩
          by_cases he : h.AllowedPorts.length = 0
          · exact Or.inl (List.length_eq_zero.mp he)
          · rw [if_neg he, portIsAllowed_loop_eq] at hok
            exact Or.inr (of_decide_eq_true hok)
    · rintro ⟨p, hp, hpos, hle, hmem⟩
      unfold portIsAllowed
      rw [hp]
      simp only
      rw [if_neg (by omega)]
      rcases hmem with he | hin
      · simp [he]
      · by_cases he : h.AllowedPorts.length = 0
        · simp [he]
        · rw [if_neg he, portIsAllowed_loop_eq]
          exact decide_eq_true hin
  · intro hn
    unfold portIsAllowed
    rw [hn]
  · rfl
  · rfl
  · exact portIsAllowed_out_of_range h "0" 0 (by decide) (by omega)
  · exact portIsAllowed_out_of_range h "-1" (-1) (by decide) (by omega)
  · exact portIsAllowed_out_of_range h "65536" 65536 (by decide) (by omega)

/-- Witness of C6: with the allow-list 80, 443 the port `443` passes and the
port `8080` does not. -/
theorem portIsAllowed_iff_witness :
    portIsAllowed { AllowedPorts := [80, 443] } "443" = true ∧
    ¬ portIsAllowed { AllowedPorts := [80, 443] } "8080" = true :=
  ⟨(portIsAllowed_iff { AllowedPorts := [80, 443] } "443").1.mpr
      ⟨443, by decide, by decide, by decide, Or.inr (by decide)⟩,
   fun hc => by
    obtain ⟨p, hp, _, _, hm⟩ := (portIsAllowed_iff { AllowedPorts := [80, 443] } "8080").1.mp hc
    have hp2 : Atoi "8080" = some 8080 := by decide
    rw [hp2] at hp
    cases hp
    rcases hm with hm | hm
    · exact absurd hm (by decide)
    · exact absurd hm (by decide)⟩

/-! ### The dial loop -/

theorem loop_filter (rt : Runtime) (h : Handler) (network host port : String)
    (bind : Option TCPAddr) (IPs : List IP) (err : Option String) (w : World) :
    dialContextCheckACL.loop rt h network host port bind IPs err w =
      dialContextCheckACL.loop rt h network host port bind
        (IPs.filter (fun ip => hostIsAllowed h host ip)) err w := by
  induction IPs generalizing err w with
  | nil => rfl
  | cons ip rest ih =>
    by_cases ha : hostIsAllowed h host ip = true
    · rw [List.filter_cons_of_pos ha]
      simp only [dialContextCheckACL.loop, ha, Bool.not_true, Bool.false_eq_true, if_false]
      rcases hd : h.dialContext w network (dialAddress rt port ip) bind with ⟨⟨c, e⟩, w1⟩
      cases e with
      | none => rfl
      | some e => simp only [ih]
    · rw [List.filter_cons_of_neg ha]
      have ha2 : hostIsAllowed h host ip = false := by simpa using ha
      simp only [dialContextCheckACL.loop, ha2, Bool.not_false, if_true]
      exact ih err w

theorem loop_success (rt : Runtime) (h : Handler) (network host port : String)
    (bind : Option TCPAddr) (pre : List IP) (ip : IP) (post : List IP)
    (hall : ∀ x ∈ pre ++ ip :: post, hostIsAllowed h host x = true)
    (err : Option String) (w w2 w3 : World) (c : Option Conn)
    (hfail : allDialsFail rt h network port bind pre w = some w2)
    (hok : h.dialContext w2 network (dialAddress rt port ip) bind = ((c, none), w3)) :
    dialContextCheckACL.loop rt h network host port bind (pre ++ ip :: post) err w =
      ⟨c, none, w3, (pre ++ [ip]).map (dialCall rt network port bind)⟩ := by
  induction pre generalizing err w with
  | nil =>
    have hw : w = w2 := by simpa [allDialsFail] using hfail
    subst hw
    have ha : hostIsAllowed h host ip = true := hall ip (by simp)
    simp [dialContextCheckACL.loop, ha, hok, dialCall]
  | cons x xs ih =>
    have ha : hostIsAllowed h host x = true := hall x (by simp)
    have hall2 : ∀ y ∈ xs ++ ip :: post, hostIsAllowed h host y = true :=
      fun y hy => hall y (by simp only [List.cons_append, List.mem_cons]; exact Or.inr hy)
    rcases hd : h.dialContext w network (dialAddress rt port x) bind with ⟨⟨c1, e⟩, w1⟩
    cases e with
    | none => simp [allDialsFail, hd] at hfail
    | some e =>
      have hfail2 : allDialsFail rt h network port bind xs w1 = some w2 := by
        simpa [allDialsFail, hd] using hfail
      simp only [List.cons_append, dialContextCheckACL.loop, ha, Bool.not_true,
        Bool.false_eq_true, if_false, hd, List.append_eq]
      rw [ih hall2 (some e) w1 hfail2]
      simp [DialOutcome.after, dialCall]

theorem loop_all_fail (rt : Runtime) (h : Handler) (network host port : String)
    (bind : Option TCPAddr) (l : List IP)
    (hall : ∀ x ∈ l, hostIsAllowed h host x = true)
    (err : Option String) (w w2 : World)
    (hfail : allDialsFail rt h network port bind l w = some w2) :
    (dialContextCheckACL.loop rt h network host port bind l err w).conn = none ∧
    (dialContextCheckACL.loop rt h network host port bind l err w).world = w2 ∧
    (dialContextCheckACL.loop rt h network host port bind l err w).calls =
      l.map (dialCall rt network port bind) ∧
    ((dialContextCheckACL.loop rt h network host port bind l err w).err.bind Error.status =
      some (if l = [] ∧ err = none then 403 else 502)) := by
  induction l generalizing err w with
  | nil =>
    have hw : w = w2 := by simpa [allDialsFail] using hfail
    subst hw
    cases err <;> simp [dialContextCheckACL.loop, caddyhttpError, Error.status]
  | cons x xs ih =>
    have ha : hostIsAllowed h host x = true := hall x (by simp)
    have hall2 : ∀ y ∈ xs, hostIsAllowed h host y = true :=
      fun y hy => hall y (List.mem_cons_of_mem _ hy)
    rcases hd : h.dialContext w network (dialAddress rt port x) bind with ⟨⟨c1, e⟩, w1⟩
    cases e with
    | none => simp [allDialsFail, hd] at hfail
    | some e =>
      have hfail2 : allDialsFail rt h network port bind xs w1 = some w2 := by
        simpa [allDialsFail, hd] using hfail
      obtain ⟨h1, h2, h3, h4⟩ := ih hall2 (some e) w1 hfail2
      simp only [dialContextCheckACL.loop, ha, Bool.not_true, Bool.false_eq_true, if_false, hd,
        DialOutcome.after]
      refine ⟨h1, h2, ?_, ?_⟩
      · simp [h3, dialCall]
      · simpa using h4

theorem loop_calls_prefix (rt : Runtime) (h : Handler) (network host port : String)
    (bind : Option TCPAddr) (l : List IP)
    (hall : ∀ x ∈ l, hostIsAllowed h host x = true) (err : Option String) (w : World) :
    ∃ k, (dialContextCheckACL.loop rt h network host port bind l err w).calls =
      (l.take k).map (dialCall rt network port bind) := by
  induction l generalizing err w with
  | nil => exact ⟨0, by cases err <;> rfl⟩
  | cons x xs ih =>
    have ha : hostIsAllowed h host x = true := hall x (by simp)
    have hall2 : ∀ y ∈ xs, hostIsAllowed h host y = true :=
      fun y hy => hall y (List.mem_cons_of_mem _ hy)
    rcases hd : h.dialContext w network (dialAddress rt port x) bind with ⟨⟨c1, e⟩, w1⟩
    cases e with
    | none =>
      refine ⟨1, ?_⟩
      simp [dialContextCheckACL.loop, ha, hd, dialCall]
    | some e =>
      obtain ⟨k, hk⟩ := ih hall2 (some e) w1
      refine ⟨k + 1, ?_⟩
      simp [dialContextCheckACL.loop, ha, hd, DialOutcome.after, hk, dialCall]

theorem loop_err_conn (rt : Runtime) (h : Handler) (network host port : String)
    (bind : Option TCPAddr) (l : List IP) (err : Option String) (w : World)
    (he : (dialContextCheckACL.loop rt h network host port bind l err w).err ≠ none) :
    (dialContextCheckACL.loop rt h network host port bind l err w).conn = none := by
  induction l generalizing err w with
  | nil => cases err <;> rfl
  | cons x xs ih =>
    by_cases ha : hostIsAllowed h host x = true
    · rcases hd : h.dialContext w network (dialAddress rt port x) bind with ⟨⟨c1, e⟩, w1⟩
      cases e with
      | none => simp [dialContextCheckACL.loop, ha, hd] at he
      | some e =>
        simp only [dialContextCheckACL.loop, ha, Bool.not_true, Bool.false_eq_true, if_false, hd,
          DialOutcome.after] at he ⊢
        exact ih (some e) w1 he
    · have ha2 : hostIsAllowed h host x = false := by simpa using ha
      simp only [dialContextCheckACL.loop, ha2, Bool.not_false, if_true] at he ⊢
      exact ih err w he

theorem mem_filter_allowed (h : Handler) (host : String) (IPs : List IP) :
    ∀ x ∈ IPs.filter (fun ip => hostIsAllowed h host ip), hostIsAllowed h host x = true := by
  intro x hx
  exact (List.mem_filter.mp hx).2

/-! ### `dialContextCheckACL` -/

/-- C1: without upstream, when the target host resolves to `IPs`, the dials
made are those of a prefix of the ACL-allowed addresses in list order (so an
address that `hostIsAllowed` rejects is never dialed), and when an allowed
address dials successfully after all allowed addresses before it failed, the
returned connection is the one of that dial and no later address is dialed. -/
theorem dialContextCheckACL_first_allowed_success
    (rt : Runtime) (h : Handler) (w w1 : World) (network hostPort host port : String)
    (bind : Option TCPAddr) (IPs : List IP)
    (hup : h.upstream = none)
    (hnet : network = "tcp" ∨ network = "tcp4" ∨ network = "tcp6")
    (hsplit : rt.SplitHostPort hostPort = .ok (host, port))
    (hport : portIsAllowed h port = true)
    (hlookup : rt.LookupIP w host = (.ok IPs, w1)) :
    (∃ k, (dialContextCheckACL rt h w network hostPort bind).calls =
      .lookupIP host ::
        ((IPs.filter (fun ip => hostIsAllowed h host ip)).take k).map
          (dialCall rt network port bind)) ∧
    (∀ (pre : List IP) (ip : IP) (post : List IP) (w2 w3 : World) (c : Option Conn),
      IPs.filter (fun ip => hostIsAllowed h host ip) = pre ++ ip :: post →
      allDialsFail rt h network port bind pre w1 = some w2 →
      h.dialContext w2 network (dialAddress rt port ip) bind = ((c, none), w3) →
      dialContextCheckACL rt h w network hostPort bind =
        ⟨c, none, w3, .lookupIP host :: (pre ++ [ip]).map (dialCall rt network port bind)⟩) := by
  have hnet2 : ¬ (network ≠ "tcp" ∧ network ≠ "tcp4" ∧ network ≠ "tcp6") := by
    rcases hnet with e | e | e <;> simp [e]
  have hunfold : dialContextCheckACL rt h w network hostPort bind =
      (dialContextCheckACL.loop rt h network host port bind
        (IPs.filter (fun ip => hostIsAllowed h host ip)) none w1).after (.lookupIP host) := by
    unfold dialContextCheckACL
    rw [if_neg hnet2, hsplit]
    simp only [hup, Option.isSome_none, Bool.false_eq_true, if_false, hport, Bool.not_true,
      hlookup]
    rw [← loop_filter]
  refine ⟨?_, ?_⟩
  · obtain ⟨k, hk⟩ := loop_calls_prefix rt h network host port bind
      (IPs.filter (fun ip => hostIsAllowed h host ip)) (mem_filter_allowed h host IPs) none w1
    exact ⟨k, by rw [hunfold]; simp [DialOutcome.after, hk]⟩
  · intro pre ip post w2 w3 c hsp hfail hok
    rw [hunfold, hsp]
    rw [loop_success rt h network host port bind pre ip post
      (by rw [← hsp]; exact mem_filter_allowed h host IPs) none w1 w2 w3 c hfail hok]
    rfl

/-- Witness of C1: `example.test` resolves to `10.0.0.1` (denied), `192.0.2.1`
(allowed, refuses) and `192.0.2.2` (allowed, accepts); the connection returned
is that of `192.0.2.2` and `10.0.0.1` is not dialed. -/
theorem dialContextCheckACL_first_allowed_success_witness :
    dialContextCheckACL exampleRuntime exampleHandler {} "tcp" "example.test:443" none =
      ⟨some 7, none, { tick := 3 },
        [.lookupIP "example.test", .dial "tcp" "192.0.2.1:443" none,
          .dial "tcp" "192.0.2.2:443" none]⟩ :=
  (dialContextCheckACL_first_allowed_success exampleRuntime exampleHandler {} { tick := 1 }
    "tcp" "example.test:443" "example.test" "443" none
    [[10, 0, 0, 1], [192, 0, 2, 1], [192, 0, 2, 2]]
    rfl (Or.inl rfl) rfl (by decide) rfl).2
    [[192, 0, 2, 1]] [192, 0, 2, 2] [] { tick := 2 } { tick := 3 } (some 7)
    (by decide) (by decide) (by decide)

theorem dialContextCheckACL_resolved
    (rt : Runtime) (h : Handler) (w w1 : World) (network hostPort host port : String)
    (bind : Option TCPAddr) (IPs : List IP)
    (hup : h.upstream = none)
    (hnet : ¬ (network ≠ "tcp" ∧ network ≠ "tcp4" ∧ network ≠ "tcp6"))
    (hsplit : rt.SplitHostPort hostPort = .ok (host, port))
    (hport : portIsAllowed h port = true)
    (hlookup : rt.LookupIP w host = (.ok IPs, w1)) :
    dialContextCheckACL rt h w network hostPort bind =
      (dialContextCheckACL.loop rt h network host port bind
        (IPs.filter (fun ip => hostIsAllowed h host ip)) none w1).after (.lookupIP host) := by
  unfold dialContextCheckACL
  rw [if_neg hnet, hsplit]
  simp only [hup, Option.isSome_none, Bool.false_eq_true, if_false, hport, Bool.not_true,
    hlookup]
  rw [← loop_filter]

/-- C4: without upstream the error of `dialContextCheckACL` is decided by the
first failing step: unsupported network 400; `host:port` that cannot be split
400; port rejected by `portIsAllowed` 403 with no lookup and no dial; failed
lookup 502; then 403 when no resolved address is ACL-allowed (an empty list
included) and 502 when the allowed addresses were dialed and every dial
failed. Whenever an error is returned the connection is nil. -/
theorem dialContextCheckACL_error_order
    (rt : Runtime) (h : Handler) (w : World) (network hostPort : String)
    (bind : Option TCPAddr) (hup : h.upstream = none) :
    ((network ≠ "tcp" ∧ network ≠ "tcp4" ∧ network ≠ "tcp6") →
      (dialContextCheckACL rt h w network hostPort bind).err.bind Error.status = some 400 ∧
      (dialContextCheckACL rt h w network hostPort bind).calls = []) ∧
    (¬ (network ≠ "tcp" ∧ network ≠ "tcp4" ∧ network ≠ "tcp6") →
      (∀ e, rt.SplitHostPort hostPort = .error e →
        (dialContextCheckACL rt h w network hostPort bind).err.bind Error.status = some 400 ∧
        (dialContextCheckACL rt h w network hostPort bind).calls = []) ∧
      (∀ host port, rt.SplitHostPort hostPort = .ok (host, port) →
        (portIsAllowed h port = false →
          (dialContextCheckACL rt h w network hostPort bind).err.bind Error.status = some 403 ∧
          (dialContextCheckACL rt h w network hostPort bind).calls = [] ∧
          (dialContextCheckACL rt h w network hostPort bind).world = w) ∧
        (portIsAllowed h port = true →
          (∀ e w1, rt.LookupIP w host = (.error e, w1) →
            (dialContextCheckACL rt h w network hostPort bind).err.bind Error.status =
              some 502 ∧
            (dialContextCheckACL rt h w network hostPort bind).calls = [.lookupIP host]) ∧
          (∀ IPs w1, rt.LookupIP w host = (.ok IPs, w1) →
            (IPs.filter (fun ip => hostIsAllowed h host ip) = [] →
              (dialContextCheckACL rt h w network hostPort bind).err.bind Error.status =
                some 403 ∧
              (dialContextCheckACL rt h w network hostPort bind).calls = [.lookupIP host]) ∧
            (IPs.filter (fun ip => hostIsAllowed h host ip) ≠ [] →
              ∀ w2, allDialsFail rt h network port bind
                  (IPs.filter (fun ip => hostIsAllowed h host ip)) w1 = some w2 →
                (dialContextCheckACL rt h w network hostPort bind).err.bind Error.status =
                  some 502 ∧
                (dialContextCheckACL rt h w network hostPort bind).calls =
                  .lookupIP host ::
                    (IPs.filter (fun ip => hostIsAllowed h host ip)).map
                      (dialCall rt network port bind)))))) ∧
    ((dialContextCheckACL rt h w network hostPort bind).err ≠ none →
      (dialContextCheckACL rt h w network hostPort bind).conn = none) := by
  refine ⟨?_, ?_, ?_⟩
  · intro hnet
    unfold dialContextCheckACL
    rw [if_pos hnet]
    exact ⟨rfl, rfl⟩
  · intro hnet
    refine ⟨?_, ?_⟩
    · intro e hsplit
      unfold dialContextCheckACL
      rw [if_neg hnet, hsplit]
      exact ⟨rfl, rfl⟩
    · intro host port hsplit
      refine ⟨?_, ?_⟩
      · intro hport
        unfold dialContextCheckACL
        rw [if_neg hnet, hsplit]
        simp [hup, hport, Error.status, caddyhttpError]
      · intro hport
        refine ⟨?_, ?_⟩
        · intro e w1 hlookup
          unfold dialContextCheckACL
          rw [if_neg hnet, hsplit]
          simp [hup, hport, hlookup, Error.status, caddyhttpError]
        · intro IPs w1 hlookup
          have hres := dialContextCheckACL_resolved rt h w w1 network hostPort host port bind IPs
            hup hnet hsplit hport hlookup
          refine ⟨?_, ?_⟩
          · intro hnone
            rw [hres, hnone]
            exact ⟨rfl, rfl⟩
          · intro hsome w2 hfail
            obtain ⟨_, _, h3, h4⟩ := loop_all_fail rt h network host port bind
              (IPs.filter (fun ip => hostIsAllowed h host ip)) (mem_filter_allowed h host IPs)
              none w1 w2 hfail
            rw [hres]
            refine ⟨?_, ?_⟩
            · simpa [DialOutcome.after, hsome] using h4
            · simp [DialOutcome.after, h3]
  · intro herr
    by_cases hnet : network ≠ "tcp" ∧ network ≠ "tcp4" ∧ network ≠ "tcp6"
    · unfold dialContextCheckACL
      rw [if_pos hnet]
    · cases hsplit : rt.SplitHostPort hostPort with
      | error e =>
        unfold dialContextCheckACL
        rw [if_neg hnet, hsplit]
      | ok hp =>
        obtain ⟨host, port⟩ := hp
        by_cases hport : portIsAllowed h port = true
        · rcases hlookup : rt.LookupIP w host with ⟨r, w1⟩
          cases r with
          | error e =>
            unfold dialContextCheckACL
            rw [if_neg hnet, hsplit]
            simp only [hup, Option.isSome_none, Bool.false_eq_true, if_false, hport,
              Bool.not_true, hlookup]
          | ok IPs =>
            have hres := dialContextCheckACL_resolved rt h w w1 network hostPort host port bind
              IPs hup hnet hsplit hport hlookup
            rw [hres] at herr ⊢
            exact loop_err_conn rt h network host port bind _ none w1 herr
        · have hport2 : portIsAllowed h port = false := by simpa using hport
          unfold dialContextCheckACL
          rw [if_neg hnet, hsplit]
          simp only [hup, Option.isSome_none, Bool.false_eq_true, if_false, hport2,
            Bool.not_false, if_true]

/-- Witness of C4: one concrete request for each failing step. -/
theorem dialContextCheckACL_error_order_witness :
    (dialContextCheckACL exampleRuntime exampleHandler {} "udp" "example.test:443"
      none).err.bind Error.status = some 400 ∧
    (dialContextCheckACL exampleRuntime exampleHandler {} "tcp" "example.test"
      none).err.bind Error.status = some 400 ∧
    ((dialContextCheckACL exampleRuntime exampleHandler {} "tcp" "example.test:70000"
      none).err.bind Error.status = some 403 ∧
     (dialContextCheckACL exampleRuntime exampleHandler {} "tcp" "example.test:70000"
      none).calls = []) ∧
    (dialContextCheckACL exampleRuntime exampleHandler {} "tcp" "unknown.test:443"
      none).err.bind Error.status = some 502 ∧
    (dialContextCheckACL exampleRuntime exampleHandler {} "tcp" "private.test:443"
      none).err.bind Error.status = some 403 ∧
    (dialContextCheckACL exampleRuntime { exampleHandler with dialContext := refusingDial } {}
      "tcp" "example.test:443" none).err.bind Error.status = some 502 ∧
    (dialContextCheckACL exampleRuntime { exampleHandler with dialContext := refusingDial } {}
      "tcp" "example.test:443" none).conn = none :=
  ⟨((dialContextCheckACL_error_order exampleRuntime exampleHandler {} "udp" "example.test:443"
      none rfl).1 (by decide)).1,
   (((dialContextCheckACL_error_order exampleRuntime exampleHandler {} "tcp" "example.test"
      none rfl).2.1 (by decide)).1 "missing port in address" rfl).1,
   ⟨((((dialContextCheckACL_error_order exampleRuntime exampleHandler {} "tcp"
      "example.test:70000" none rfl).2.1 (by decide)).2 "example.test" "70000" rfl).1
      (by decide)).1,
    ((((dialContextCheckACL_error_order exampleRuntime exampleHandler {} "tcp"
      "example.test:70000" none rfl).2.1 (by decide)).2 "example.test" "70000" rfl).1
      (by decide)).2.1⟩,
   (((((dialContextCheckACL_error_order exampleRuntime exampleHandler {} "tcp"
      "unknown.test:443" none rfl).2.1 (by decide)).2 "unknown.test" "443" rfl).2
      (by decide)).1 "no such host" { tick := 1 } rfl).1,
   ((((((dialContextCheckACL_error_order exampleRuntime exampleHandler {} "tcp"
      "private.test:443" none rfl).2.1 (by decide)).2 "private.test" "443" rfl).2
      (by decide)).2 [[10, 0, 0, 1]] { tick := 1 } rfl).1 (by decide)).1,
   (((((((dialContextCheckACL_error_order exampleRuntime
      { exampleHandler with dialContext := refusingDial } {} "tcp"
      "example.test:443" none rfl).2.1 (by decide)).2 "example.test" "443" rfl).2
      (by decide)).2 [[10, 0, 0, 1], [192, 0, 2, 1], [192, 0, 2, 2]] { tick := 1 } rfl).2
      (by decide)) { tick := 3 } (by decide)).1,
   (dialContextCheckACL_error_order exampleRuntime
      { exampleHandler with dialContext := refusingDial } {} "tcp"
      "example.test:443" none rfl).2.2 (by decide)⟩

/-- C5: with an upstream configured, for a supported network and a `host:port`
that splits, `dialContextCheckACL` makes exactly one external call, the dial of
the unmodified `host:port` through `dialContext`; it returns the connection of
that dial and no error when the dial succeeds, a 502 error carrying the dial
error otherwise; no lookup is made, and the outcome is the same whatever the
allowed ports, the configured ACL and the compiled rule list are. -/
theorem dialContextCheckACL_upstream
    (rt : Runtime) (h : Handler) (w : World) (network hostPort host port : String)
    (bind : Option TCPAddr) (u : URL)
    (hup : h.upstream = some u)
    (hnet : network = "tcp" ∨ network = "tcp4" ∨ network = "tcp6")
    (hsplit : rt.SplitHostPort hostPort = .ok (host, port)) :
    (dialContextCheckACL rt h w network hostPort bind).conn =
      (h.dialContext w network hostPort bind).1.1 ∧
    (dialContextCheckACL rt h w network hostPort bind).err =
      (h.dialContext w network hostPort bind).1.2.map (caddyhttpError 502) ∧
    (dialContextCheckACL rt h w network hostPort bind).world =
      (h.dialContext w network hostPort bind).2 ∧
    (dialContextCheckACL rt h w network hostPort bind).calls = [.dial network hostPort bind] ∧
    (∀ (ports : List Int) (acl : List ACLRule) (rules : List aclRule),
      dialContextCheckACL rt { h with AllowedPorts := ports, ACL := acl, aclRules := rules }
        w network hostPort bind = dialContextCheckACL rt h w network hostPort bind) := by
  have hnet2 : ¬ (network ≠ "tcp" ∧ network ≠ "tcp4" ∧ network ≠ "tcp6") := by
    rcases hnet with e | e | e <;> simp [e]
  have key : ∀ h2 : Handler, h2.upstream = some u → h2.dialContext = h.dialContext →
      dialContextCheckACL rt h2 w network hostPort bind =
        ⟨(h.dialContext w network hostPort bind).1.1,
          (h.dialContext w network hostPort bind).1.2.map (caddyhttpError 502),
          (h.dialContext w network hostPort bind).2, [.dial network hostPort bind]⟩ := by
    intro h2 hup2 hd2
    unfold dialContextCheckACL
    rw [if_neg hnet2, hsplit]
    simp only [hup2, Option.isSome_some, if_true, hd2]
    rcases h.dialContext w network hostPort bind with ⟨⟨c, e⟩, w1⟩
    cases e <;> rfl
  refine ⟨?_, ?_, ?_, ?_, ?_⟩
  · rw [key h hup rfl]
  · rw [key h hup rfl]
  · rw [key h hup rfl]
  · rw [key h hup rfl]
  · intro ports acl rules
    rw [key h hup rfl]
    exact key _ hup rfl

/-- Witness of C5: behind an upstream the port 70000 and the private target are
not checked; the one dial is handed `private.test:443` as it came. -/
theorem dialContextCheckACL_upstream_witness :
    (dialContextCheckACL exampleRuntime exampleUpstreamHandler {} "tcp" "private.test:443"
      none).calls = [.dial "tcp" "private.test:443" none] ∧
    (dialContextCheckACL exampleRuntime exampleUpstreamHandler {} "tcp" "example.test:70000"
      none).err = some (caddyhttpError 502 "connection refused") :=
  ⟨(dialContextCheckACL_upstream exampleRuntime exampleUpstreamHandler {} "tcp"
      "private.test:443" "private.test" "443" none _ rfl (Or.inl rfl) rfl).2.2.2.1,
   (dialContextCheckACL_upstream exampleRuntime exampleUpstreamHandler {} "tcp"
      "example.test:70000" "example.test" "70000" none _ rfl (Or.inl rfl) rfl).2.1⟩

/-! ### `Provision` and the compiled rule list -/

theorem compileSubjects_ok (allow : Bool) (subjects : List String) (acc out : List aclRule)
    (hc : Provision.compileSubjects allow subjects acc = .ok out) :
    ∃ rs, List.Forall₂ (fun subj r => newACLRule subj allow = .ok r) subjects rs ∧
      out = acc ++ rs := by
  induction subjects generalizing acc with
  | nil =>
    refine ⟨[], List.Forall₂.nil, ?_⟩
    simp only [Provision.compileSubjects, Except.ok.injEq] at hc
    simp [hc]
  | cons subj rest ih =>
    cases hn : newACLRule subj allow with
    | error e => simp [Provision.compileSubjects, hn] at hc
    | ok ar =>
      simp only [Provision.compileSubjects, hn] at hc
      obtain ⟨rs, hrs, hout⟩ := ih (acc ++ [ar]) hc
      exact ⟨ar :: rs, List.Forall₂.cons hn hrs, by simp [hout]⟩

theorem compileACL_ok (acl : List ACLRule) (acc out : List aclRule)
    (hc : Provision.compileACL acl acc = .ok out) :
    ∃ rs, List.Forall₂ (fun (p : String × Bool) r => newACLRule p.1 p.2 = .ok r)
        (configuredSubjects acl) rs ∧ out = acc ++ rs := by
  induction acl generalizing acc with
  | nil =>
    refine ⟨[], List.Forall₂.nil, ?_⟩
    simp only [Provision.compileACL, Except.ok.injEq] at hc
    simp [hc]
  | cons rule rest ih =>
    cases hs : Provision.compileSubjects rule.Allow rule.Subjects acc with
    | error e => simp [Provision.compileACL, hs] at hc
    | ok acc1 =>
      simp only [Provision.compileACL, hs] at hc
      obtain ⟨rs1, hrs1, hacc1⟩ := compileSubjects_ok rule.Allow rule.Subjects acc acc1 hs
      obtain ⟨rs2, hrs2, hout⟩ := ih acc1 hc
      refine ⟨rs1 ++ rs2, ?_, by simp [hout, hacc1]⟩
      have h1 : List.Forall₂ (fun (p : String × Bool) r => newACLRule p.1 p.2 = .ok r)
          (rule.Subjects.map (fun subj => (subj, rule.Allow))) rs1 := by
        rw [List.forall₂_map_left_iff]
        exact hrs1
      simpa [configuredSubjects] using List.rel_append h1 hrs2

theorem compileSubjects_hardCoded (acc : List aclRule) :
    Provision.compileSubjects false hardCodedDenies acc =
      .ok (acc ++ hardCodedNets.map (fun n => aclRule.aclIPRule n false)) := by
  have e1 : newACLRule "10.0.0.0/8" false = .ok (.aclIPRule ⟨[10, 0, 0, 0], [255, 0, 0, 0]⟩ false) := rfl
  have e2 : newACLRule "127.0.0.0/8" false = .ok (.aclIPRule ⟨[127, 0, 0, 0], [255, 0, 0, 0]⟩ false) := rfl
  have e3 : newACLRule "172.16.0.0/12" false =
      .ok (.aclIPRule ⟨[172, 16, 0, 0], [255, 240, 0, 0]⟩ false) := rfl
  have e4 : newACLRule "192.168.0.0/16" false =
      .ok (.aclIPRule ⟨[192, 168, 0, 0], [255, 255, 0, 0]⟩ false) := rfl
  have e5 : newACLRule "::1/128" false =
      .ok (.aclIPRule ⟨[0, 0, 0, 0, 0, 0, 0, 0, 0, 0, 0, 0, 0, 0, 0, 1],
        [255, 255, 255, 255, 255, 255, 255, 255, 255, 255, 255, 255, 255, 255, 255, 255]⟩
        false) := rfl
  have e6 : newACLRule "fe80::/10" false =
      .ok (.aclIPRule ⟨[254, 128, 0, 0, 0, 0, 0, 0, 0, 0, 0, 0, 0, 0, 0, 0],
        [255, 192, 0, 0, 0, 0, 0, 0, 0, 0, 0, 0, 0, 0, 0, 0]⟩ false) := rfl
  simp [hardCodedDenies, hardCodedNets, Provision.compileSubjects, e1, e2, e3, e4, e5, e6]

theorem Provision_aclRules (rt : Runtime) (now : Int) (h h1 : Handler)
    (hp : Provision rt now h = .ok h1) :
    ∃ user, List.Forall₂ (fun (p : String × Bool) r => newACLRule p.1 p.2 = .ok r)
        (configuredSubjects h.ACL) user ∧
      h1.aclRules = h.aclRules ++ user ++ hardCodedNets.map (fun n => aclRule.aclIPRule n false) ++
        [aclRule.aclAllRule true] := by
  unfold Provision at hp
  simp only at hp
  cases hc : Provision.compileACL h.ACL h.aclRules with
  | error e => simp [hc] at hp
  | ok rules1 =>
    obtain ⟨user, huser, hrules1⟩ := compileACL_ok h.ACL h.aclRules rules1 hc
    refine ⟨user, huser, ?_⟩
    simp only [hc, compileSubjects_hardCoded] at hp
    split at hp
    · simp at hp
    · split at hp
      · split at hp
        · simp at hp
        · split at hp
          · simp at hp
          · split at hp
            · simp at hp
            · simp only [Except.ok.injEq] at hp
              rw [← hp, hrules1]
      · simp only [Except.ok.injEq] at hp
        rw [← hp, hrules1]

theorem hostIsAllowed_loop_denies (hostname : String) (ip : IP) (nets : List IPNet) :
    hostIsAllowed.loop hostname ip
        (nets.map (fun n => aclRule.aclIPRule n false) ++ [aclRule.aclAllRule true]) =
      !(nets.any (fun n => n.Contains ip)) := by
  induction nets with
  | nil => simp [hostIsAllowed.loop, aclRule.tryMatch, decisionOf]
  | cons n ns ih =>
    cases hc : n.Contains ip with
    | true => simp [hostIsAllowed.loop, aclRule.tryMatch, decisionOf, hc]
    | false =>
      simp only [List.map_cons, List.cons_append, hostIsAllowed.loop, aclRule.tryMatch, hc,
        List.any_cons, Bool.false_or]
      simpa using ih

/-- C3 (amended): after a successful `Provision` of a handler whose compiled
list was empty, the compiled list is one rule per configured subject, in
configuration order and with the flag of its rule, then deny rules for
10.0.0.0/8, 127.0.0.0/8, 172.16.0.0/12, 192.168.0.0/16, ::1/128 and fe80::/10,
then one allow-all rule as the last element. Some rule always decides, so the
NoMatch default of `hostIsAllowed` is not reached; with no user rules an
address is denied exactly when one of these six networks contains it; and a
user rule that allows an address before any other rule matches is honoured. -/
theorem Provision_acl_shape (rt : Runtime) (now : Int) (h h1 : Handler)
    (hfresh : h.aclRules = []) (hp : Provision rt now h = .ok h1) :
    ∃ user : List aclRule,
      List.Forall₂ (fun (p : String × Bool) r => newACLRule p.1 p.2 = .ok r)
        (configuredSubjects h.ACL) user ∧
      h1.aclRules = user ++ hardCodedNets.map (fun n => aclRule.aclIPRule n false) ++
        [aclRule.aclAllRule true] ∧
      (∀ (host : String) (ip : IP),
        ∃ r ∈ h1.aclRules, r.tryMatch ip host ≠ .aclDecisionNoMatch) ∧
      (h.ACL = [] → ∀ (host : String) (ip : IP),
        hostIsAllowed h1 host ip = !(hardCodedNets.any (fun n => n.Contains ip))) ∧
      (∀ (host : String) (ip : IP) (pre : List aclRule) (r : aclRule) (post : List aclRule),
        user = pre ++ r :: post →
        (∀ q ∈ pre, q.tryMatch ip host = .aclDecisionNoMatch) →
        r.tryMatch ip host = .aclDecisionAllow →
        hostIsAllowed h1 host ip = true) := by
  obtain ⟨user, huser, hrules⟩ := Provision_aclRules rt now h h1 hp
  rw [hfresh, List.nil_append] at hrules
  refine ⟨user, huser, hrules, ?_, ?_, ?_⟩
  · intro host ip
    refine ⟨.aclAllRule true, ?_, ?_⟩
    · rw [hrules]
      simp
    · simp [aclRule.tryMatch, decisionOf]
  · intro hacl host ip
    have hnil : user = [] := by
      rw [hacl] at huser
      cases huser
      rfl
    unfold hostIsAllowed
    rw [hrules, hnil, List.nil_append]
    exact hostIsAllowed_loop_denies host ip hardCodedNets
  · intro host ip pre r post hsplit hpre hr
    unfold hostIsAllowed
    rw [hrules, hsplit, List.append_assoc, List.append_assoc,
      hostIsAllowed_loop_append host ip pre _ hpre]
    simp [hostIsAllowed.loop, hr]

/-- Counterexample to C3 as stated: the default configuration is provisioned
to exactly seven rules, none of which is for 169.254.0.0/16, and the address
169.254.169.254 of that network is allowed. -/
theorem Provision_link_local_allowed :
    (provisioned exampleRuntime 0 {}).aclRules =
      [.aclIPRule ⟨[10, 0, 0, 0], [255, 0, 0, 0]⟩ false,
       .aclIPRule ⟨[127, 0, 0, 0], [255, 0, 0, 0]⟩ false,
       .aclIPRule ⟨[172, 16, 0, 0], [255, 240, 0, 0]⟩ false,
       .aclIPRule ⟨[192, 168, 0, 0], [255, 255, 0, 0]⟩ false,
       .aclIPRule ⟨[0, 0, 0, 0, 0, 0, 0, 0, 0, 0, 0, 0, 0, 0, 0, 1],
         [255, 255, 255, 255, 255, 255, 255, 255, 255, 255, 255, 255, 255, 255, 255, 255]⟩ false,
       .aclIPRule ⟨[254, 128, 0, 0, 0, 0, 0, 0, 0, 0, 0, 0, 0, 0, 0, 0],
         [255, 192, 0, 0, 0, 0, 0, 0, 0, 0, 0, 0, 0, 0, 0, 0]⟩ false,
       .aclAllRule true] ∧
    ParseCIDR "169.254.0.0/16" = some ⟨[169, 254, 0, 0], [255, 255, 0, 0]⟩ ∧
    IPNet.Contains ⟨[169, 254, 0, 0], [255, 255, 0, 0]⟩ [169, 254, 169, 254] = true ∧
    hostIsAllowed (provisioned exampleRuntime 0 {}) "169.254.169.254" [169, 254, 169, 254] =
      true := by
  refine ⟨by decide, by decide, by decide, by decide⟩

/-- Witness of C3 (amended): with the default configuration `10.0.0.1` is
denied and `203.0.113.5` allowed; with a user rule allowing `10.1.0.0/16` the
address `10.1.2.3` is allowed although `10.0.0.0/8` is denied after it. -/
theorem Provision_acl_shape_witness :
    hostIsAllowed (provisioned exampleRuntime 0 {}) "10.0.0.1" [10, 0, 0, 1] = false ∧
    hostIsAllowed (provisioned exampleRuntime 0 {}) "example.test" [203, 0, 113, 5] = true ∧
    hostIsAllowed (provisioned exampleRuntime 0 allowingHandler) "10.1.2.3" [10, 1, 2, 3] =
      true := by
  obtain ⟨_, _, _, _, hdef, _⟩ :=
    Provision_acl_shape exampleRuntime 0 {} (provisioned exampleRuntime 0 {}) rfl rfl
  obtain ⟨user, hu, _, _, _, hallow⟩ :=
    Provision_acl_shape exampleRuntime 0 allowingHandler
      (provisioned exampleRuntime 0 allowingHandler) rfl rfl
  refine ⟨?_, ?_, ?_⟩
  · rw [hdef rfl]
    decide
  · rw [hdef rfl]
    decide
  · have hu2 : List.Forall₂ (fun (p : String × Bool) r => newACLRule p.1 p.2 = .ok r)
        [("10.1.0.0/16", true)] user := hu
    obtain ⟨r, rest, h1, h2, huser⟩ := List.forall₂_cons_left_iff.mp hu2
    have hrest : rest = [] := List.forall₂_nil_left_iff.mp h2
    have hr : r = .aclIPRule ⟨[10, 1, 0, 0], [255, 255, 0, 0]⟩ true := by
      have e : newACLRule "10.1.0.0/16" true =
          .ok (.aclIPRule ⟨[10, 1, 0, 0], [255, 255, 0, 0]⟩ true) := rfl
      rw [e] at h1
      injection h1 with h1
      exact h1.symm
    rw [hrest] at huser
    exact hallow "10.1.2.3" [10, 1, 2, 3] [] r [] huser (by simp) (by rw [hr]; decide)

/-! ### The dispatch of `ServeHTTP` -/

theorem Header_lookup_Set (rt : Runtime) (hd : Header) (key value : String) :
    (Header.Set rt hd key value).lookup (rt.CanonicalMIMEHeaderKey key) = some [value] := by
  unfold Header.Set Header.Del
  induction hd with
  | nil => simp [List.lookup]
  | cons kv rest ih =>
    by_cases hk : kv.1 = rt.CanonicalMIMEHeaderKey key
    · simpa [List.filter, hk] using ih
    · have hk2 : (rt.CanonicalMIMEHeaderKey key == kv.1) = false := by
        simpa using fun e => hk e.symm
      obtain ⟨k, v⟩ := kv
      simp only [List.filter, hk, ne_eq, not_false_eq_true, decide_True, List.cons_append,
        List.lookup]
      simp only at hk2
      rw [hk2]
      simpa [List.filter] using ih

theorem Header_Get_Set (rt : Runtime) (hd : Header) (key value : String) :
    Header.Get rt (Header.Set rt hd key value) key = value := by
  unfold Header.Get Header.values
  rw [Header_lookup_Set]
  rfl

theorem checkCredentials_absent (rt : Runtime) (h : Handler) (r : Request)
    (habs : Header.Get rt r.Header "Proxy-Authorization" = "") :
    checkCredentials rt h r =
      .ret ⟨some "Proxy-Authorization is required! Expected format: <type> <credentials>",
        none⟩ := by
  unfold checkCredentials
  rw [habs]
  rfl

theorem length_pos_iff_ne_empty (s : String) : 0 < s.length ↔ s ≠ "" := by
  cases s with
  | mk d => cases d <;> simp [String.length, String.ext_iff]

theorem isSecretDomain_false_iff (h : Handler) (reqHost : String) :
    ServeHTTP.isSecretDomain h reqHost = false ↔
      ∀ pr, h.ProbeResistance = some pr → ¬ (pr.Domain ≠ "" ∧ reqHost = pr.Domain) := by
  unfold ServeHTTP.isSecretDomain
  cases hp : h.ProbeResistance with
  | none => simp
  | some pr =>
    simp only [Option.some.injEq, forall_eq', decide_eq_false_iff_not, length_pos_iff_ne_empty]

theorem shouldServePACFile_iff (h : Handler) (r : Request) :
    shouldServePACFile h r = true ↔ (h.PACPath ≠ "" ∧ r.URL.Path = h.PACPath) := by
  unfold shouldServePACFile
  simp only [decide_eq_true_eq, length_pos_iff_ne_empty]

/-- Counterexample to C7 as stated: authentication required, no probe
resistance, no credentials, but the request is a GET for the proxy's own host:
it is handed to the next handler, whose 404 is the answer, without any
`Proxy-Authenticate` header. -/
theorem ServeHTTP_own_host_without_credentials_passed_on :
    authHandler.AuthRequired = true ∧ authHandler.ProbeResistance = none ∧
    (checkCredentials exampleRuntime authHandler ownHostRequest).get? =
      some ⟨some "Proxy-Authorization is required! Expected format: <type> <credentials>",
        none⟩ ∧
    (ServeHTTP exampleRuntime authHandler {} {} ownHostRequest exampleNext).get?.map
        (fun res => (res.calls, res.err, res.w.status,
          Header.Get exampleRuntime res.w.header "Proxy-Authenticate")) =
      some ([.next], none, some 404, "") := by
  refine ⟨by decide, by decide, by decide, by decide⟩

/-- C7 (amended): for a handler with `auth_required` and without probe
resistance, a request whose Host does not match the configured hosts and for
which `checkCredentials` returns an error is answered with the error status 407
and the header `Proxy-Authenticate: Basic realm="Caddy Secure Web Proxy"`; the
handler writes nothing else, dials no target and does not call the next
handler. -/
theorem ServeHTTP_auth_required_407 (rt : Runtime) (h : Handler) (world : World)
    (w : ResponseWriter) (r : Request) (next : NextFn) (authErr : String)
    (uid : Option String)
    (hauth : h.AuthRequired = true) (hpr : h.ProbeResistance = none)
    (hcred : checkCredentials rt h r = .ret ⟨some authErr, uid⟩)
    (hhost : rt.MatchHost h.Hosts r = false) :
    ∃ res, ServeHTTP rt h world w r next = .ret res ∧
      res.err = some (caddyhttpError 407 authErr) ∧
      Header.Get rt res.w.header "Proxy-Authenticate" = basicRealm ∧
      res.w.status = w.status ∧ res.w.body = w.body ∧
      res.calls = [] ∧ res.world = world := by
  refine ⟨{ w := { w with header := Header.Set rt w.header "Proxy-Authenticate" basicRealm },
            err := some (caddyhttpError 407 authErr), world := world, userID := uid },
    ?_, rfl, Header_Get_Set rt w.header "Proxy-Authenticate" basicRealm, rfl, rfl, rfl, rfl⟩
  unfold ServeHTTP
  simp [ServeHTTP.auth, hauth, hcred, ServeHTTP.isSecretDomain, hpr, hhost]

/-- Witness of C7 (amended): a CONNECT to `example.test:443` without
credentials gets 407 and dials nothing. -/
theorem ServeHTTP_auth_required_407_witness :
    ∃ res, ServeHTTP exampleRuntime authHandler {} {} connectRequest exampleNext = .ret res ∧
      res.err = some (caddyhttpError 407
        "Proxy-Authorization is required! Expected format: <type> <credentials>") ∧
      Header.Get exampleRuntime res.w.header "Proxy-Authenticate" = basicRealm ∧
      res.w.status = none ∧ res.w.body = "" ∧ res.calls = [] ∧ res.world = {} :=
  ServeHTTP_auth_required_407 exampleRuntime authHandler {} {} connectRequest exampleNext
    "Proxy-Authorization is required! Expected format: <type> <credentials>" none
    rfl rfl (checkCredentials_absent exampleRuntime authHandler connectRequest rfl) rfl

theorem loop_calls_no_next (rt : Runtime) (h : Handler) (network host port : String)
    (bind : Option TCPAddr) (l : List IP) (err : Option String) (w : World) :
    Call.next ∉ (dialContextCheckACL.loop rt h network host port bind l err w).calls := by
  induction l generalizing err w with
  | nil => cases err <;> simp [dialContextCheckACL.loop]
  | cons x xs ih =>
    by_cases ha : hostIsAllowed h host x = true
    · rcases hd : h.dialContext w network (dialAddress rt port x) bind with ⟨⟨c1, e⟩, w1⟩
      cases e with
      | none => simp [dialContextCheckACL.loop, ha, hd]
      | some e =>
        simp only [dialContextCheckACL.loop, ha, Bool.not_true, Bool.false_eq_true, if_false, hd,
          DialOutcome.after, List.mem_cons, not_or]
        exact ⟨by simp, ih (some e) w1⟩
    · have ha2 : hostIsAllowed h host x = false := by simpa using ha
      simp only [dialContextCheckACL.loop, ha2, Bool.not_false, if_true]
      exact ih err w

theorem dialContextCheckACL_calls_no_next (rt : Runtime) (h : Handler) (w : World)
    (network hostPort : String) (bind : Option TCPAddr) :
    Call.next ∉ (dialContextCheckACL rt h w network hostPort bind).calls := by
  unfold dialContextCheckACL
  repeat' split
  all_goals first
    | simp
    | (simp only [DialOutcome.after, List.mem_cons, not_or]
       exact ⟨by simp, loop_calls_no_next _ _ _ _ _ _ _ _ _⟩)

theorem connect_calls_no_next (rt : Runtime) (h : Handler) (world : World) (w : ResponseWriter)
    (r : Request) (bind : Option TCPAddr) (res : ServeResult)
    (hres : ServeHTTP.connect rt h world w r bind = .ret res) : Call.next ∉ res.calls := by
  unfold ServeHTTP.connect at hres
  simp only at hres
  repeat' split at hres
  all_goals first
    | (cases hres; done)
    | (cases hres; simp; done)
    | (cases hres; exact dialContextCheckACL_calls_no_next _ _ _ _ _ _)
    | (cases hres
       simp only [List.mem_append, List.mem_singleton, not_or]
       exact ⟨dialContextCheckACL_calls_no_next _ _ _ _ _ _, by simp⟩)

theorem exchange_calls (rt : Runtime) (world : World) (w : ResponseWriter) (r : Request)
    (conn : Conn) (calls : List Call) (writeMsg readMsg : String) (err : Option String) :
    (ServeHTTP.exchange rt world w r conn calls writeMsg readMsg err).calls =
      calls ++ [.exchange conn] := by
  unfold ServeHTTP.exchange
  repeat' split
  all_goals rfl

theorem roundTrip_calls_no_next (rt : Runtime) (h : Handler) (world : World)
    (w : ResponseWriter) (r : Request) (bind : Option TCPAddr) (res : ServeResult)
    (hres : ServeHTTP.roundTrip rt h world w r bind = .ret res) : Call.next ∉ res.calls := by
  unfold ServeHTTP.roundTrip at hres
  simp only at hres
  split at hres
  · cases hres; simp
  · split at hres
    · cases hres
      exact dialContextCheckACL_calls_no_next _ _ _ _ _ _
    · split at hres
      · cases hres
      · cases hres
        rw [exchange_calls]
        simp only [List.mem_append, List.mem_singleton, not_or]
        exact ⟨dialContextCheckACL_calls_no_next _ _ _ _ _ _, by simp⟩

theorem viaUpstream_calls_no_next (rt : Runtime) (h : Handler) (world : World)
    (w : ResponseWriter) (r : Request) (bind : Option TCPAddr) (u : URL) (err : Option String)
    (res : ServeResult)
    (hres : ServeHTTP.viaUpstream rt h world w r bind u err = .ret res) :
    Call.next ∉ res.calls := by
  unfold ServeHTTP.viaUpstream at hres
  simp only at hres
  split at hres
  · cases hres; simp
  · cases hres
  · cases hres
    rw [exchange_calls]
    simp

theorem forward_calls_no_next (rt : Runtime) (h : Handler) (world : World) (w : ResponseWriter)
    (r : Request) (bind : Option TCPAddr) (err : Option String) (res : ServeResult)
    (hres : ServeHTTP.forward rt h world w r bind err = .ret res) : Call.next ∉ res.calls := by
  unfold ServeHTTP.forward at hres
  split at hres
  · exact roundTrip_calls_no_next rt h world w _ bind res hres
  · exact viaUpstream_calls_no_next rt h world w _ bind _ err res hres

theorem proxy_calls_no_next (rt : Runtime) (h : Handler) (world : World) (w : ResponseWriter)
    (r : Request) (res : ServeResult)
    (hres : ServeHTTP.proxy rt h world w r = .ret res) : Call.next ∉ res.calls := by
  unfold ServeHTTP.proxy at hres
  split at hres
  · cases hres; simp
  · by_cases hm : r.Method = "CONNECT"
    · simp only [hm, if_true] at hres
      cases hc : ServeHTTP.connect rt h world w r (ServeHTTP.clientBind rt r) with
      | panic m => simp [hc] at hres
      | ret res1 =>
        simp only [hc, Go.ret.injEq] at hres
        rw [← hres]
        exact connect_calls_no_next rt h world w r _ res1 hc
    · simp only [hm, if_false] at hres
      cases hc : ServeHTTP.forward rt h world w r (ServeHTTP.clientBind rt r)
          (ServeHTTP.err rt r) with
      | panic m => simp [hc] at hres
      | ret res1 =>
        simp only [hc, Go.ret.injEq] at hres
        rw [← hres]
        exact forward_calls_no_next rt h world w r _ _ res1 hc

set_option maxRecDepth 100000 in
/-- Counterexample to C8 as stated: probe resistance configured, no
credentials, host not the secret domain, but the request is for the PAC path of
the proxy's own host: the handler itself writes status 200 and the PAC file,
and the next handler is not called. -/
theorem ServeHTTP_probe_resistance_serves_pac :
    probeHandler.AuthRequired = true ∧
    probeHandler.ProbeResistance = some { Domain := "secret.test" } ∧
    ServeHTTP.reqHost exampleRuntime pacRequest = "proxy.test" ∧
    (checkCredentials exampleRuntime probeHandler pacRequest).get? =
      some ⟨some "Proxy-Authorization is required! Expected format: <type> <credentials>",
        none⟩ ∧
    (ServeHTTP exampleRuntime probeHandler {} {} pacRequest exampleNext).get?.map
        (fun res => (res.calls, res.err, res.w.status, res.w.body)) =
      some ([], none, some 200, pacFile "proxy.test") := by
  refine ⟨by decide, by decide, by decide, by decide, by decide⟩

/-- C8 (amended): for a handler with `auth_required` and probe resistance, a
request for which `checkCredentials` returns an error and whose host is not the
secret domain is answered by the next handler, called once on the untouched
response writer and request, whose result is returned: the handler writes no
status, no body and no `Proxy-Authenticate` header and dials no target. The one
exception is a request whose Host matches the configured hosts and whose path
is the non-empty `pac_path`: it is served the PAC file, again without a dial. -/
theorem ServeHTTP_probe_resistance_pass_through (rt : Runtime) (h : Handler) (world : World)
    (w : ResponseWriter) (r : Request) (next : NextFn) (pr : ProbeResistance)
    (authErr : String) (uid : Option String)
    (hauth : h.AuthRequired = true) (hpr : h.ProbeResistance = some pr)
    (hcred : checkCredentials rt h r = .ret ⟨some authErr, uid⟩)
    (hsecret : ¬ (pr.Domain ≠ "" ∧ ServeHTTP.reqHost rt r = pr.Domain)) :
    (¬ (rt.MatchHost h.Hosts r = true ∧ h.PACPath ≠ "" ∧ r.URL.Path = h.PACPath) →
      ∃ res, ServeHTTP rt h world w r next = .ret res ∧
        res.w = (next world w r).1 ∧ res.err = (next world w r).2.1 ∧
        res.world = (next world w r).2.2 ∧ res.calls = [.next]) ∧
    ((rt.MatchHost h.Hosts r = true ∧ h.PACPath ≠ "" ∧ r.URL.Path = h.PACPath) →
      ∃ res, ServeHTTP rt h world w r next = .ret res ∧
        res.w = w.Write (pacFile r.Host) ∧ res.err = none ∧
        res.world = world ∧ res.calls = []) := by
  have hsec : ServeHTTP.isSecretDomain h (ServeHTTP.reqHost rt r) = false := by
    rw [isSecretDomain_false_iff]
    intro pr2 hpr2
    rw [hpr] at hpr2
    cases hpr2
    exact hsecret
  have hauth2 : ServeHTTP.auth rt h r = .ret ⟨some authErr, uid⟩ := by
    simp [ServeHTTP.auth, hauth, hcred]
  refine ⟨?_, ?_⟩
  · intro hnot
    refine ⟨{ w := (next world w r).1, err := (next world w r).2.1,
              world := (next world w r).2.2, calls := [.next], userID := uid },
      ?_, rfl, rfl, rfl, rfl⟩
    unfold ServeHTTP
    simp only [hauth2, hsec, Bool.false_eq_true, if_false]
    by_cases hm : rt.MatchHost h.Hosts r = true
    · have hpac : shouldServePACFile h r = false := by
        cases hs : shouldServePACFile h r with
        | false => rfl
        | true => exact absurd ⟨hm, (shouldServePACFile_iff h r).mp hs⟩ hnot
      simp [hm, hpac]
    · simp [hm, hpr]
  · rintro ⟨hm, hpac⟩
    have hpac2 : shouldServePACFile h r = true := (shouldServePACFile_iff h r).mpr hpac
    refine ⟨{ w := w.Write (pacFile r.Host), err := none, world := world, userID := uid },
      ?_, rfl, rfl, rfl, rfl⟩
    unfold ServeHTTP
    simp [hauth2, hsec, hm, hpac2, servePacFile]

/-- Witness of C8 (amended): with probe resistance on `secret.test`, a CONNECT
without credentials is answered by the next handler (404 here), and the PAC
request of the counterexample is served the PAC file. -/
theorem ServeHTTP_probe_resistance_pass_through_witness :
    (∃ res, ServeHTTP exampleRuntime probeHandler {} {} connectRequest exampleNext = .ret res ∧
      res.w = (exampleNext {} {} connectRequest).1 ∧
      res.err = (exampleNext {} {} connectRequest).2.1 ∧
      res.world = (exampleNext {} {} connectRequest).2.2 ∧ res.calls = [.next]) ∧
    (∃ res, ServeHTTP exampleRuntime probeHandler {} {} pacRequest exampleNext = .ret res ∧
      res.w = ({} : ResponseWriter).Write (pacFile "proxy.test") ∧ res.err = none ∧
      res.world = {} ∧ res.calls = []) :=
  ⟨(ServeHTTP_probe_resistance_pass_through exampleRuntime probeHandler {} {} connectRequest
      exampleNext { Domain := "secret.test" }
      "Proxy-Authorization is required! Expected format: <type> <credentials>" none
      rfl rfl (checkCredentials_absent exampleRuntime probeHandler connectRequest rfl)
      (by decide)).1 (by decide),
   (ServeHTTP_probe_resistance_pass_through exampleRuntime probeHandler {} {} pacRequest
      exampleNext { Domain := "secret.test" }
      "Proxy-Authorization is required! Expected format: <type> <credentials>" none
      rfl rfl (checkCredentials_absent exampleRuntime probeHandler pacRequest rfl)
      (by decide)).2 (by decide)⟩

/-- C9: for a request whose host is not the probe-resistance secret domain and
whose Host matches the configured hosts: if the method is not CONNECT or the
authentication failed, `ServeHTTP` does not proxy; it serves the PAC file when
`pac_path` is non-empty and equals the request path, and otherwise hands the
request to the next handler and returns its result. A CONNECT request without
authentication error is not routed there: its result is that of the proxying
part of `ServeHTTP`, which never calls the next handler. -/
theorem ServeHTTP_own_host_branch (rt : Runtime) (h : Handler) (world : World)
    (w : ResponseWriter) (r : Request) (next : NextFn) (a : AuthOutcome)
    (hauth : ServeHTTP.auth rt h r = .ret a)
    (hsecret : ∀ pr, h.ProbeResistance = some pr →
      ¬ (pr.Domain ≠ "" ∧ ServeHTTP.reqHost rt r = pr.Domain))
    (hhost : rt.MatchHost h.Hosts r = true) :
    ((r.Method ≠ "CONNECT" ∨ a.err ≠ none) →
      ((h.PACPath ≠ "" ∧ r.URL.Path = h.PACPath) →
        ∃ res, ServeHTTP rt h world w r next = .ret res ∧
          res.w = w.Write (pacFile r.Host) ∧ res.err = none ∧
          res.world = world ∧ res.calls = []) ∧
      (¬ (h.PACPath ≠ "" ∧ r.URL.Path = h.PACPath) →
        ∃ res, ServeHTTP rt h world w r next = .ret res ∧
          res.w = (next world w r).1 ∧ res.err = (next world w r).2.1 ∧
          res.world = (next world w r).2.2 ∧ res.calls = [.next])) ∧
    ((r.Method = "CONNECT" ∧ a.err = none) →
      ServeHTTP rt h world w r next =
        (match ServeHTTP.proxy rt h world w r with
         | .panic m => .panic m
         | .ret res => .ret { res with userID := a.userID }) ∧
      ∀ res, ServeHTTP rt h world w r next = .ret res → Call.next ∉ res.calls) := by
  have hsec : ServeHTTP.isSecretDomain h (ServeHTTP.reqHost rt r) = false :=
    (isSecretDomain_false_iff h _).mpr hsecret
  refine ⟨?_, ?_⟩
  · intro hcond
    refine ⟨?_, ?_⟩
    · intro hpac
      have hpac2 : shouldServePACFile h r = true := (shouldServePACFile_iff h r).mpr hpac
      refine ⟨{ w := w.Write (pacFile r.Host), err := none, world := world,
                userID := a.userID }, ?_, rfl, rfl, rfl, rfl⟩
      unfold ServeHTTP
      simp only [hauth, hsec, Bool.false_eq_true, if_false, hhost, true_and, ne_eq]
      rw [if_pos hcond]
      simp [hpac2, servePacFile]
    · intro hpac
      have hpac2 : shouldServePACFile h r = false := by
        cases hs : shouldServePACFile h r with
        | false => rfl
        | true => exact absurd ((shouldServePACFile_iff h r).mp hs) hpac
      refine ⟨{ w := (next world w r).1, err := (next world w r).2.1,
                world := (next world w r).2.2, calls := [.next], userID := a.userID },
        ?_, rfl, rfl, rfl, rfl⟩
      unfold ServeHTTP
      simp only [hauth, hsec, Bool.false_eq_true, if_false, hhost, true_and, ne_eq]
      rw [if_pos hcond]
      simp [hpac2]
  · rintro ⟨hm, herr⟩
    have hcond : ¬ (r.Method ≠ "CONNECT" ∨ a.err ≠ none) := by
      simp [hm, herr]
    have heq : ServeHTTP rt h world w r next =
        (match ServeHTTP.proxy rt h world w r with
         | .panic m => .panic m
         | .ret res => .ret { res with userID := a.userID }) := by
      unfold ServeHTTP
      simp only [hauth, hsec, Bool.false_eq_true, if_false, hhost, true_and, ne_eq]
      rw [if_neg hcond]
      simp only [herr]
    refine ⟨heq, ?_⟩
    intro res hres
    rw [heq] at hres
    cases hp : ServeHTTP.proxy rt h world w r with
    | panic m => simp [hp] at hres
    | ret res1 =>
      simp only [hp, Go.ret.injEq] at hres
      rw [← hres]
      exact proxy_calls_no_next rt h world w r res1 hp

/-- Witness of C9: with the handler reachable as `proxy.test`, the GET for `/`
goes to the next handler and the GET for `/proxy.pac` gets the PAC file, both
without credentials; the CONNECT with credentials that names `proxy.test` as
its Host is proxied: the target is resolved and dialed and the tunnel runs. -/
theorem ServeHTTP_own_host_branch_witness :
    (∃ res, ServeHTTP exampleRuntime probeHandler {} {} ownHostRequest exampleNext = .ret res ∧
      res.w = (exampleNext {} {} ownHostRequest).1 ∧
      res.err = (exampleNext {} {} ownHostRequest).2.1 ∧
      res.world = (exampleNext {} {} ownHostRequest).2.2 ∧ res.calls = [.next]) ∧
    (∃ res, ServeHTTP exampleRuntime probeHandler {} {} pacRequest exampleNext = .ret res ∧
      res.w = ({} : ResponseWriter).Write (pacFile "proxy.test") ∧ res.err = none ∧
      res.world = {} ∧ res.calls = []) ∧
    (ServeHTTP exampleRuntime probeHandler {} {} authedConnectRequest exampleNext).get?.map
        (fun res => res.calls) =
      some [.lookupIP "example.test", .dial "tcp" "192.0.2.1:443" none,
        .dial "tcp" "192.0.2.2:443" none, .tunnel 7] :=
  ⟨((ServeHTTP_own_host_branch exampleRuntime probeHandler {} {} ownHostRequest exampleNext
      ⟨some "Proxy-Authorization is required! Expected format: <type> <credentials>", none⟩
      rfl (by decide) rfl).1 (Or.inl (by decide))).2 (by decide),
   ((ServeHTTP_own_host_branch exampleRuntime probeHandler {} {} pacRequest exampleNext
      ⟨some "Proxy-Authorization is required! Expected format: <type> <credentials>", none⟩
      rfl (by decide) rfl).1 (Or.inl (by decide))).1 (by decide),
   by
    rw [((ServeHTTP_own_host_branch exampleRuntime probeHandler {} {} authedConnectRequest
      exampleNext ⟨none, some "user"⟩ rfl (by decide) rfl).2 ⟨rfl, rfl⟩).1]
    decide⟩

/-- C10: when the request host (the Host header without its port) equals the
non-empty probe-resistance domain, `ServeHTTP` renders the hidden page,
whatever the method, the hosts and the HTTP version are: with an
authentication error the status is 407, the header sent carries
`Proxy-Authenticate: Basic realm="Caddy Secure Web Proxy"` and the body is the
hidden page with the failure message; without one the status is 200 and the
body is the hidden page with the success message. No target is dialed and the
next handler is not called. The response writer is one on which no status has
been written yet. -/
theorem ServeHTTP_hidden_page (rt : Runtime) (h : Handler) (world : World)
    (w : ResponseWriter) (r : Request) (next : NextFn) (pr : ProbeResistance)
    (a : AuthOutcome)
    (hpr : h.ProbeResistance = some pr) (hdom : pr.Domain ≠ "")
    (hhost : ServeHTTP.reqHost rt r = pr.Domain)
    (hauth : ServeHTTP.auth rt h r = .ret a)
    (hfresh : w.status = none) :
    ∃ res, ServeHTTP rt h world w r next = .ret res ∧
      res.calls = [] ∧ res.world = world ∧
      (∀ e, a.err = some e →
        res.w.status = some 407 ∧
        Header.Get rt res.w.sent "Proxy-Authenticate" = basicRealm ∧
        res.w.body = w.body ++ hiddenPage AuthFail ∧
        res.err = some (.plain e)) ∧
      (a.err = none →
        res.w.status = some 200 ∧
        res.w.body = w.body ++ hiddenPage AuthOk ∧
        res.w.sent = Header.Set rt w.header "Content-Type" "text/html" ∧
        res.err = none) := by
  have hsec : ServeHTTP.isSecretDomain h (ServeHTTP.reqHost rt r) = true := by
    unfold ServeHTTP.isSecretDomain
    rw [hpr]
    simp only [decide_eq_true_eq, length_pos_iff_ne_empty]
    exact ⟨hdom, hhost⟩
  refine ⟨{ w := (serveHiddenPage rt w a.err).1, err := (serveHiddenPage rt w a.err).2,
            world := world, userID := a.userID }, ?_, rfl, rfl, ?_, ?_⟩
  · unfold ServeHTTP
    simp only [hauth, hsec, if_true]
  · intro e he
    simp [he, serveHiddenPage, ResponseWriter.Write, ResponseWriter.WriteHeader, hfresh,
      Header_Get_Set]
  · intro he
    simp [he, serveHiddenPage, ResponseWriter.Write, ResponseWriter.WriteHeader, hfresh]
/-- Witness of C10: the secret domain asked with wrong credentials gives 407
and the failure page, asked with `user:pass` it gives 200 and the success
page. -/
theorem ServeHTTP_hidden_page_witness :
    (∃ res, ServeHTTP exampleRuntime probeHandler {} {} secretRequest exampleNext = .ret res ∧
      res.calls = [] ∧ res.w.status = some 407 ∧
      Header.Get exampleRuntime res.w.sent "Proxy-Authenticate" = basicRealm ∧
      res.w.body = hiddenPage AuthFail) ∧
    (∃ res, ServeHTTP exampleRuntime probeHandler {} {} authedSecretRequest exampleNext =
        .ret res ∧
      res.calls = [] ∧ res.w.status = some 200 ∧ res.w.body = hiddenPage AuthOk) := by
  obtain ⟨res1, h1, hc1, _, hf1, _⟩ :=
    ServeHTTP_hidden_page exampleRuntime probeHandler {} {} secretRequest exampleNext
      { Domain := "secret.test" } ⟨some "Invalid credentials", none⟩
      rfl (by decide) rfl rfl rfl
  obtain ⟨res2, h2, hc2, _, _, hs2⟩ :=
    ServeHTTP_hidden_page exampleRuntime probeHandler {} {} authedSecretRequest exampleNext
      { Domain := "secret.test" } ⟨none, some "user"⟩
      rfl (by decide) rfl rfl rfl
  refine ⟨⟨res1, h1, hc1, (hf1 _ rfl).1, (hf1 _ rfl).2.1, ?_⟩,
    ⟨res2, h2, hc2, (hs2 rfl).1, ?_⟩⟩
  · have := (hf1 _ rfl).2.2.1
    simpa using this
  · have := (hs2 rfl).2.1
    simpa using this

/-! ### `checkCredentials` -/

theorem splitOnChar_ne_nil (sep : Char) (l : List Char) : splitOnChar sep l ≠ [] := by
  cases l with
  | nil => simp [splitOnChar]
  | cons c cs =>
    unfold splitOnChar
    split
    · simp
    · split <;> simp

theorem splitOnChar_cons_ne (sep c : Char) (cs : List Char) (hc : c ≠ sep) :
    ∃ g gs, splitOnChar sep cs = g :: gs ∧ splitOnChar sep (c :: cs) = (c :: g) :: gs := by
  cases hs : splitOnChar sep cs with
  | nil => exact absurd hs (splitOnChar_ne_nil sep cs)
  | cons g gs =>
    refine ⟨g, gs, rfl, ?_⟩
    simp [splitOnChar, hc, hs]

theorem splitOnChar_eq_singleton (sep : Char) (l x : List Char) :
    splitOnChar sep l = [x] ↔ l = x ∧ sep ∉ x := by
  induction l generalizing x with
  | nil =>
    constructor
    · intro h
      simp only [splitOnChar, List.cons.injEq, and_true] at h
      subst h
      simp
    · rintro ⟨h, _⟩
      subst h
      rfl
  | cons c cs ih =>
    by_cases hc : c = sep
    · subst hc
      constructor
      · intro h
        simp only [splitOnChar, if_true, List.cons.injEq] at h
        exact absurd h.2 (splitOnChar_ne_nil c cs)
      · rintro ⟨h, hx⟩
        subst h
        simp at hx
    · obtain ⟨g, gs, hs, hcs⟩ := splitOnChar_cons_ne sep c cs hc
      rw [hcs]
      constructor
      · intro h
        simp only [List.cons.injEq] at h
        obtain ⟨hx, hgs⟩ := h
        subst hgs
        obtain ⟨h1, h2⟩ := (ih g).mp hs
        subst hx
        subst h1
        refine ⟨rfl, ?_⟩
        simp only [List.mem_cons, not_or]
        exact ⟨fun e => hc e.symm, h2⟩
      · rintro ⟨h, hx⟩
        subst h
        simp only [List.mem_cons, not_or] at hx
        have := (ih cs).mpr ⟨rfl, hx.2⟩
        rw [hs] at this
        simp only [List.cons.injEq] at this
        simp [this.1, this.2]

theorem splitOnChar_eq_pair (sep : Char) (l a b : List Char) :
    splitOnChar sep l = [a, b] ↔ l = a ++ sep :: b ∧ sep ∉ a ∧ sep ∉ b := by
  induction l generalizing a with
  | nil =>
    constructor
    · intro h
      simp [splitOnChar] at h
    · rintro ⟨h, _, _⟩
      simp at h
  | cons c cs ih =>
    by_cases hc : c = sep
    · subst hc
      constructor
      · intro h
        simp only [splitOnChar, if_true, List.cons.injEq] at h
        obtain ⟨ha, hb⟩ := h
        obtain ⟨h1, h2⟩ := (splitOnChar_eq_singleton c cs b).mp hb
        subst ha
        subst h1
        simp [h2]
      · rintro ⟨h, ha, hb⟩
        cases a with
        | nil =>
          simp only [List.nil_append, List.cons.injEq, true_and] at h
          subst h
          simp only [splitOnChar, if_true, List.cons.injEq, true_and]
          exact (splitOnChar_eq_singleton c cs cs).mpr ⟨rfl, hb⟩
        | cons x xs =>
          simp only [List.cons_append, List.cons.injEq] at h
          simp only [List.mem_cons, not_or] at ha
          exact absurd h.1 ha.1
    · obtain ⟨g, gs, hs, hcs⟩ := splitOnChar_cons_ne sep c cs hc
      rw [hcs]
      constructor
      · intro h
        simp only [List.cons.injEq] at h
        obtain ⟨ha, hgs⟩ := h
        subst hgs
        obtain ⟨h1, h2, h3⟩ := (ih g).mp hs
        subst ha
        refine ⟨by simp [h1], ?_, h3⟩
        simp only [List.mem_cons, not_or]
        exact ⟨fun e => hc e.symm, h2⟩
      · rintro ⟨h, ha, hb⟩
        cases a with
        | nil =>
          simp only [List.nil_append, List.cons.injEq] at h
          exact absurd h.1 hc
        | cons x xs =>
          simp only [List.cons_append, List.cons.injEq] at h
          simp only [List.mem_cons, not_or] at ha
          obtain ⟨hx, hrest⟩ := h
          subst hx
          have := (ih xs).mpr ⟨hrest, ha.2, hb⟩
          rw [hs] at this
          simp only [List.cons.injEq] at this
          simp [this.1, this.2]

theorem checkCredentials_loop_spec (rt : Runtime) (token : String) (creds : List String)
    (hcreds : ∀ c ∈ creds, ':' ∈ (rt.base64Decode c).data) :
    (token ∈ creds → ∃ uid, checkCredentials.loop rt token creds = .ret ⟨none, some uid⟩) ∧
    (token ∉ creds → checkCredentials.loop rt token creds =
      .ret ⟨some "Invalid credentials", none⟩) := by
  induction creds with
  | nil => simp [checkCredentials.loop]
  | cons c cs ih =>
    have hcs : ∀ x ∈ cs, ':' ∈ (rt.base64Decode x).data :=
      fun x hx => hcreds x (List.mem_cons_of_mem _ hx)
    obtain ⟨ih1, ih2⟩ := ih hcs
    by_cases hc : c = token
    · have hcolon : ':' ∈ (rt.base64Decode c).data := hcreds c (List.mem_cons_self _ _)
      have hb : ∃ u v, breakAt (fun x => decide (x = ':')) (rt.base64Decode c).data =
          some (u, v) := by
        generalize (rt.base64Decode c).data = l at hcolon
        induction l with
        | nil => simp at hcolon
        | cons x xs ihl =>
          by_cases hx : x = ':'
          · exact ⟨[], xs, by simp [breakAt, hx]⟩
          · have hin : ':' ∈ xs := by
              rcases List.mem_cons.mp hcolon with e | e
              · exact absurd e.symm hx
              · exact e
            obtain ⟨u, v, huv⟩ := ihl hin
            exact ⟨x :: u, v, by simp [breakAt, hx, huv]⟩
      obtain ⟨u, v, huv⟩ := hb
      subst hc
      refine ⟨fun _ => ⟨String.mk u, ?_⟩, fun hn => absurd (List.mem_cons_self _ _) hn⟩
      simp [checkCredentials.loop, huv]
    · refine ⟨fun hin => ?_, fun hn => ?_⟩
      · have hin2 : token ∈ cs := by
          rcases List.mem_cons.mp hin with e | e
          · exact absurd e.symm hc
          · exact e
        obtain ⟨uid, hu⟩ := ih1 hin2
        exact ⟨uid, by simp [checkCredentials.loop, hc, hu]⟩
      · have hn2 : token ∉ cs := fun e => hn (List.mem_cons_of_mem _ e)
        simp [checkCredentials.loop, hc, ih2 hn2]

theorem string_eq_fields (value scheme token : String) :
    value = scheme ++ " " ++ token ↔ value.data = scheme.data ++ ' ' :: token.data := by
  rw [String.ext_iff]
  simp [String.data_append]

theorem checkCredentials_of_fields (rt : Runtime) (h : Handler) (r : Request)
    (a b : List Char)
    (hl : splitOnChar ' ' (Header.Get rt r.Header "Proxy-Authorization").data = [a, b]) :
    checkCredentials rt h r =
      if rt.ToLower (String.mk a) ≠ "basic" then .ret ⟨some "Auth type is not supported", none⟩
      else checkCredentials.loop rt (String.mk b) h.AuthCredentials := by
  unfold checkCredentials
  rw [hl]
  rfl

theorem checkCredentials_of_not_fields (rt : Runtime) (h : Handler) (r : Request)
    (hl : (splitOnChar ' ' (Header.Get rt r.Header "Proxy-Authorization").data).length ≠ 2) :
    checkCredentials rt h r =
      .ret ⟨some "Proxy-Authorization is required! Expected format: <type> <credentials>",
        none⟩ := by
  unfold checkCredentials
  rcases hs : splitOnChar ' ' (Header.Get rt r.Header "Proxy-Authorization").data with
    _ | ⟨a, _ | ⟨b, _ | ⟨c, t⟩⟩⟩
  · rfl
  · rfl
  · rw [hs] at hl
    simp at hl
  · rfl

/-- C11: for a handler whose credentials all decode to a string with a colon
(as the encodings of `user:pass` strings do), `checkCredentials` returns without
error exactly when the `Proxy-Authorization` value is two fields separated by
one space, the first equal to `basic` once lowercased and the second equal,
character by character, to one of the credentials; every other value, among
them the absent header, a value with another number of fields, another scheme
and a token equal to no credential, yields an authentication error. -/
theorem checkCredentials_iff (rt : Runtime) (h : Handler) (r : Request)
    (hcreds : ∀ c ∈ h.AuthCredentials, ':' ∈ (rt.base64Decode c).data) :
    ((∃ uid, checkCredentials rt h r = .ret ⟨none, uid⟩) ↔
      AcceptedAuthorization rt h (Header.Get rt r.Header "Proxy-Authorization")) ∧
    (¬ AcceptedAuthorization rt h (Header.Get rt r.Header "Proxy-Authorization") →
      ∃ e, checkCredentials rt h r = .ret ⟨some e, none⟩) ∧
    (Header.Get rt r.Header "Proxy-Authorization" = "" →
      ∃ e, checkCredentials rt h r = .ret ⟨some e, none⟩) ∧
    ((splitOnChar ' ' (Header.Get rt r.Header "Proxy-Authorization").data).length ≠ 2 →
      ∃ e, checkCredentials rt h r = .ret ⟨some e, none⟩) ∧
    (∀ scheme token : String,
      Header.Get rt r.Header "Proxy-Authorization" = scheme ++ " " ++ token →
      ' ' ∉ scheme.data → ' ' ∉ token.data →
      (rt.ToLower scheme ≠ "basic" ∨ token ∉ h.AuthCredentials) →
      ∃ e, checkCredentials rt h r = .ret ⟨some e, none⟩) := by
  have hfields : ∀ scheme token : String,
      Header.Get rt r.Header "Proxy-Authorization" = scheme ++ " " ++ token →
      ' ' ∉ scheme.data → ' ' ∉ token.data →
      checkCredentials rt h r =
        if rt.ToLower scheme ≠ "basic" then .ret ⟨some "Auth type is not supported", none⟩
        else checkCredentials.loop rt token h.AuthCredentials := by
    intro scheme token hv hs ht
    have hl := (splitOnChar_eq_pair ' ' _ scheme.data token.data).mpr
      ⟨(string_eq_fields _ scheme token).mp hv, hs, ht⟩
    exact checkCredentials_of_fields rt h r scheme.data token.data hl
  have hbad : ∀ scheme token : String,
      Header.Get rt r.Header "Proxy-Authorization" = scheme ++ " " ++ token →
      ' ' ∉ scheme.data → ' ' ∉ token.data →
      (rt.ToLower scheme ≠ "basic" ∨ token ∉ h.AuthCredentials) →
      ∃ e, checkCredentials rt h r = .ret ⟨some e, none⟩ := by
    intro scheme token hv hs ht hor
    rw [hfields scheme token hv hs ht]
    by_cases hb : rt.ToLower scheme = "basic"
    · rcases hor with hne | hnot
      · exact absurd hb hne
      · refine ⟨"Invalid credentials", ?_⟩
        simp [hb, (checkCredentials_loop_spec rt token h.AuthCredentials hcreds).2 hnot]
    · exact ⟨"Auth type is not supported", by simp [hb]⟩
  have hnot : ¬ AcceptedAuthorization rt h (Header.Get rt r.Header "Proxy-Authorization") →
      ∃ e, checkCredentials rt h r = .ret ⟨some e, none⟩ := by
    intro hna
    by_cases hlen : (splitOnChar ' ' (Header.Get rt r.Header "Proxy-Authorization").data).length
        = 2
    · rcases hs : splitOnChar ' ' (Header.Get rt r.Header "Proxy-Authorization").data with
        _ | ⟨a, _ | ⟨b, _ | ⟨c, t⟩⟩⟩
      · rw [hs] at hlen; simp at hlen
      · rw [hs] at hlen; simp at hlen
      · obtain ⟨hv, ha, hb⟩ := (splitOnChar_eq_pair ' ' _ a b).mp hs
        have hv2 : Header.Get rt r.Header "Proxy-Authorization" =
            String.mk a ++ " " ++ String.mk b := (string_eq_fields _ _ _).mpr hv
        refine hbad (String.mk a) (String.mk b) hv2 ha hb ?_
        by_contra hcon
        simp only [not_or, not_not] at hcon
        exact hna ⟨String.mk a, String.mk b, hv2, ha, hb, hcon.1, hcon.2⟩
      · rw [hs] at hlen; simp at hlen
    · exact ⟨_, checkCredentials_of_not_fields rt h r hlen⟩
  refine ⟨⟨?_, ?_⟩, hnot, ?_, ?_, hbad⟩
  · rintro ⟨uid, hok⟩
    by_contra hna
    obtain ⟨e, he⟩ := hnot hna
    rw [he] at hok
    simp at hok
  · rintro ⟨scheme, token, hv, hs, ht, hb, hin⟩
    obtain ⟨uid, hu⟩ := (checkCredentials_loop_spec rt token h.AuthCredentials hcreds).1 hin
    exact ⟨some uid, by rw [hfields scheme token hv hs ht]; simp [hb, hu]⟩
  · intro hempty
    refine ⟨_, checkCredentials_of_not_fields rt h r ?_⟩
    rw [hempty]
    decide
  · intro hlen
    exact ⟨_, checkCredentials_of_not_fields rt h r hlen⟩

/-- Witness of C11: with the one credential `user:pass`, the values
`Basic dXNlcjpwYXNz` and `bAsIc dXNlcjpwYXNz` are accepted; the absent header, a
value with two spaces, the scheme `Digest` and a wrong token give an error. -/
theorem checkCredentials_iff_witness :
    (∃ uid, checkCredentials stdRuntime stdAuthHandler
      (requestWithAuthorization ["Basic dXNlcjpwYXNz"]) = .ret ⟨none, uid⟩) ∧
    (∃ uid, checkCredentials stdRuntime stdAuthHandler
      (requestWithAuthorization ["bAsIc dXNlcjpwYXNz"]) = .ret ⟨none, uid⟩) ∧
    (∃ e, checkCredentials stdRuntime stdAuthHandler
      (requestWithAuthorization []) = .ret ⟨some e, none⟩) ∧
    (∃ e, checkCredentials stdRuntime stdAuthHandler
      (requestWithAuthorization ["Basic  dXNlcjpwYXNz"]) = .ret ⟨some e, none⟩) ∧
    (∃ e, checkCredentials stdRuntime stdAuthHandler
      (requestWithAuthorization ["Digest dXNlcjpwYXNz"]) = .ret ⟨some e, none⟩) ∧
    (∃ e, checkCredentials stdRuntime stdAuthHandler
      (requestWithAuthorization ["Basic d3Jvbmc6d3Jvbmc="]) = .ret ⟨some e, none⟩) :=
  ⟨(checkCredentials_iff stdRuntime stdAuthHandler _ (by decide)).1.mpr
      ⟨"Basic", "dXNlcjpwYXNz", by decide, by decide, by decide, by decide, by decide⟩,
   (checkCredentials_iff stdRuntime stdAuthHandler _ (by decide)).1.mpr
      ⟨"bAsIc", "dXNlcjpwYXNz", by decide, by decide, by decide, by decide, by decide⟩,
   (checkCredentials_iff stdRuntime stdAuthHandler _ (by decide)).2.2.1 (by decide),
   (checkCredentials_iff stdRuntime stdAuthHandler _ (by decide)).2.2.2.1 (by decide),
   (checkCredentials_iff stdRuntime stdAuthHandler _ (by decide)).2.2.2.2
      "Digest" "dXNlcjpwYXNz" (by decide) (by decide) (by decide) (Or.inl (by decide)),
   (checkCredentials_iff stdRuntime stdAuthHandler _ (by decide)).2.2.2.2
      "Basic" "d3Jvbmc6d3Jvbmc=" (by decide) (by decide) (by decide) (Or.inr (by decide))⟩

/-! ### Base64 and the `basic_auth` round trip -/

theorem b64_alphabet : ∀ i, i < 64 → b64Val (b64Char i) = some i ∧ b64Char i ≠ '=' ∧
    b64Char i ≠ ' ' := by
  decide

theorem b64Char_ne_space (i : Nat) : b64Char i ≠ ' ' := by
  by_cases hi : i < 64
  · exact (b64_alphabet i hi).2.2
  · have : b64Char i = '=' := by
      unfold b64Char
      rw [List.getD_eq_default]
      simpa [encodeStd] using Nat.le_of_not_lt hi
    rw [this]
    decide

theorem base64Encode_go_no_space (bs : List Nat) : ' ' ∉ base64Encode.go bs := by
  induction bs using base64Encode.go.induct with
  | case1 => simp [base64Encode.go]
  | case2 a =>
    simp only [base64Encode.go, List.mem_cons, List.mem_singleton, not_or, List.not_mem_nil,
      or_false]
    exact ⟨(b64Char_ne_space _).symm, (b64Char_ne_space _).symm, by decide, by decide⟩
  | case3 a b =>
    simp only [base64Encode.go, List.mem_cons, List.mem_singleton, not_or, List.not_mem_nil,
      or_false]
    exact ⟨(b64Char_ne_space _).symm, (b64Char_ne_space _).symm, (b64Char_ne_space _).symm,
      by decide⟩
  | case4 a b c rest ih =>
    simp only [base64Encode.go, List.mem_cons, not_or]
    exact ⟨(b64Char_ne_space _).symm, (b64Char_ne_space _).symm, (b64Char_ne_space _).symm,
      (b64Char_ne_space _).symm, ih⟩

theorem base64_round_trip (bs : List Nat) (hb : ∀ x ∈ bs, x < 256) :
    base64Decode.go (base64Encode.go bs) = bs := by
  induction bs using base64Encode.go.induct with
  | case1 => rfl
  | case2 a =>
    have ha : a < 256 := hb a (by simp)
    obtain ⟨h1, _, _⟩ := b64_alphabet (a / 4) (by omega)
    obtain ⟨h2, _, _⟩ := b64_alphabet (a % 4 * 16) (by omega)
    simp only [base64Encode.go, base64Decode.go, h1, h2, and_self, if_true, List.cons.injEq,
      and_true]
    omega
  | case3 a b =>
    have ha : a < 256 := hb a (by simp)
    have hb2 : b < 256 := hb b (by simp)
    obtain ⟨h1, _, _⟩ := b64_alphabet (a / 4) (by omega)
    obtain ⟨h2, _, _⟩ := b64_alphabet (a % 4 * 16 + b / 16) (by omega)
    obtain ⟨h3, h3n, _⟩ := b64_alphabet (b % 16 * 4) (by omega)
    simp only [base64Encode.go, base64Decode.go, h1, h2, h3, h3n, false_and, if_false, if_true,
      List.cons.injEq, and_true]
    omega
  | case4 a b c rest ih =>
    have ha : a < 256 := hb a (by simp)
    have hb2 : b < 256 := hb b (by simp)
    have hc : c < 256 := hb c (by simp)
    have hrest : ∀ x ∈ rest, x < 256 := fun x hx => hb x (by simp [hx])
    obtain ⟨h1, _, _⟩ := b64_alphabet (a / 4) (by omega)
    obtain ⟨h2, _, _⟩ := b64_alphabet (a % 4 * 16 + b / 16) (by omega)
    obtain ⟨h3, h3n, _⟩ := b64_alphabet (b % 16 * 4 + c / 64) (by omega)
    obtain ⟨h4, h4n, _⟩ := b64_alphabet (c % 64) (by omega)
    simp only [base64Encode.go, base64Decode.go, h1, h2, h3, h3n, h4, h4n, false_and, if_false,
      List.cons.injEq, ih hrest, and_true]
    omega

theorem base64DecodeBuf_encode (s : String) (hs : IsBytes s) :
    ∃ pad : List Char, (base64DecodeBuf (base64Encode s)).data = s.data ++ pad := by
  have hb : ∀ x ∈ bytesOf s, x < 256 := by
    intro x hx
    simp only [bytesOf, List.mem_map] at hx
    obtain ⟨c, hc, rfl⟩ := hx
    exact hs c hc
  refine ⟨(List.replicate (DecodedLen (base64Encode s).length - (bytesOf s).length) 0).map
    Char.ofNat, ?_⟩
  unfold base64DecodeBuf stringOf
  have hdata : (base64Encode s).data = base64Encode.go (bytesOf s) := rfl
  rw [hdata, base64_round_trip (bytesOf s) hb]
  simp only [List.map_append, bytesOf, List.map_map]
  congr 1
  have : (Char.ofNat ∘ fun c : Char => c.toNat) = id := by
    funext c
    simp [Char.ofNat_toNat]
  rw [this, List.map_id]

theorem breakAt_append (p : Char → Bool) (l : List Char) (x : Char) (r : List Char)
    (hl : ∀ y ∈ l, p y = false) (hx : p x = true) :
    breakAt p (l ++ x :: r) = some (l, r) := by
  induction l with
  | nil => simp [breakAt, hx]
  | cons y ys ih =>
    have hy : p y = false := hl y (by simp)
    have hys : ∀ z ∈ ys, p z = false := fun z hz => hl z (by simp [hz])
    simp [breakAt, hy, ih hys]

theorem checkCredentials_loop_user (rt : Runtime) (token : String) (creds : List String)
    (user rest : List Char) (hin : token ∈ creds)
    (hbreak : breakAt (fun c => decide (c = ':')) (rt.base64Decode token).data =
      some (user, rest)) :
    checkCredentials.loop rt token creds = .ret ⟨none, some (String.mk user)⟩ := by
  induction creds with
  | nil => simp at hin
  | cons c cs ih =>
    by_cases hc : c = token
    · subst hc
      simp [checkCredentials.loop, hbreak]
    · have hin2 : token ∈ cs := by
        rcases List.mem_cons.mp hin with e | e
        · exact absurd e.symm hc
        · exact e
      simp [checkCredentials.loop, hc, ih hin2]

/-- C12: for a non-empty user name `u` without `:` and a password `p` (byte
strings), the `basic_auth` directive with the arguments `u` and `p` sets
`auth_required` and appends `base64(u + ":" + p)` to the credentials; a request
whose `Proxy-Authorization` is `Basic base64(u + ":" + p)` then passes
`checkCredentials` without panic, and the value stored under
`http.auth.user.id` is `u`. The directive rejects an empty user name and a user
name that contains `:`. The runtime decodes base64 as the Go library does. -/
theorem basic_auth_round_trip (rt : Runtime) (h : Handler) (u p : String)
    (hu : u ≠ "") (hcolon : ':' ∉ u.data) (hub : IsBytes u) (hpb : IsBytes p)
    (hdec : rt.base64Decode = base64DecodeBuf) (hlow : rt.ToLower "Basic" = "basic") :
    (∃ h1, UnmarshalCaddyfile rt h true [] [⟨"basic_auth", [u, p], []⟩] = .ok h1 ∧
      h1.AuthRequired = true ∧
      h1.AuthCredentials = h.AuthCredentials ++ [base64Encode (u ++ ":" ++ p)] ∧
      ∀ r : Request,
        Header.Get rt r.Header "Proxy-Authorization" =
          "Basic" ++ " " ++ base64Encode (u ++ ":" ++ p) →
        checkCredentials rt h1 r = .ret ⟨none, some u⟩) ∧
    (∀ q : String, ∃ e,
      UnmarshalCaddyfile rt h true [] [⟨"basic_auth", ["", q], []⟩] = .error e) ∧
    (∀ v q : String, ':' ∈ v.data → ∃ e,
      UnmarshalCaddyfile rt h true [] [⟨"basic_auth", [v, q], []⟩] = .error e) := by
  have hlen : ¬ u.length = 0 := by
    have := (length_pos_iff_ne_empty u).mpr hu
    omega
  refine ⟨⟨{ h with
      AuthCredentials := h.AuthCredentials ++ [base64Encode (u ++ ":" ++ p)],
      AuthRequired := true }, ?_, rfl, rfl, ?_⟩, ?_, ?_⟩
  · simp [UnmarshalCaddyfile, UnmarshalCaddyfile.loop, UnmarshalCaddyfile.subdirective, hlen,
      hcolon]
  · intro r hv
    have hsplit := (splitOnChar_eq_pair ' ' _ "Basic".data
      (base64Encode (u ++ ":" ++ p)).data).mpr
      ⟨(string_eq_fields _ "Basic" _).mp hv, by decide, base64Encode_go_no_space _⟩
    rw [checkCredentials_of_fields rt _ r _ _ hsplit]
    have hl2 : rt.ToLower (String.mk "Basic".data) = "basic" := hlow
    rw [if_neg (by simp [hl2])]
    have hbytes : IsBytes (u ++ ":" ++ p) := by
      intro c hc
      simp only [String.data_append, List.mem_append] at hc
      rcases hc with (hc | hc) | hc
      · exact hub c hc
      · have : c = ':' := by simpa using hc
        subst this
        decide
      · exact hpb c hc
    obtain ⟨pad, hpad⟩ := base64DecodeBuf_encode (u ++ ":" ++ p) hbytes
    have hbreak : breakAt (fun c => decide (c = ':'))
        (rt.base64Decode (String.mk (base64Encode (u ++ ":" ++ p)).data)).data =
        some (u.data, p.data ++ pad) := by
      rw [hdec]
      show breakAt _ (base64DecodeBuf (base64Encode (u ++ ":" ++ p))).data = _
      rw [hpad]
      have : (u ++ ":" ++ p).data ++ pad = u.data ++ ':' :: (p.data ++ pad) := by
        simp [String.data_append]
      rw [this]
      exact breakAt_append _ u.data ':' _ (fun y hy => by
        simpa using fun e : y = ':' => hcolon (e ▸ hy)) (by simp)
    exact checkCredentials_loop_user rt _ _ u.data _ (by simp) hbreak
  · intro q
    exact ⟨_, by simp [UnmarshalCaddyfile, UnmarshalCaddyfile.loop,
      UnmarshalCaddyfile.subdirective]; rfl⟩
  · intro v q hv
    by_cases hv0 : v.length = 0
    · exact ⟨"empty usernames are not allowed", by
        simp [UnmarshalCaddyfile, UnmarshalCaddyfile.loop, UnmarshalCaddyfile.subdirective,
          hv0]⟩
    · exact ⟨"character ':' in usernames is not allowed", by
        simp [UnmarshalCaddyfile, UnmarshalCaddyfile.loop, UnmarshalCaddyfile.subdirective,
          hv0, hv]⟩

/-- Witness of C12: `basic_auth user pass` stores `dXNlcjpwYXNz`, and the
request with `Proxy-Authorization: Basic dXNlcjpwYXNz` is authenticated as
`user`. -/
theorem basic_auth_round_trip_witness :
    ∃ h1, UnmarshalCaddyfile stdRuntime {} true [] [⟨"basic_auth", ["user", "pass"], []⟩] =
        .ok h1 ∧
      h1.AuthRequired = true ∧ h1.AuthCredentials = ["dXNlcjpwYXNz"] ∧
      checkCredentials stdRuntime h1 (requestWithAuthorization ["Basic dXNlcjpwYXNz"]) =
        .ret ⟨none, some "user"⟩ := by
  obtain ⟨h1, hok, hreq, hcred, hcheck⟩ :=
    (basic_auth_round_trip stdRuntime {} "user" "pass" (by decide) (by decide)
      (by unfold IsBytes; decide) (by unfold IsBytes; decide) rfl rfl).1
  exact ⟨h1, hok, hreq, by rw [hcred]; decide, hcheck _ (by decide)⟩

/-! ### `removeHopByHop` -/

theorem foldl_Del_eq_filter (rt : Runtime) (keys : List String) (hd : Header) :
    keys.foldl (fun acc key => Header.Del rt acc key) hd =
      hd.filter (fun kv => decide (kv.1 ∉ keys.map rt.CanonicalMIMEHeaderKey)) := by
  induction keys generalizing hd with
  | nil => simp
  | cons k ks ih =>
    rw [List.foldl_cons, ih]
    simp only [Header.Del, List.filter_filter, List.map_cons, List.mem_cons, not_or]
    congr 1
    funext kv
    by_cases h1 : kv.1 = rt.CanonicalMIMEHeaderKey k <;>
      by_cases h2 : kv.1 ∈ ks.map rt.CanonicalMIMEHeaderKey <;> simp [h1, h2]

theorem removeHopByHop_eq_filter (rt : Runtime) (header : Header) :
    removeHopByHop rt header =
      header.filter (fun kv => decide (kv.1 ∉ removedKeys rt header)) := by
  unfold removeHopByHop removedKeys
  simp only
  have h1 : (splitOnChar ',' (Header.Get rt header "Connection").data).foldl
      (fun hd tok => Header.Del rt hd (rt.TrimSpace (String.mk tok))) header =
      ((splitOnChar ',' (Header.Get rt header "Connection").data).map
        (fun tok => rt.TrimSpace (String.mk tok))).foldl
        (fun acc key => Header.Del rt acc key) header := by
    rw [List.foldl_map]
  rw [h1, foldl_Del_eq_filter, foldl_Del_eq_filter, List.filter_filter]
  congr 1
  funext kv
  simp only [List.map_map, List.mem_append, not_or, Bool.decide_and, Bool.and_comm]
  rfl

theorem forwardResponse_sent (rt : Runtime) (w : ResponseWriter) (response : Response)
    (hfresh : w.status = none) :
    (forwardResponse rt w response).1.sent =
      removeHopByHop rt (forwardResponse.merged rt w response) ∧
    (forwardResponse rt w response).1.status = some response.StatusCode := by
  unfold forwardResponse forwardResponse.merged
  simp only
  split
  · split <;> simp [ResponseWriter.WriteHeader, ResponseWriter.Write, hfresh]
  · simp [ResponseWriter.WriteHeader, hfresh]

/-- C14, the code at the failing input: with `hide_via` set, the request sent
on for `GET http://example.test/x` has no `Via` value, but the response
returned to the client carries `Via: 1.1 caddy`, which `forwardResponse` adds
without looking at `HideVia`. -/
theorem ServeHTTP_hide_via_response_has_via :
    hideViaHandler.HideVia = true ∧
    (ServeHTTP forwardRuntime hideViaHandler {} {} forwardRequest exampleNext).get?.map
        (fun res =>
          (res.forwarded.map (fun r => Header.values forwardRuntime r.Header "Via"),
           res.w.status, Header.values forwardRuntime res.w.sent "Via", res.w.body)) =
      some (some [], some 200, ["1.1 caddy"], "hello") := by
  refine ⟨by decide, by decide⟩

theorem forwardResponse_ignores_handler (rt : Runtime) (w : ResponseWriter)
    (response : Response) (hfresh : w.status = none)
    (hvia : rt.CanonicalMIMEHeaderKey "Via" ∉
      removedKeys rt (forwardResponse.merged rt w response)) :
    ∃ kv ∈ (forwardResponse rt w response).1.sent,
      kv.1 = rt.CanonicalMIMEHeaderKey "Via" := by
  have hadd : ∀ (hd : Header) (key value : String),
      ∃ kv ∈ Header.Add rt hd key value, kv.1 = rt.CanonicalMIMEHeaderKey key := by
    intro hd key value
    unfold Header.Add
    split
    · rename_i hany
      obtain ⟨x, hx, hxe⟩ := List.any_eq_true.mp hany
      have hxe2 : x.1 = rt.CanonicalMIMEHeaderKey key := by simpa using hxe
      exact ⟨(x.1, x.2 ++ [value]), List.mem_map.mpr ⟨x, hx, by simp [hxe2]⟩, hxe2⟩
    · exact ⟨_, List.mem_append_right _ (List.mem_singleton_self _), rfl⟩
  have hkeep : ∀ (hd : Header) (key value k : String),
      (∃ kv ∈ hd, kv.1 = k) → ∃ kv ∈ Header.Add rt hd key value, kv.1 = k := by
    intro hd key value k ⟨x, hx, hxe⟩
    unfold Header.Add
    split
    · by_cases hk : x.1 = rt.CanonicalMIMEHeaderKey key
      · exact ⟨(x.1, x.2 ++ [value]), List.mem_map.mpr ⟨x, hx, by simp [hk]⟩, hxe⟩
      · exact ⟨x, List.mem_map.mpr ⟨x, hx, by simp [hk]⟩, hxe⟩
    · exact ⟨x, List.mem_append_left _ hx, hxe⟩
  have hvals : ∀ (vals : List String) (hd : Header) (key k : String),
      (∃ kv ∈ hd, kv.1 = k) →
      ∃ kv ∈ vals.foldl (fun acc val => Header.Add rt acc key val) hd, kv.1 = k := by
    intro vals
    induction vals with
    | nil => intro hd key k hk; exact hk
    | cons v vs ih => intro hd key k hk; exact ih _ key k (hkeep hd key v k hk)
  have hall : ∀ (hs : Header) (hd : Header) (k : String),
      (∃ kv ∈ hd, kv.1 = k) →
      ∃ kv ∈ hs.foldl
        (fun acc kv => kv.2.foldl (fun acc val => Header.Add rt acc kv.1 val) acc) hd,
        kv.1 = k := by
    intro hs
    induction hs with
    | nil => intro hd k hk; exact hk
    | cons x xs ih => intro hd k hk; exact ih _ k (hvals x.2 hd x.1 k hk)
  obtain ⟨kv, hkv, hke⟩ := hall response.Header _ (rt.CanonicalMIMEHeaderKey "Via")
    (hadd (Header.Del rt w.header "Server") "Via"
      (Itoa response.ProtoMajor ++ "." ++ Itoa response.ProtoMinor ++ " caddy"))
  refine ⟨kv, ?_, hke⟩
  rw [(forwardResponse_sent rt w response hfresh).1, removeHopByHop_eq_filter]
  exact List.mem_filter.mpr ⟨hkv, by simpa [hke] using hvia⟩

/-! ### `host_override` -/

theorem loop_ignores_HostOverride (rt : Runtime) (h : Handler) (ov : List (String × String))
    (network host port : String) (bind : Option TCPAddr) (IPs : List IP)
    (err : Option String) (w : World) :
    dialContextCheckACL.loop rt { h with HostOverride := ov } network host port bind IPs err w =
      dialContextCheckACL.loop rt h network host port bind IPs err w := by
  induction IPs generalizing err w with
  | nil => cases err <;> rfl
  | cons ip rest ih =>
    have ha : hostIsAllowed { h with HostOverride := ov } host ip = hostIsAllowed h host ip := rfl
    cases hb : hostIsAllowed h host ip with
    | false =>
      simp only [dialContextCheckACL.loop, ha, hb, Bool.not_false, if_true]
      exact ih err w
    | true =>
      simp only [dialContextCheckACL.loop, ha, hb, Bool.not_true, Bool.false_eq_true, if_false]
      rcases h.dialContext w network (dialAddress rt port ip) bind with ⟨⟨c, e⟩, w1⟩
      cases e with
      | none => rfl
      | some e => simp only [ih]

theorem dialContextCheckACL_ignores_HostOverride (rt : Runtime) (h : Handler)
    (ov : List (String × String)) (w : World) (network hostPort : String)
    (bind : Option TCPAddr) :
    dialContextCheckACL rt { h with HostOverride := ov } w network hostPort bind =
      dialContextCheckACL rt h w network hostPort bind := by
  have hp : ∀ port, portIsAllowed { h with HostOverride := ov } port = portIsAllowed h port :=
    fun _ => rfl
  unfold dialContextCheckACL
  simp only [hp, loop_ignores_HostOverride]

/-- C15, the code at the failing input: the directive `host_override A.test
b.test` stores the key `a.test` with the replacement `b.test`, but for the
target `a.test:443` the handler resolves `a.test` and dials its address
`192.0.2.1`; `b.test`, which resolves to `192.0.2.2`, is neither resolved nor
dialed. -/
theorem dialContextCheckACL_host_override_not_applied :
    overrideHandler.HostOverride = [("a.test", "b.test")] ∧
    overrideHandler.upstream = none ∧
    dialContextCheckACL forwardRuntime overrideHandler {} "tcp" "a.test:443" none =
      ⟨some 7, none, { tick := 2 },
        [.lookupIP "a.test", .dial "tcp" "192.0.2.1:443" none]⟩ ∧
    (forwardRuntime.LookupIP {} "b.test").1.toOption = some [[192, 0, 2, 2]] := by
  refine ⟨by decide, by decide, by decide, by decide⟩

/-! ### The `bind` directive and the source address -/

theorem CIDRMask_go_length (n l : Nat) : (CIDRMask.go n l).length = l := by
  induction l generalizing n with
  | zero => simp [CIDRMask.go]
  | succ l ih =>
    unfold CIDRMask.go
    split <;> simp [ih]

theorem CIDRMask_go_zero (l : Nat) : CIDRMask.go 0 l = List.replicate l 0 := by
  induction l with
  | zero => simp [CIDRMask.go]
  | succ l ih => simp [CIDRMask.go, ih, List.replicate_succ]

theorem maskOnes_replicate_zero (l : Nat) : maskOnes (List.replicate l 0) = 0 := by
  cases l with
  | zero => rfl
  | succ l => simp [List.replicate_succ, maskOnes]

theorem maskOnes_CIDRMask_go (n l : Nat) (hn : n ≤ 8 * l) :
    maskOnes (CIDRMask.go n l) = n := by
  induction l generalizing n with
  | zero =>
    have : n = 0 := by omega
    subst this
    rfl
  | succ l ih =>
    by_cases h8 : 8 ≤ n
    · have hrest := ih (n - 8) (by omega)
      simp only [CIDRMask.go, h8, if_true, maskOnes, hrest]
      by_cases h0 : n - 8 = 0
      · have hz : CIDRMask.go (n - 8) l = List.replicate l 0 := by
          rw [h0]
          exact CIDRMask_go_zero l
        rw [if_neg (by rw [hz]; simp)]
        omega
      · rw [if_neg (fun hc => h0 hc.1)]
        omega
    · have hz : ∀ v : Nat, maskOnes (v :: CIDRMask.go 0 l) =
          if v = 255 then 8 + 0
          else (if v = 254 then 7 else if v = 252 then 6 else if v = 248 then 5
            else if v = 240 then 4 else if v = 224 then 3 else if v = 192 then 2
            else if v = 128 then 1 else 0) := by
        intro v
        have hall : (CIDRMask.go 0 l).all (fun b => b == 0) = true := by
          rw [CIDRMask_go_zero]
          simp
        have hm : maskOnes (CIDRMask.go 0 l) = 0 := by
          rw [CIDRMask_go_zero]
          exact maskOnes_replicate_zero l
        simp [maskOnes, hall, hm]
      simp only [CIDRMask.go, h8, if_false, hz]
      have hlt : n < 8 := by omega
      interval_cases n <;> decide

theorem parseIPv4_length (s : List Char) (ip : IP) (h : parseIPv4 s = some ip) :
    ip.length = 4 := by
  unfold parseIPv4 at h
  split at h
  · simp only [Option.some.injEq] at h
    rw [← h]
    rfl
  · simp at h

theorem parseIPv6_length (s : List Char) (ip : IP) (h : parseIPv6 s = some ip) :
    ip.length = 16 := by
  unfold parseIPv6 at h
  split at h
  · split at h
    · split at h
      · simp only [Option.some.injEq] at h
        rw [← h]
        simp only [List.length_append, List.length_replicate]
        omega
      · simp at h
    · simp at h
  · split at h
    · split at h
      · simp only [Option.some.injEq] at h
        rw [← h]
        assumption
      · simp at h
    · simp at h

theorem ParseIP_length (s : String) (ip : IP) (h : ParseIP s = some ip) : ip.length = 16 := by
  unfold ParseIP at h
  split at h
  · exact parseIPv6_length _ ip h
  · simp only [Option.map_eq_some'] at h
    obtain ⟨v4, hv4, hip⟩ := h
    rw [← hip]
    simp [v4InV6Prefix, parseIPv4_length _ v4 hv4]

theorem maskBytes_length (xs ms : List Nat) (h : ms.length = xs.length) :
    (maskBytes xs ms).length = xs.length := by
  induction xs generalizing ms with
  | nil => cases ms <;> simp [maskBytes]
  | cons x xs ih =>
    cases ms with
    | nil => simp at h
    | cons m ms =>
      simp only [maskBytes, List.length_cons, add_left_inj]
      exact ih ms (by simpa using h)

theorem ParseCIDR_shape (s : String) (net : IPNet) (h : ParseCIDR s = some net) :
    ∃ n l, (l = 4 ∨ l = 16) ∧ n ≤ 8 * l ∧ net.IP.length = l ∧ net.Mask = CIDRMask.go n l := by
  unfold ParseCIDR at h
  split at h
  · simp at h
  · rename_i addr m _
    split at h
    · rename_i ip n hip _
      split at h
      · rename_i hn
        simp only [Option.some.injEq] at h
        have hl : ip.length = 4 ∨ ip.length = 16 := by
          by_cases hc : ':' ∈ addr
          · simp only [hc, if_true] at hip
            exact Or.inr (parseIPv6_length _ ip hip)
          · simp only [hc, if_false] at hip
            exact Or.inl (parseIPv4_length _ ip hip)
        refine ⟨n, ip.length, hl, hn, ?_, ?_⟩
        · rw [← h]
          exact maskBytes_length ip _ (CIDRMask_go_length n ip.length)
        · rw [← h]
          rfl
      · simp at h
    · simp at h

theorem maskedEq_zero (nn x : List Nat) (l : Nat) :
    maskedEq nn (List.replicate l 0) x = true := by
  induction l generalizing nn x with
  | zero => cases nn <;> cases x <;> simp [maskedEq]
  | succ l ih =>
    cases nn with
    | nil => simp [maskedEq]
    | cons n ns =>
      cases x with
      | nil => simp [maskedEq, List.replicate_succ]
      | cons y ys => simp [maskedEq, List.replicate_succ, ih]

theorem maskedEq_prefix (k l : Nat) (nn x : List Nat) (hpre : x.take k = nn.take k) :
    maskedEq nn (CIDRMask.go (8 * k) l) x = true := by
  induction k generalizing l nn x with
  | zero =>
    rw [Nat.mul_zero, CIDRMask_go_zero]
    exact maskedEq_zero nn x l
  | succ k ih =>
    cases l with
    | zero => cases nn <;> cases x <;> simp [CIDRMask.go, maskedEq]
    | succ l =>
      have h8 : 8 ≤ 8 * (k + 1) := by omega
      have hsub : 8 * (k + 1) - 8 = 8 * k := by omega
      simp only [CIDRMask.go, h8, if_true, hsub]
      cases nn with
      | nil => simp [maskedEq]
      | cons n ns =>
        cases x with
        | nil => simp [maskedEq]
        | cons y ys =>
          simp only [List.take_succ_cons, List.cons.injEq] at hpre
          simp [maskedEq, hpre.1, ih l ns ys hpre.2]

theorem IPMask_Size_CIDRMask (n l : Nat) (hn : n ≤ 8 * l) :
    IPMask.Size (CIDRMask.go n l) = (n, 8 * l) := by
  unfold IPMask.Size CIDRMask
  rw [maskOnes_CIDRMask_go n l hn, CIDRMask_go_length]
  simp

theorem dialContext_eq_chooseBind (rt : Runtime) (net : IPNet) (w : World)
    (network address : String) :
    Provision.dialContext rt (some net) w network address none =
      rt.netDial (Provision.chooseBind rt net w).2 "tcp" address
        (some (Provision.chooseBind rt net w).1) := rfl

theorem chooseBind_step (rt : Runtime) (net : IPNet) (k : Nat) (w : World)
    (hk : maskOnes net.Mask >>> 3 = k) (hkl : k ≤ net.IP.length)
    (hinv : ∀ x, w.bindIP = some x → x.length = net.IP.length ∧ x.take k = net.IP.take k) :
    (Provision.chooseBind rt net w).1.IP.length = net.IP.length ∧
    (Provision.chooseBind rt net w).1.IP.take k = net.IP.take k ∧
    (Provision.chooseBind rt net w).1.IP.drop k = randRead rt w.randPos (net.IP.length - k) ∧
    (Provision.chooseBind rt net w).2.bindIP = some (Provision.chooseBind rt net w).1.IP := by
  have hcur : (w.bindIP.getD net.IP).length = net.IP.length ∧
      (w.bindIP.getD net.IP).take k = net.IP.take k := by
    cases hb : w.bindIP with
    | none => simp
    | some x => simpa using hinv x hb
  have htk : ((w.bindIP.getD net.IP).take k).length = k := by
    rw [List.length_take, hcur.1]
    omega
  simp only [Provision.chooseBind, hk, hcur.1]
  refine ⟨?_, ?_, ?_, trivial⟩
  · simp only [List.length_append, htk, randRead, List.length_map, List.length_range]
    omega
  · rw [List.take_append_of_le_length (by omega), List.take_take, min_self, hcur.2]
  · rw [List.drop_append_of_le_length (by omega), List.drop_take, Nat.sub_self, List.take_zero,
      List.nil_append]

theorem sourceIPs_spec (rt : Runtime) (net : IPNet) (k : Nat)
    (hframe : ∀ w network address bind,
      (rt.netDial w network address bind).2.bindIP = w.bindIP)
    (hk : maskOnes net.Mask >>> 3 = k) (hkl : k ≤ net.IP.length)
    (targets : List (String × String)) (w : World)
    (hinv : ∀ x, w.bindIP = some x → x.length = net.IP.length ∧ x.take k = net.IP.take k) :
    ∀ ip ∈ sourceIPs rt net targets w,
      ip.length = net.IP.length ∧ ip.take k = net.IP.take k ∧
      ∃ pos, ip.drop k = randRead rt pos (net.IP.length - k) := by
  induction targets generalizing w with
  | nil => simp [sourceIPs]
  | cons target rest ih =>
    obtain ⟨h1, h2, h3, h4⟩ := chooseBind_step rt net k w hk hkl hinv
    intro ip hip
    simp only [sourceIPs, List.mem_cons] at hip
    rcases hip with hip | hip
    · subst hip
      exact ⟨h1, h2, w.randPos, h3⟩
    · refine ih _ ?_ ip hip
      intro x hx
      rw [dialContext_eq_chooseBind, hframe, h4] at hx
      simp only [Option.some.injEq] at hx
      subst hx
      exact ⟨h1, h2⟩

theorem Provision_no_upstream (rt : Runtime) (now : Int) (h h1 : Handler)
    (hup : h.Upstream = "") (hp : Provision rt now h = .ok h1) :
    h1.dialContext = Provision.dialContext rt h.DefaultBind ∧
    h1.DefaultBind = h.DefaultBind ∧ h1.upstream = h.upstream := by
  unfold Provision at hp
  simp only at hp
  cases hc : Provision.compileACL h.ACL h.aclRules with
  | error e => simp [hc] at hp
  | ok rules1 =>
    simp only [hc, compileSubjects_hardCoded, hup] at hp
    split at hp
    · simp at hp
    · simp only [ne_eq, not_true_eq_false, if_false, Except.ok.injEq] at hp
      rw [← hp]
      exact ⟨rfl, rfl, rfl⟩

theorem Provision_upstream (rt : Runtime) (now : Int) (h h1 : Handler)
    (hup : h.Upstream ≠ "") (hp : Provision rt now h = .ok h1) :
    ∃ u upstreamDial, rt.urlParse h.Upstream = .ok u ∧ rt.proxyFromURL u = .ok upstreamDial ∧
      h1.upstream = some u ∧
      h1.dialContext = fun w network address _ => upstreamDial w network address := by
  unfold Provision at hp
  simp only at hp
  cases hc : Provision.compileACL h.ACL h.aclRules with
  | error e => simp [hc] at hp
  | ok rules1 =>
    simp only [hc, compileSubjects_hardCoded] at hp
    split at hp
    · simp at hp
    · simp only [ne_eq, hup, not_false_eq_true, if_true] at hp
      cases hu : rt.urlParse h.Upstream with
      | error e => simp [hu] at hp
      | ok u =>
        simp only [hu] at hp
        split at hp
        · simp at hp
        · cases hd : rt.proxyFromURL u with
          | error e => simp [hd] at hp
          | ok upstreamDial =>
            simp only [hd, Except.ok.injEq] at hp
            rw [← hp]
            exact ⟨u, upstreamDial, rfl, hd, rfl, rfl⟩

theorem bindInvariant_congr (net : IPNet) (w w1 : World) (hb : w1.bindIP = w.bindIP)
    (hinv : bindInvariant net w) : bindInvariant net w1 := by
  intro x hx
  exact hinv x (hb ▸ hx)

theorem dialContext_bindInvariant (rt : Runtime) (net : IPNet) (n l : Nat)
    (hframe : ∀ w network address bind,
      (rt.netDial w network address bind).2.bindIP = w.bindIP)
    (hmask : net.Mask = CIDRMask.go n l) (hlen : net.IP.length = l) (hn : n ≤ 8 * l)
    (hmod : n % 8 = 0) (w : World) (network address : String)
    (hinv : bindInvariant net w) :
    bindInvariant net (Provision.dialContext rt (some net) w network address none).2 := by
  have hones : maskOnes net.Mask = n := by
    rw [hmask]
    exact maskOnes_CIDRMask_go n l hn
  have hk : maskOnes net.Mask >>> 3 = n / 8 := by
    rw [hones, Nat.shiftRight_eq_div_pow]
  have hkl : n / 8 ≤ net.IP.length := by omega
  obtain ⟨h1, h2, _, h4⟩ := chooseBind_step rt net (n / 8) w hk hkl
    (fun x hx => ⟨(hinv x hx).2.1, by have := (hinv x hx).1; rwa [hones] at this⟩)
  intro x hx
  rw [dialContext_eq_chooseBind, hframe, h4] at hx
  simp only [Option.some.injEq] at hx
  subst hx
  rw [hones]
  refine ⟨h2, h1, ?_⟩
  have hm := maskedEq_prefix (n / 8) l net.IP _ h2
  rw [show 8 * (n / 8) = n by omega] at hm
  rw [hmask]
  exact hm

theorem loop_bindInvariant (rt : Runtime) (h1 : Handler) (net : IPNet) (n l : Nat)
    (hframe : ∀ w network address bind,
      (rt.netDial w network address bind).2.bindIP = w.bindIP)
    (hmask : net.Mask = CIDRMask.go n l) (hlen : net.IP.length = l) (hn : n ≤ 8 * l)
    (hmod : n % 8 = 0) (hdial : h1.dialContext = Provision.dialContext rt (some net))
    (network host port : String) (ips : List IP) (err : Option String) (w : World)
    (hinv : bindInvariant net w) :
    bindInvariant net (dialContextCheckACL.loop rt h1 network host port none ips err w).world := by
  induction ips generalizing err w with
  | nil =>
    unfold dialContextCheckACL.loop
    split <;> exact hinv
  | cons ip rest ih =>
    unfold dialContextCheckACL.loop
    split
    · exact ih err w hinv
    · have hstep := dialContext_bindInvariant rt net n l hframe hmask hlen hn hmod w network
        (dialAddress rt port ip) hinv
      rw [← hdial] at hstep
      split
      · rename_i heq
        rw [heq] at hstep
        exact hstep
      · rename_i heq
        rw [heq] at hstep
        exact ih _ _ hstep

theorem dialContextCheckACL_bindInvariant (rt : Runtime) (h1 : Handler) (net : IPNet)
    (n l : Nat)
    (hframe : ∀ w network address bind,
      (rt.netDial w network address bind).2.bindIP = w.bindIP)
    (hlookup : ∀ w host, (rt.LookupIP w host).2.bindIP = w.bindIP)
    (hmask : net.Mask = CIDRMask.go n l) (hlen : net.IP.length = l) (hn : n ≤ 8 * l)
    (hmod : n % 8 = 0) (hdial : h1.dialContext = Provision.dialContext rt (some net))
    (hup : h1.upstream = none)
    (w : World) (network hostPort : String) (hinv : bindInvariant net w) :
    bindInvariant net (dialContextCheckACL rt h1 w network hostPort none).world := by
  have key : ∀ (host : String) (res : Except String (List IP)) (w1 : World),
      rt.LookupIP w host = (res, w1) → w1.bindIP = w.bindIP := by
    intro host res w1 hh
    have := hlookup w host
    rw [hh] at this
    exact this
  unfold dialContextCheckACL
  split
  · exact hinv
  · split
    · exact hinv
    · simp only [hup, Option.isSome_none, Bool.false_eq_true, if_false]
      split
      · exact hinv
      · split
        · rename_i heq
          exact bindInvariant_congr net w _ (key _ _ _ heq) hinv
        · rename_i heq
          exact loop_bindInvariant rt h1 net n l hframe hmask hlen hn hmod hdial _ _ _ _ _ _
            (bindInvariant_congr net w _ (key _ _ _ heq) hinv)

/-- Counterexample to C16 as stated: the configuration with `bind
203.0.113.0/24` and the upstream `https://u.test:8443` is provisioned without
error and keeps the network as `DefaultBind`, but a dial without bind address
of the request goes to the dialer of the upstream: the random source is not
read, no address is written into the array of `DefaultBind`, and the dialer
that takes a local address is not called, while without the upstream the same
dial is made from 203.0.113.1. -/
theorem Provision_upstream_ignores_default_bind :
    (UnmarshalCaddyfile.subdirective upstreamRuntime { Upstream := "https://u.test:8443" }
        ⟨"bind", ["203.0.113.0/24"], []⟩).toOption.map
        (fun h => (h.DefaultBind, h.Upstream)) =
      some (some ⟨[203, 0, 113, 0], [255, 255, 255, 0]⟩, "https://u.test:8443") ∧
    (Provision upstreamRuntime 0 bindUpstreamHandler).toOption.map
        (fun h1 => (h1.DefaultBind, h1.upstream)) =
      some (some ⟨[203, 0, 113, 0], [255, 255, 255, 0]⟩,
        some { Scheme := "https", Host := "u.test:8443" }) ∧
    (Provision upstreamRuntime 0 bindUpstreamHandler).toOption.map
        (fun h1 => (h1.dialContext {} "tcp" "t.test:443" none,
          dialContextCheckACL upstreamRuntime h1 {} "tcp" "a.test:443" none)) =
      some (((some 9, none), { tick := 1, randPos := 0, bindIP := none }),
        ⟨some 9, none, { tick := 1, randPos := 0, bindIP := none },
          [.dial "tcp" "a.test:443" none]⟩) ∧
    (Provision upstreamRuntime 0 bindHandler).toOption.map
        (fun h1 => (h1.dialContext {} "tcp" "t.test:443" none,
          (dialContextCheckACL upstreamRuntime h1 {} "tcp" "a.test:443" none).world)) =
      some (((some 7, none), { tick := 1, randPos := 1, bindIP := some [203, 0, 113, 1] }),
        { tick := 2, randPos := 1, bindIP := some [203, 0, 113, 1] }) := by
  refine ⟨by decide, by decide, by decide, by decide⟩

/-- C16 (amended): the `bind` directive and the source address of a dial. For an
argument that `net.ParseCIDR` accepts, the directive gives the error
"unsupported subnet to bind to: size must be a multiple of 8" when the prefix
length is not a multiple of 8, and stores the network as `DefaultBind` when it
is. When a fresh configuration with that network and without upstream is
provisioned, the handler dials through the default-bind closure of
`Provision`: whatever bytes the random source gives out, a dial without bind
address of the request is made from the address `chooseBind` computes; in any
number of successive dials every such address has the bytes
`[0 .. prefix/8)` of the network address, random bytes from `prefix/8` on, and
lies inside the network; and `dialContextCheckACL` without bind address of the
request keeps the address array of `DefaultBind` an address of the network
with those prefix bytes. With an upstream the provisioned handler dials
through the dialer of the upstream, whatever the bind address and the default
bind. For an argument that is not a CIDR but an IP address, the directive
stores that address with a full mask and every dial of the handler provisioned
without upstream is made from exactly that address. The dialer and the
resolver are assumed not to write into the address array the handler keeps. -/
theorem bind_source_address (rt : Runtime) (h : Handler) (arg : String)
    (hframe : ∀ w network address bind,
      (rt.netDial w network address bind).2.bindIP = w.bindIP)
    (hlookup : ∀ w host, (rt.LookupIP w host).2.bindIP = w.bindIP) :
    (∀ net, ParseCIDR arg = some net →
      (maskOnes net.Mask % 8 ≠ 0 →
        UnmarshalCaddyfile.subdirective rt h ⟨"bind", [arg], []⟩ =
          .error "unsupported subnet to bind to: size must be a multiple of 8") ∧
      (maskOnes net.Mask % 8 = 0 →
        UnmarshalCaddyfile.subdirective rt h ⟨"bind", [arg], []⟩ =
          .ok { h with DefaultBind := some net } ∧
        (∀ now h1, h.Upstream = "" → h.upstream = none →
          Provision rt now { h with DefaultBind := some net } = .ok h1 →
          h1.DefaultBind = some net ∧
          h1.dialContext = Provision.dialContext rt (some net) ∧
          (∀ w network address, h1.dialContext w network address none =
            rt.netDial (Provision.chooseBind rt net w).2 "tcp" address
              (some (Provision.chooseBind rt net w).1)) ∧
          ∀ w network hostPort, bindInvariant net w →
            bindInvariant net (dialContextCheckACL rt h1 w network hostPort none).world) ∧
        (∀ now h1, h.Upstream ≠ "" →
          Provision rt now { h with DefaultBind := some net } = .ok h1 →
          ∃ u upstreamDial, rt.urlParse h.Upstream = .ok u ∧
            rt.proxyFromURL u = .ok upstreamDial ∧
            h1.dialContext = fun w network address _ => upstreamDial w network address) ∧
        (∀ w network address,
          Provision.dialContext rt (some net) w network address none =
            rt.netDial (Provision.chooseBind rt net w).2 "tcp" address
              (some (Provision.chooseBind rt net w).1)) ∧
        ∀ targets w, w.bindIP = none → ∀ ip ∈ sourceIPs rt net targets w,
          ip.take (maskOnes net.Mask / 8) = net.IP.take (maskOnes net.Mask / 8) ∧
          (∃ pos, ip.drop (maskOnes net.Mask / 8) =
            randRead rt pos (net.IP.length - maskOnes net.Mask / 8)) ∧
          inNetwork net ip)) ∧
    (ParseCIDR arg = none → ∀ ip0, ParseIP arg = some ip0 →
      UnmarshalCaddyfile.subdirective rt h ⟨"bind", [arg], []⟩ =
        .ok { h with DefaultBind := some ⟨ip0, CIDRMask (ip0.length * 8) ip0.length⟩ } ∧
      (∀ now h1, h.Upstream = "" →
        Provision rt now
          { h with DefaultBind := some ⟨ip0, CIDRMask (ip0.length * 8) ip0.length⟩ } = .ok h1 →
        h1.dialContext =
          Provision.dialContext rt (some ⟨ip0, CIDRMask (ip0.length * 8) ip0.length⟩)) ∧
      ∀ targets w, w.bindIP = none →
        ∀ ip ∈ sourceIPs rt ⟨ip0, CIDRMask (ip0.length * 8) ip0.length⟩ targets w,
          ip = ip0) := by
  refine ⟨fun net hnet => ?_, fun hnone ip0 hip0 => ?_⟩
  · obtain ⟨n, l, hl, hn, hlen, hmask⟩ := ParseCIDR_shape arg net hnet
    have hones : maskOnes net.Mask = n := by
      rw [hmask]
      exact maskOnes_CIDRMask_go n l hn
    have hsize : IPMask.Size net.Mask = (n, 8 * l) := by
      rw [hmask]
      exact IPMask_Size_CIDRMask n l hn
    have hl0 : 8 * l ≠ 0 := by omega
    refine ⟨fun hmod => ?_, fun hmod =>
      ⟨?_, ?_, ?_, fun w network address => rfl, ?_⟩⟩
    · rw [hones] at hmod
      simp [UnmarshalCaddyfile.subdirective, hnet, hsize, hl0, hmod]
    · rw [hones] at hmod
      simp [UnmarshalCaddyfile.subdirective, hnet, hsize, hl0, hmod]
    · intro now h1 hup hups hp
      obtain ⟨hd, hb, hu⟩ :=
        Provision_no_upstream rt now { h with DefaultBind := some net } h1 hup hp
      rw [hones] at hmod
      refine ⟨hb, hd, ?_, ?_⟩
      · intro w network address
        rw [hd]
        rfl
      · intro w network hostPort hinv
        exact dialContextCheckACL_bindInvariant rt h1 net n l hframe hlookup hmask hlen hn hmod
          hd (hu.trans hups) w network hostPort hinv
    · intro now h1 hup hp
      obtain ⟨u, upstreamDial, h1u, h2u, _, h4u⟩ :=
        Provision_upstream rt now { h with DefaultBind := some net } h1 hup hp
      exact ⟨u, upstreamDial, h1u, h2u, h4u⟩
    · rw [hones] at hmod ⊢
      intro targets w hw ip hip
      have hk : maskOnes net.Mask >>> 3 = n / 8 := by
        rw [hones, Nat.shiftRight_eq_div_pow]
      have hkl : n / 8 ≤ net.IP.length := by omega
      obtain ⟨h1, h2, h3⟩ := sourceIPs_spec rt net (n / 8) hframe hk hkl targets w
        (fun x hx => by rw [hw] at hx; simp at hx) ip hip
      refine ⟨h2, h3, h1, ?_⟩
      have hm := maskedEq_prefix (n / 8) l net.IP ip h2
      rw [show 8 * (n / 8) = n by omega] at hm
      rw [hmask]
      exact hm
  · have hl16 := ParseIP_length arg ip0 hip0
    refine ⟨?_, ?_, ?_⟩
    · simp [UnmarshalCaddyfile.subdirective, hnone, hip0]
    · intro now h1 hup hp
      exact (Provision_no_upstream rt now
        { h with DefaultBind := some ⟨ip0, CIDRMask (ip0.length * 8) ip0.length⟩ } h1 hup hp).1
    · intro targets w hw ip hip
      have hk : maskOnes (IPNet.mk ip0 (CIDRMask (ip0.length * 8) ip0.length)).Mask >>> 3 =
          ip0.length := by
        show maskOnes (CIDRMask.go (ip0.length * 8) ip0.length) >>> 3 = ip0.length
        rw [maskOnes_CIDRMask_go _ _ (by omega), Nat.shiftRight_eq_div_pow]
        omega
      obtain ⟨h1, h2, _⟩ := sourceIPs_spec rt ⟨ip0, CIDRMask (ip0.length * 8) ip0.length⟩
        ip0.length hframe hk (le_refl _) targets w
        (fun x hx => by rw [hw] at hx; simp at hx) ip hip
      simp only at h1 h2
      rw [← h1, List.take_length, h1, List.take_length] at h2
      exact h2

/-- Witness of C16 (amended): with a random source that counts 1, 2, 3, ...,
the directive `bind 203.0.113.0/20` is rejected and `bind 203.0.113.0/24`
stores the network; the handler provisioned from it without upstream dials
through the default-bind closure, its dial for `a.test:443` is made from
203.0.113.1, which it leaves in the address array; three successive dials are
made from 203.0.113.1, 203.0.113.2 and 203.0.113.3, each with the first three
bytes of the network and inside it; and `bind 203.0.113.7` stores the address,
from which every dial is made. -/
theorem bind_source_address_witness :
    UnmarshalCaddyfile.subdirective countingRuntime {} ⟨"bind", ["203.0.113.0/20"], []⟩ =
      .error "unsupported subnet to bind to: size must be a multiple of 8" ∧
    UnmarshalCaddyfile.subdirective countingRuntime {} ⟨"bind", ["203.0.113.0/24"], []⟩ =
      .ok { DefaultBind := some ⟨[203, 0, 113, 0], [255, 255, 255, 0]⟩ } ∧
    (provisioned countingRuntime 0 bindHandler).dialContext =
      Provision.dialContext countingRuntime (some ⟨[203, 0, 113, 0], [255, 255, 255, 0]⟩) ∧
    bindInvariant ⟨[203, 0, 113, 0], [255, 255, 255, 0]⟩
      (dialContextCheckACL countingRuntime (provisioned countingRuntime 0 bindHandler) {}
        "tcp" "a.test:443" none).world ∧
    (dialContextCheckACL countingRuntime (provisioned countingRuntime 0 bindHandler) {}
        "tcp" "a.test:443" none) =
      ⟨some 7, none, { tick := 2, randPos := 1, bindIP := some [203, 0, 113, 1] },
        [.lookupIP "a.test", .dial "tcp" "192.0.2.1:443" none]⟩ ∧
    sourceIPs countingRuntime ⟨[203, 0, 113, 0], [255, 255, 255, 0]⟩
      [("tcp", "a.test:80"), ("tcp", "b.test:80"), ("tcp", "c.test:80")] {} =
      [[203, 0, 113, 1], [203, 0, 113, 2], [203, 0, 113, 3]] ∧
    (∀ ip ∈ sourceIPs countingRuntime ⟨[203, 0, 113, 0], [255, 255, 255, 0]⟩
        [("tcp", "a.test:80"), ("tcp", "b.test:80"), ("tcp", "c.test:80")] {},
      ip.take 3 = [203, 0, 113] ∧
      (∃ pos, ip.drop 3 = randRead countingRuntime pos 1) ∧
      inNetwork ⟨[203, 0, 113, 0], [255, 255, 255, 0]⟩ ip) ∧
    (∀ ip ∈ sourceIPs countingRuntime
        ⟨[0, 0, 0, 0, 0, 0, 0, 0, 0, 0, 255, 255, 203, 0, 113, 7], CIDRMask 128 16⟩
        [("tcp", "a.test:80"), ("tcp", "b.test:80")] {},
      ip = [0, 0, 0, 0, 0, 0, 0, 0, 0, 0, 255, 255, 203, 0, 113, 7]) :=
  ⟨((bind_source_address countingRuntime {} "203.0.113.0/20" (fun _ _ _ _ => rfl)
      (fun _ _ => rfl)).1
      ⟨[203, 0, 112, 0], [255, 255, 240, 0]⟩ (by decide)).1 (by decide),
   (((bind_source_address countingRuntime {} "203.0.113.0/24" (fun _ _ _ _ => rfl)
      (fun _ _ => rfl)).1
      ⟨[203, 0, 113, 0], [255, 255, 255, 0]⟩ (by decide)).2 (by decide)).1,
   ((((bind_source_address countingRuntime {} "203.0.113.0/24" (fun _ _ _ _ => rfl)
      (fun _ _ => rfl)).1
      ⟨[203, 0, 113, 0], [255, 255, 255, 0]⟩ (by decide)).2 (by decide)).2.1
      0 (provisioned countingRuntime 0 bindHandler) rfl rfl rfl).2.1,
   ((((bind_source_address countingRuntime {} "203.0.113.0/24" (fun _ _ _ _ => rfl)
      (fun _ _ => rfl)).1
      ⟨[203, 0, 113, 0], [255, 255, 255, 0]⟩ (by decide)).2 (by decide)).2.1
      0 (provisioned countingRuntime 0 bindHandler) rfl rfl rfl).2.2.2
      {} "tcp" "a.test:443" (fun _ hx => nomatch hx),
   by decide,
   by decide,
   (((bind_source_address countingRuntime {} "203.0.113.0/24" (fun _ _ _ _ => rfl)
      (fun _ _ => rfl)).1
      ⟨[203, 0, 113, 0], [255, 255, 255, 0]⟩ (by decide)).2 (by decide)).2.2.2.2
      [("tcp", "a.test:80"), ("tcp", "b.test:80"), ("tcp", "c.test:80")] {} rfl,
   ((bind_source_address countingRuntime {} "203.0.113.7" (fun _ _ _ _ => rfl)
      (fun _ _ => rfl)).2
      (by decide) [0, 0, 0, 0, 0, 0, 0, 0, 0, 0, 255, 255, 203, 0, 113, 7] (by decide)).2.2
      [("tcp", "a.test:80"), ("tcp", "b.test:80")] {} rfl⟩

end ForwardProxy
